import Mathlib

/-!
# Cx1ClientGo: audit sessions, the asynchronous request poller, query overrides

A shallow embedding of the audit-session and query-editor part of `audit.go`.

Conventions of the embedding

* Go's `int` is the 64-bit two's-complement integer: values are `Int`s and every
  addition and multiplication performed by the code is followed by `wrapInt`.
* The package variables `AUDIT_QUERY_TENANT` and `AUDIT_QUERY_APPLICATION`, which
  `InitializeClient` reassigns, are part of the state a call runs in and are
  carried by the client value.
* A Go `interface{}` holding decoded JSON is a `Dyn`.
* Every `fmt.Errorf` of the source is one constructor of `Error` carrying the
  arguments of the format string; errors made outside `audit.go` (transport,
  `json.Unmarshal`, `GetProjectByID`) are `Error.external`.
* The remote service is a deterministic stub held by the client value: it
  answers the session `POST`, and it answers the `n`-th status `GET` of a poll.
* Effects are recorded in a chronological `List Event`: requests handed to
  `sendRequest`, calls of `GetProjectByID`, and `time.Sleep` calls (recorded by
  the `time.Duration` they are given, in nanoseconds).
* Loops that may run forever take a fuel argument bounding the number of
  iterations; `none` means the fuel ran out before the function returned.
* Calls to `c.logger` have no effect on results and are not modelled; the
  `String()` renderings passed to them and to error messages are taken to return.
* A pointer argument that may be nil is an `Option`; a nil dereference, a failed
  type assertion and an index out of range end the call as `Outcome.panicked`.
* For the editor key a string is the list of its bytes, which is what a Go
  `string` is; elsewhere strings are compared and concatenated only and are
  `String`s.
* Library functions whose tables are not part of the repository
  (`strings.ToLower`, `strings.EqualFold`, `url.QueryEscape`) are fields of the
  client; `base32.StdEncoding` is written out after RFC 4648.
-/

namespace Cx1ClientGo

/-! ## Values, errors, events -/

/-- Decoded JSON held in a Go `interface{}`. -/
inductive Dyn where
  | null
  | bool (b : Bool)
  | number (literal : String)
  | string (s : String)
  | array (items : List Dyn)
  | object (fields : List (String × Dyn))

/-- Width of Go's `int` on the 64-bit targets. -/
def intBits : Nat := 64

/-- Two's-complement wrap-around of an integer result into the range of `int`. -/
def wrapInt (x : Int) : Int :=
  (x + 2 ^ (intBits - 1)) % 2 ^ intBits - 2 ^ (intBits - 1)

/-- The values an `int` can hold. -/
def isInt (x : Int) : Prop := -(2 ^ (intBits - 1)) ≤ x ∧ x < 2 ^ (intBits - 1)

instance (x : Int) : Decidable (isInt x) :=
  inferInstanceAs (Decidable (-(2 ^ (intBits - 1)) ≤ x ∧ x < 2 ^ (intBits - 1)))

/-- Error values; one constructor per `fmt.Errorf` of the modelled functions. -/
inductive Error where
  /-- An error produced outside `audit.go` (transport, JSON decoding, project lookup) -/
  | external (msg : String)
  /-- Format `"query editor returned error code %d: %v"` -/
  | queryEditorCode (code : Int) (message : String)
  /-- Format `"query editor returned error: %v"` -/
  | queryEditorFailed (value : Dyn)
  /-- Format `"audit request %v polled %d seconds without success: ..."` -/
  | pollTimeout (requestId : String) (pollingCounter : Int)
  /-- Format `"unknown engine %v"` -/
  | unknownEngine (engine : String)
  /-- Format `"failed to allocate audit session: %v"` -/
  | allocateFailed (status : String)
  /-- Format `"failed to start audit session: %v"` -/
  | startFailed (status : String)
  /-- Format `"failed to get languages from response: %v"` -/
  | languagesNotList (value : Dyn)
  /-- Format `"requested to create an application-level query but the current %v
  for project %v has no application associated"`; the session is named by its id -/
  | noApplication (sessionID : String)
  /-- Format `"invalid query override level specified ('%v'), use functions ..."` -/
  | invalidOverrideLevel (level : String)
  /-- Format `"base query cannot be nil"` -/
  | baseQueryNil
  /-- Format `"failed to unmarshal response: %s"` -/
  | unmarshalResponse (err : Error)
  /-- Format `"failed to create query: %s"` -/
  | createQueryFailed (err : Error)
  /-- Format `"failed to save source: %s"` -/
  | saveSourceFailed (err : Error)
  /-- Format `"failed due to %s: %v"` -/
  | pollFailed (err : Error) (responseObj : Dyn)
  /-- Format `"failed to unmarshal failure: %s"` -/
  | unmarshalFailure (err : Error)
  /-- Format `"failed to save source"` -/
  | saveSourceRejected
  /-- Format `"query %v does not have an editorKey, this should be retrieved with
  the GetAuditQueries* calls"`; the query is named by its `Name` -/
  | missingEditorKey (query : String)
  /-- Format `"invalid level %v, options are currently: %v or %v"`, with the level
  and the names of the Tenant and Project levels -/
  | invalidLevel (level : String) (tenantLevel : String) (projectLevel : String)
  /-- Format `"failed to send source: %s"` -/
  | sendSourceFailed (err : Error)
  /-- Format `"failed to validate source"` -/
  | validateRejected
  /-- Format `"failed to run: %s"` -/
  | runFailed (err : Error)
  /-- Format `"failed to run query"` -/
  | runRejected
  /-- Format `"failed to run queries, details: %v"`, with the decoded failures -/
  | runRejectedMany (details : List Dyn)
  /-- Format `"HTTP %v: %v"`, with the status line and the extracted text -/
  | http (status : String) (text : String)
  /-- Format `"failed to remove application roles: %s"` -/
  | removeApplicationRolesFailed (err : Error)
  /-- Format `"failed to remove IAM roles: %s"` -/
  | removeIAMRolesFailed (err : Error)

/-- A request handed to `sendRequest`: method, path below `/api`, and the body
as the key/value pairs that are marshalled (keys in marshalling order). -/
structure Request where
  method : String
  path : String
  body : List (String × String)

/-- Observable effects, in the order they happen. -/
inductive Event where
  | request (r : Request)
  | projectLookup (projectId : String)
  | sleep (nanoseconds : Int)

/-! ## Data model -/

/-- The nested `Data` struct of a session descriptor. -/
structure SessionData where
  Status : String := ""
  RequestID : String := ""
  QueryFilters : List String := []

/-- Modelled from the spec: the `AuditSession` type declaration is not part of
the given sources. The wire fields are `id`, `data.status`, `data.requestId` and
`data.queryFilters`; the remaining fields are the ones `audit.go` assigns and
reads, and they are not decoded from JSON. Times are clock readings. -/
structure AuditSession where
  ID : String := ""
  Data : SessionData := {}
  ProjectID : String := ""
  ApplicationID : String := ""
  Engine : String := ""
  Languages : List String := []
  Platforms : List String := []
  CreatedAt : Int := 0
  LastHeartbeat : Int := 0

/-- The part of `Project` used by `audit.go`: `Applications` is a pointer to a
slice, `none` being the nil pointer. -/
structure Project where
  Applications : Option (List String)

/-- The local struct `AuditRequestStatus` of `AuditGetRequestStatusByID`. -/
structure AuditRequestStatus where
  Completed : Bool := false
  Value : Dyn := Dyn.null
  ErrorCode : Int := 0
  ErrorMessage : String := ""
  Status : String := ""

/-- What `sendRequest` followed by `json.Unmarshal(response, &status)` yields for
one status query: a transport error, or the struct as left by the decoder
together with the decoder's error, if any. -/
inductive StatusReply where
  | transportFailed (err : Error)
  | received (status : AuditRequestStatus) (decodeErr : Option Error)

/-- What `sendRequest` followed by `json.Unmarshal(response, &session)` yields for
the session `POST`: a transport error, or the wire fields as left by the decoder
together with the decoder's error, if any. -/
inductive SessionReply where
  | transportFailed (err : Error)
  | received (ID : String) (Data : SessionData) (decodeErr : Option Error)

/-- What `sendRequest` followed by `json.Unmarshal(response, &x)` yields for a
request whose response is decoded into an `α`: a transport error, or the value
as left by the decoder together with the decoder's error, if any. -/
inductive Reply (α : Type) where
  | transportFailed (err : Error)
  | received (decoded : α) (decodeErr : Option Error)

/-- The struct `requestIDBody`. -/
structure requestIDBody where
  Message : String := ""
  Code : Int := 0
  Id : String := ""

/-- Modelled from the spec: the `SASTQuery` type declaration is not part of the
given sources. The fields are the ones `audit.go` reads and writes; `QueryID` and
`SastID` are `uint64`, `CweID` and `QueryDescriptionId` are `int64`. -/
structure SASTQuery where
  QueryID : Nat := 0
  Level : String := ""
  LevelID : String := ""
  Path : String := ""
  Modified : String := ""
  Source : String := ""
  Name : String := ""
  Group : String := ""
  Language : String := ""
  Severity : String := ""
  CweID : Int := 0
  IsExecutable : Bool := false
  QueryDescriptionId : Int := 0
  Custom : Bool := false
  EditorKey : String := ""
  SastID : Nat := 0

/-- Modelled from the spec: the `AuditSASTQueryMetadata` type declaration is not
part of the given sources; the fields are the ones `audit.go` reads. -/
structure AuditSASTQueryMetadata where
  Cwe : Int := 0
  IsExecutable : Bool := false
  CxDescriptionID : Int := 0
  Language : String := ""
  Group : String := ""
  Severity : String := ""
  SastID : Nat := 0
  Name : String := ""

/-- Modelled from the spec: the `AuditSASTQuery` type declaration is not part of
the given sources; the fields are the ones `audit.go` reads and writes. -/
structure AuditSASTQuery where
  Key : String := ""
  Name : String := ""
  Level : String := ""
  LevelID : String := ""
  Path : String := ""
  Source : String := ""
  Metadata : AuditSASTQueryMetadata := {}

/-- Modelled from the spec: the `IACQuery` type declaration is not part of the
given sources; the fields are the ones `audit.go` reads and writes. -/
structure IACQuery where
  QueryID : String := ""
  Level : String := ""
  LevelID : String := ""
  Path : String := ""
  Source : String := ""
  Name : String := ""
  Category : String := ""
  Platform : String := ""
  Severity : String := ""
  Custom : Bool := false
  Description : String := ""
  DescriptionID : String := ""
  DescriptionURL : String := ""
  CWE : String := ""
  Key : String := ""

/-- Modelled from the spec: the `AuditIACQueryMetadata` type declaration is not
part of the given sources; the fields are the ones `audit.go` reads. -/
structure AuditIACQueryMetadata where
  Category : String := ""
  Platform : String := ""
  Severity : String := ""
  Description : String := ""
  DescriptionID : String := ""
  DescriptionURL : String := ""
  Cwe : String := ""

/-- Modelled from the spec: the `AuditIACQuery` type declaration is not part of
the given sources; the fields are the ones `audit.go` reads and writes. -/
structure AuditIACQuery where
  QueryID : String := ""
  Key : String := ""
  Name : String := ""
  Level : String := ""
  LevelID : String := ""
  Path : String := ""
  Source : String := ""
  Metadata : AuditIACQueryMetadata := {}

/-- Modelled from the spec: the `AuditQueryTree` type declaration is not part of
the given sources. A node of the hierarchical collection (language or platform,
group, query); the functions modelled here do not inspect it, so it is kept as
its decoded JSON. -/
structure AuditQueryTree where
  node : Dyn

/-- Modelled from the spec: the `QueryFailure` type declaration is not part of
the given sources. A compilation or validation error of one submitted query; the
functions modelled here only count such records, so one is kept as its decoded
JSON. -/
structure QueryFailure where
  detail : Dyn

/-- The part of `http.Response` read by the transport: the status code, the
status line, and the body not yet read. -/
structure HttpResponse where
  StatusCode : Int
  Status : String
  Body : String

/-- What `createRequest` followed by `c.httpClient.Do(request)` yields: the
request could not be built, or `Do` returned an error (with the text of
`err.Error()`, and a response or nil), or `Do` returned a response. -/
inductive DoResult where
  | invalid (err : Error)
  | failed (response : Option HttpResponse) (err : String)
  | responded (response : HttpResponse)

/-- Modelled from the spec: the `Role` type declaration is not part of the given
sources; the fields are the ones `users.go` reads. -/
structure Role where
  ClientID : String := ""
  RoleID : String := ""
  Name : String := ""

/-- Modelled from the spec: the `User` type declaration is not part of the given
sources; the fields are the ones `RemoveUserRoles` reads and writes. -/
structure User where
  UserID : String := ""
  Roles : List Role := []

/-- The fields of `c.consts` read by the poller. -/
structure ClientVars where
  AuditEnginePollingDelaySeconds : Int
  AuditEnginePollingMaxSeconds : Int

/-- The client together with what it talks to: its polling constants, the
library function `strings.ToLower`, the clock (`now n` is the `n`-th reading of
`time.Now()` within one call), the outcome of `GetProjectByID`, and the stub of
the remote query editor. The remote answers a request other than a status query
as a function of the request alone. -/
structure Cx1Client where
  consts : ClientVars
  ToLower : String → String
  now : Nat → Int
  GetProjectByID : String → Except Error Project
  sessions : Request → SessionReply
  requests : Request → Nat → StatusReply
  /-- The library function `strings.EqualFold`. -/
  EqualFold : String → String → Bool := fun a b => decide (a = b)
  /-- The library function `url.QueryEscape`. -/
  QueryEscape : String → String := fun key => key
  /-- The error of `sendRequest` for a request whose response body is not read. -/
  send : Request → Option Error := fun _ => none
  /-- The remote's answer to a request whose response is a `requestIDBody`. -/
  requestIDs : Request → Reply requestIDBody :=
    fun _ => Reply.transportFailed (Error.external "unreachable")
  /-- The remote's answer to a request whose response is an `AuditSASTQuery`. -/
  sastQueries : Request → Reply AuditSASTQuery :=
    fun _ => Reply.transportFailed (Error.external "unreachable")
  /-- The remote's answer to a request whose response is an `AuditIACQuery`. -/
  iacQueries : Request → Reply AuditIACQuery :=
    fun _ => Reply.transportFailed (Error.external "unreachable")
  /-- The remote's answer to a request whose response is a list of `AuditQueryTree`. -/
  queryTrees : Request → Reply (List AuditQueryTree) :=
    fun _ => Reply.transportFailed (Error.external "unreachable")
  /-- The steps `json.Marshal(val)` and `json.Unmarshal(bytes, &queryFail)`: the
  slice as left by the decoder and the decoder's error, if any. -/
  unmarshalFailures : Dyn → List QueryFailure × Option Error := fun _ => ([], none)
  /-- The method `(*SASTQuery).MergeQuery`, not part of the given sources: the
  receiver after merging the argument into it. -/
  MergeSASTQuery : SASTQuery → SASTQuery → SASTQuery := fun q _ => q
  /-- The method `(*IACQuery).MergeQuery`, not part of the given sources: the
  receiver after merging the argument into it. -/
  MergeIACQuery : IACQuery → IACQuery → IACQuery := fun q _ => q
  /-- The steps `createRequest` and `c.httpClient.Do`. -/
  Do : Request → DoResult := fun _ => DoResult.failed none "unreachable"
  /-- The step `json.Unmarshal(resBody, &msg)` into a `map[string]interface{}`:
  the map, or `none` when the decoder returns an error. -/
  unmarshalObject : String → Option (List (String × Dyn)) := fun _ => none
  /-- The method `GetASTAppID`, not part of the given sources: the id of the
  application client. -/
  GetASTAppID : String := "ast-app"
  /-- The method `GetTenantID`, not part of the given sources. -/
  GetTenantID : String := "tenant"
  /-- The package variable `AUDIT_QUERY_TENANT` as it stands when a call is made:
  declared as `Corp` and reassigned by `InitializeClient`. -/
  AUDIT_QUERY_TENANT : String := "Corp"
  /-- The package variable `AUDIT_QUERY_APPLICATION` as it stands when a call is
  made: declared as `Team` and reassigned by `InitializeClient`. -/
  AUDIT_QUERY_APPLICATION : String := "Team"

/-! ## Status query and poller -/

/-- The `GET` sent by `AuditGetRequestStatusByID`. -/
def statusRequest (auditSession : AuditSession) (requestId : String) : Request :=
  { method := "GET"
    path := "/query-editor/sessions/" ++ auditSession.ID ++ "/requests/" ++ requestId
    body := [] }

/-- `AuditGetRequestStatusByID`, for the `n`-th status query of a poll: returns
`(completed, value, err)` and the request it sent. -/
def AuditGetRequestStatusByID (c : Cx1Client) (auditSession : AuditSession)
    (requestId : String) (n : Nat) : (Bool × Dyn × Option Error) × List Event :=
  let sent := [Event.request (statusRequest auditSession requestId)]
  match c.requests (statusRequest auditSession requestId) n with
  | .transportFailed err => ((false, Dyn.null, some err), sent)
  | .received status (some err) => ((false, status.Value, some err), sent)
  | .received status none =>
    if status.ErrorCode ≠ 0 ∧ status.ErrorMessage ≠ "" then
      ((false, status.Value,
        some (Error.queryEditorCode status.ErrorCode status.ErrorMessage)), sent)
    else if status.Status = "Failed" then
      ((false, status.Value, some (Error.queryEditorFailed status.Value)), sent)
    else
      ((status.Completed, status.Value, none), sent)

/-- The argument `time.Duration(delaySeconds) * time.Second` of `time.Sleep`: an
`int64` product in nanoseconds, `time.Second` being 1000000000. -/
def sleepDuration (delaySeconds : Int) : Int :=
  wrapInt (delaySeconds * 1000000000)

/-- What a poll returns, with the effects it had. -/
structure Polled where
  value : Dyn
  err : Option Error
  log : List Event

/-- The `for` loop of `AuditRequestStatusPollingByIDWithTimeout`, entered with
`n` status queries already made and the given `pollingCounter`. -/
def pollLoop (c : Cx1Client) (auditSession : AuditSession) (requestId : String)
    (delaySeconds maxSeconds : Int) : Nat → Nat → Int → Option Polled
  | 0, _, _ => none
  | fuel + 1, n, pollingCounter =>
    match AuditGetRequestStatusByID c auditSession requestId n with
    | ((status, value, err), sent) =>
      if err.isSome then
        some ⟨value, err, sent⟩
      else if maxSeconds ≠ 0 ∧ pollingCounter ≥ maxSeconds then
        some ⟨value, some (Error.pollTimeout requestId pollingCounter), sent⟩
      else if status then
        some ⟨value, none, sent⟩
      else
        match pollLoop c auditSession requestId delaySeconds maxSeconds fuel (n + 1)
            (wrapInt (pollingCounter + delaySeconds)) with
        | none => none
        | some r =>
          some { r with log := sent ++ Event.sleep (sleepDuration delaySeconds) :: r.log }

/-- `AuditRequestStatusPollingByIDWithTimeout`. -/
def AuditRequestStatusPollingByIDWithTimeout (c : Cx1Client) (auditSession : AuditSession)
    (requestId : String) (delaySeconds maxSeconds : Int) (fuel : Nat) : Option Polled :=
  pollLoop c auditSession requestId delaySeconds maxSeconds fuel 0 0

/-- `AuditRequestStatusPollingByID`: the poller with the client's constants. -/
def AuditRequestStatusPollingByID (c : Cx1Client) (auditSession : AuditSession)
    (requestId : String) (fuel : Nat) : Option Polled :=
  AuditRequestStatusPollingByIDWithTimeout c auditSession requestId
    c.consts.AuditEnginePollingDelaySeconds c.consts.AuditEnginePollingMaxSeconds fuel

/-- Number of requests in a log; in the log of a poll these are its status queries. -/
def requestsSent : List Event → Nat
  | [] => 0
  | Event.request _ :: rest => requestsSent rest + 1
  | _ :: rest => requestsSent rest

/-- The durations of the sleeps in a log, in nanoseconds and in order. -/
def sleeps : List Event → List Int
  | [] => []
  | Event.sleep d :: rest => d :: sleeps rest
  | _ :: rest => sleeps rest

/-- The value of `pollingCounter` when the poller makes its `n`-th status query
(counting from 0), if it gets that far. -/
def pollingCounterAt (delaySeconds : Int) : Nat → Int
  | 0 => 0
  | n + 1 => wrapInt (pollingCounterAt delaySeconds n + delaySeconds)

/-- The guard `maxSeconds != 0 && pollingCounter >= maxSeconds` of the poller. -/
def timedOut (maxSeconds pollingCounter : Int) : Prop :=
  maxSeconds ≠ 0 ∧ pollingCounter ≥ maxSeconds

instance (maxSeconds pollingCounter : Int) : Decidable (timedOut maxSeconds pollingCounter) :=
  inferInstanceAs (Decidable (maxSeconds ≠ 0 ∧ pollingCounter ≥ maxSeconds))

/-- The quotient `ceil(maxSeconds / delaySeconds)` for a positive `delaySeconds`. -/
def ceilDiv (maxSeconds delaySeconds : Int) : Nat :=
  ((maxSeconds + delaySeconds - 1) / delaySeconds).toNat

/-- The log of `rounds` polling rounds: each is one status query then one sleep. -/
def pollingRounds (q : Request) (delaySeconds : Int) : Nat → List Event
  | 0 => []
  | rounds + 1 =>
    Event.request q :: Event.sleep (sleepDuration delaySeconds)
      :: pollingRounds q delaySeconds rounds

/-! ## Session creation -/

/-- How a call ends: it returns, or a run-time panic unwinds it. -/
inductive Outcome (α : Type) where
  | returned (a : α)
  | panicked

/-- The outcome of a call with the effects it had. -/
structure Run (α : Type) where
  outcome : Outcome α
  log : List Event

/-- The loop `for _, lang := range languages` appending `lang.(string)` to
`session.Languages`; `none` when an element is not a string, where the type
assertion panics. -/
def appendLanguages (Languages : List String) : List Dyn → Option (List String)
  | [] => some Languages
  | Dyn.string lang :: rest => appendLanguages (Languages ++ [lang]) rest
  | _ :: _ => none

/-- The `POST /query-editor/sessions` of `AuditCreateSession`. -/
def tenantSessionRequest (engine filter : String) : Request :=
  { method := "POST", path := "/query-editor/sessions"
    body := [("filter", filter), ("scanner", engine)] }

/-- The `POST /query-editor/sessions` of `AuditCreateSessionByID`. -/
def projectSessionRequest (engine projectId scanId : String) : Request :=
  { method := "POST", path := "/query-editor/sessions"
    body := [("projectId", projectId), ("scanId", scanId), ("scanner", engine)] }

/-- `AuditCreateSession` (tenant scope). -/
def AuditCreateSession (c : Cx1Client) (engine filter : String) (fuel : Nat) :
    Option (Run (AuditSession × Option Error)) :=
  let post := Event.request (tenantSessionRequest engine filter)
  match c.sessions (tenantSessionRequest engine filter) with
  | .transportFailed err => some ⟨.returned ({}, some err), [post]⟩
  | .received id data (some err) => some ⟨.returned ({ ID := id, Data := data }, some err), [post]⟩
  | .received id data none =>
    let session : AuditSession :=
      { ID := id, Data := data, CreatedAt := c.now 0, LastHeartbeat := c.now 1, Engine := engine }
    if session.Data.Status ≠ "ALLOCATED" then
      some ⟨.returned (session, some (Error.allocateFailed session.Data.Status)), [post]⟩
    else
      match AuditRequestStatusPollingByID c session session.Data.RequestID fuel with
      | none => none
      | some languageResponse =>
        match languageResponse.err with
        | some err => some ⟨.returned (session, some err), post :: languageResponse.log⟩
        | none =>
          match languageResponse.value with
          | Dyn.array languages =>
            match appendLanguages session.Languages languages with
            | none => some ⟨.panicked, post :: languageResponse.log⟩
            | some langs =>
              some ⟨.returned ({ session with
                  Languages := langs, ProjectID := "", ApplicationID := "" }, none),
                post :: languageResponse.log⟩
          | other =>
            some ⟨.returned (session, some (Error.languagesNotList other)),
              post :: languageResponse.log⟩

/-- Lines 122-131 of `AuditCreateSessionByID`: the application id derived from
the project lookup; `none` when `proj.Applications` is a nil pointer, whose
dereference panics. -/
def owningApplication : Except Error Project → Option String
  | .error _ => some ""
  | .ok proj =>
    match proj.Applications with
    | none => none
    | some apps =>
      if apps.length = 1 then some (apps.headD "")
      else if apps.length > 1 then some "Error: multiple owning applications"
      else some ""

/-- `AuditCreateSessionByID` (project scope). -/
def AuditCreateSessionByID (c : Cx1Client) (engine projectId scanId : String) (fuel : Nat) :
    Option (Run (AuditSession × Option Error)) :=
  let engine := c.ToLower engine
  if engine ≠ "sast" ∧ engine ≠ "iac" then
    some ⟨.returned ({}, some (Error.unknownEngine engine)), []⟩
  else
    let lookup := Event.projectLookup projectId
    match owningApplication (c.GetProjectByID projectId) with
    | none => some ⟨.panicked, [lookup]⟩
    | some appId =>
      let post := Event.request (projectSessionRequest engine projectId scanId)
      match c.sessions (projectSessionRequest engine projectId scanId) with
      | .transportFailed err => some ⟨.returned ({}, some err), [lookup, post]⟩
      | .received id data (some err) =>
        some ⟨.returned ({ ID := id, Data := data }, some err), [lookup, post]⟩
      | .received id data none =>
        let session : AuditSession := { ID := id, Data := data, Engine := engine }
        if engine = "sast" then
          if session.Data.Status ≠ "ALLOCATED" then
            some ⟨.returned (session, some (Error.allocateFailed session.Data.Status)),
              [lookup, post]⟩
          else
            match AuditRequestStatusPollingByID c session session.Data.RequestID fuel with
            | none => none
            | some languageResponse =>
              match languageResponse.err with
              | some err =>
                some ⟨.returned (session, some err), lookup :: post :: languageResponse.log⟩
              | none =>
                match languageResponse.value with
                | Dyn.array languages =>
                  match appendLanguages session.Languages languages with
                  | none => some ⟨.panicked, lookup :: post :: languageResponse.log⟩
                  | some langs =>
                    some ⟨.returned ({ session with
                        Languages := langs, ProjectID := projectId, ApplicationID := appId,
                        CreatedAt := c.now 0, LastHeartbeat := c.now 1 }, none),
                      lookup :: post :: languageResponse.log⟩
                | other =>
                  some ⟨.returned (session, some (Error.languagesNotList other)),
                    lookup :: post :: languageResponse.log⟩
        else if engine = "iac" then
          if session.Data.Status ≠ "RUNNING" then
            some ⟨.returned (session, some (Error.startFailed session.Data.Status)),
              [lookup, post]⟩
          else
            some ⟨.returned ({ session with
                Platforms := session.Data.QueryFilters, ProjectID := projectId,
                ApplicationID := appId, CreatedAt := c.now 0, LastHeartbeat := c.now 1 }, none),
              [lookup, post]⟩
        else
          some ⟨.returned ({ session with
              ProjectID := projectId, ApplicationID := appId,
              CreatedAt := c.now 0, LastHeartbeat := c.now 1 }, none), [lookup, post]⟩

/-! ## Session lifecycle -/

/-- The duration `5*time.Minute`, in nanoseconds, the unit of the clock readings. -/
def fiveMinutes : Int := 5 * 60 * 1000000000

/-- The path `/query-editor/sessions/{id}` of a session. -/
def sessionPath (auditSession : AuditSession) : String :=
  "/query-editor/sessions/" ++ auditSession.ID

/-- `AuditSessionKeepAlive`: the session as left by the call, and the error.
`time.Since(auditSession.LastHeartbeat)` is the first clock reading minus the
heartbeat; the saturation of `time.Time.Sub` at about 292 years does not change
its comparison with five minutes. -/
def AuditSessionKeepAlive (c : Cx1Client) (auditSession : AuditSession) :
    (AuditSession × Option Error) × List Event :=
  if c.now 0 - auditSession.LastHeartbeat < fiveMinutes then
    ((auditSession, none), [])
  else
    let patch : Request := ⟨"PATCH", sessionPath auditSession, []⟩
    match c.send patch with
    | some err => ((auditSession, some err), [Event.request patch])
    | none => (({ auditSession with LastHeartbeat := c.now 1 }, none), [Event.request patch])

/-- `AuditDeleteSession`; `none` is the nil session pointer. -/
def AuditDeleteSession (c : Cx1Client) (auditSession : Option AuditSession) :
    Option Error × List Event :=
  match auditSession with
  | none => (none, [])
  | some session =>
    let delete : Request := ⟨"DELETE", sessionPath session, []⟩
    match c.send delete with
    | some err => (some err, [Event.request delete])
    | none => (none, [Event.request delete])

/-! ## Query editor -/

/-- The variable `AUDIT_QUERY_PRODUCT`, which the given sources never reassign. -/
def AUDIT_QUERY_PRODUCT : String := "Cx"

/-- The variable `AUDIT_QUERY_PROJECT`, which the given sources never reassign. -/
def AUDIT_QUERY_PROJECT : String := "Project"

/-- The `switch` on a level that assigns `LevelID`, as written four times in
`audit.go`; a level matching no case leaves `LevelID` as it is. -/
def switchLevelID (c : Cx1Client) (auditSession : AuditSession) (level LevelID : String) :
    String :=
  if level = c.AUDIT_QUERY_APPLICATION then auditSession.ApplicationID
  else if level = AUDIT_QUERY_PRODUCT then AUDIT_QUERY_PRODUCT
  else if level = AUDIT_QUERY_PROJECT then auditSession.ProjectID
  else if level = c.AUDIT_QUERY_TENANT then c.AUDIT_QUERY_TENANT
  else LevelID

/-- The method `AuditSASTQuery.ToSASTQuery`. -/
def AuditSASTQuery.ToSASTQuery (q : AuditSASTQuery) : SASTQuery :=
  { QueryID := 0
    Level := q.Level
    LevelID := q.LevelID
    Path := q.Path
    Modified := ""
    Source := q.Source
    Name := q.Name
    Group := q.Metadata.Group
    Language := q.Metadata.Language
    Severity := q.Metadata.Severity
    CweID := q.Metadata.Cwe
    IsExecutable := q.Metadata.IsExecutable
    QueryDescriptionId := q.Metadata.CxDescriptionID
    Custom := decide (q.Level ≠ AUDIT_QUERY_PRODUCT)
    EditorKey := q.Key
    SastID := q.Metadata.SastID }

/-- The method `AuditIACQuery.ToIACQuery`. -/
def AuditIACQuery.ToIACQuery (q : AuditIACQuery) : IACQuery :=
  { QueryID := q.QueryID
    Level := q.Level
    LevelID := q.LevelID
    Path := q.Path
    Source := q.Source
    Name := q.Name
    Category := q.Metadata.Category
    Platform := q.Metadata.Platform
    Severity := q.Metadata.Severity
    Custom := decide (q.Level ≠ AUDIT_QUERY_PRODUCT)
    Description := q.Metadata.Description
    DescriptionID := q.Metadata.DescriptionID
    DescriptionURL := q.Metadata.DescriptionURL
    CWE := q.Metadata.Cwe
    Key := q.Key }

/-- The `GET` of `GetAuditSASTQueryByKey`. -/
def sastQueryRequest (c : Cx1Client) (auditSession : AuditSession) (key : String) : Request :=
  ⟨"GET", sessionPath auditSession ++ "/queries/" ++ c.QueryEscape key, []⟩

/-- `GetAuditSASTQueryByKey`. -/
def GetAuditSASTQueryByKey (c : Cx1Client) (auditSession : AuditSession) (key : String) :
    (SASTQuery × Option Error) × List Event :=
  let sent := [Event.request (sastQueryRequest c auditSession key)]
  match c.sastQueries (sastQueryRequest c auditSession key) with
  | .transportFailed err => (({}, some err), sent)
  | .received _ (some err) => (({}, some err), sent)
  | .received q none =>
    let query := q.ToSASTQuery
    (({ query with LevelID := switchLevelID c auditSession query.Level query.LevelID }, none), sent)

/-- The test `q.QueryID[1] == ':'` on the second byte of a string; `none` when the
string has fewer than two bytes and the index is out of range. A first
character of several bytes has a continuation byte in second place. -/
def secondByteIsColon (s : String) : Option Bool :=
  match s.data with
  | [] => none
  | first :: rest =>
    if first.toNat < 128 then
      match rest with
      | [] => none
      | second :: _ => some (decide (second = ':'))
    else some false

/-- The `GET` of `GetAuditIACQueryByID`. -/
def iacQueryRequest (c : Cx1Client) (auditSession : AuditSession) (queryId : String) : Request :=
  ⟨"GET", sessionPath auditSession ++ "/queries/" ++ c.QueryEscape queryId
    ++ "?includeMetadata=true&includeSource=true", []⟩

/-- `GetAuditIACQueryByID`. -/
def GetAuditIACQueryByID (c : Cx1Client) (auditSession : AuditSession) (queryId : String) :
    Run (IACQuery × Option Error) :=
  let sent := [Event.request (iacQueryRequest c auditSession queryId)]
  match c.iacQueries (iacQueryRequest c auditSession queryId) with
  | .transportFailed err => ⟨.returned ({}, some err), sent⟩
  | .received _ (some err) => ⟨.returned ({}, some err), sent⟩
  | .received q none =>
    match secondByteIsColon q.QueryID with
    | none => ⟨.panicked, sent⟩
    | some colon =>
      let q : AuditIACQuery :=
        { q with Key := if colon then String.mk (q.QueryID.data.drop 2) else q.QueryID }
      let query := q.ToIACQuery
      ⟨.returned ({ query with
          LevelID := switchLevelID c auditSession query.Level query.LevelID }, none), sent⟩

/-- `GetAuditQueryTreeByLevelID`. -/
def GetAuditQueryTreeByLevelID (c : Cx1Client) (auditSession : AuditSession)
    (level levelId : String) : (List AuditQueryTree × Option Error) × List Event :=
  let url : Option String :=
    if level = c.AUDIT_QUERY_TENANT then some (sessionPath auditSession ++ "/queries")
    else if level = AUDIT_QUERY_PROJECT then
      some (sessionPath auditSession ++ "/queries?projectId=" ++ levelId)
    else none
  match url with
  | none =>
    (([], some (Error.invalidLevel level c.AUDIT_QUERY_TENANT AUDIT_QUERY_PROJECT)), [])
  | some url =>
    let get : Request := ⟨"GET", url, []⟩
    match c.queryTrees get with
    | .transportFailed err => (([], some err), [Event.request get])
    | .received querytree decodeErr => ((querytree, decodeErr), [Event.request get])

/-! ## Query overrides -/

/-- The level normalisation at the head of `CreateSASTQueryOverride` and
`CreateIACQueryOverride`: the canonical level, or the error the function returns. -/
def overrideLevel (c : Cx1Client) (auditSession : AuditSession) (level : String) :
    Except Error String :=
  if c.EqualFold level c.AUDIT_QUERY_APPLICATION then
    if auditSession.ApplicationID = "" then .error (Error.noApplication auditSession.ID)
    else .ok c.AUDIT_QUERY_APPLICATION
  else if c.EqualFold level AUDIT_QUERY_PROJECT then .ok AUDIT_QUERY_PROJECT
  else if c.EqualFold level c.AUDIT_QUERY_TENANT then .ok c.AUDIT_QUERY_TENANT
  else .error (Error.invalidOverrideLevel level)

/-- The `POST` of `CreateSASTQueryOverride`: the local struct `NewQuery` built
from the base query, numbers and booleans in their JSON spelling. -/
def sastOverrideRequest (c : Cx1Client) (auditSession : AuditSession) (level : String)
    (baseQuery : SASTQuery) : Request :=
  { method := "POST"
    path := sessionPath auditSession ++ "/queries"
    body :=
      [("cwe", toString baseQuery.CweID),
       ("executable", toString baseQuery.IsExecutable),
       ("description", toString baseQuery.QueryDescriptionId),
       ("language", baseQuery.Language),
       ("group", baseQuery.Group),
       ("severity", baseQuery.Severity),
       ("sastId", toString baseQuery.SastID),
       ("id", baseQuery.EditorKey),
       ("name", baseQuery.Name),
       ("level", c.ToLower level),
       ("path", baseQuery.Path)] }

/-- `CreateSASTQueryOverride`; `none` as base query is the nil pointer, whose
dereference panics once the level has been accepted. -/
def CreateSASTQueryOverride (c : Cx1Client) (auditSession : AuditSession) (level : String)
    (baseQuery : Option SASTQuery) (fuel : Nat) : Option (Run (SASTQuery × Option Error)) :=
  match overrideLevel c auditSession level with
  | .error err => some ⟨.returned ({}, some err), []⟩
  | .ok level =>
    match baseQuery with
    | none => some ⟨.panicked, []⟩
    | some baseQuery =>
      let post := Event.request (sastOverrideRequest c auditSession level baseQuery)
      match c.requestIDs (sastOverrideRequest c auditSession level baseQuery) with
      | .transportFailed err => some ⟨.returned ({}, some err), [post]⟩
      | .received _ (some err) =>
        some ⟨.returned ({}, some (Error.unmarshalResponse err)), [post]⟩
      | .received responseBody none =>
        match AuditRequestStatusPollingByID c auditSession responseBody.Id fuel with
        | none => none
        | some data =>
          match data.err with
          | some err =>
            some ⟨.returned ({}, some (Error.createQueryFailed err)), post :: data.log⟩
          | none =>
            match data.value with
            | Dyn.object responseValue =>
              match responseValue.lookup "id" with
              | some (Dyn.string key) =>
                match GetAuditSASTQueryByKey c auditSession key with
                | ((newQuery, some err), sent) =>
                  some ⟨.returned (newQuery, some err), post :: data.log ++ sent⟩
                | ((newQuery, none), sent) =>
                  let newQuery : SASTQuery :=
                    { newQuery with
                      LevelID := switchLevelID c auditSession level newQuery.LevelID }
                  let newQuery : SASTQuery :=
                    if newQuery.QueryID = 0 then { newQuery with QueryID := baseQuery.QueryID }
                    else newQuery
                  some ⟨.returned (newQuery, none), post :: data.log ++ sent⟩
              | _ => some ⟨.panicked, post :: data.log⟩
            | _ => some ⟨.panicked, post :: data.log⟩

/-- The slice `s[1:]`; `none` when the string is empty and the bounds are out of
range. The slice starts after the first byte: for a first character of several
bytes Go keeps the remaining bytes of that character, which no string of
characters represents, and the model drops the whole character. -/
def dropFirstByte (s : String) : Option String :=
  match s.data with
  | [] => none
  | _ :: rest => some (String.mk rest)

/-- The `switch` of `CreateIACQueryOverride` that rebuilds an empty `QueryID` from
the base query's; `none` when the slice `baseQuery.QueryID[1:]` panics. -/
def overrideQueryID (c : Cx1Client) (level baseQueryID QueryID : String) : Option String :=
  if level = c.AUDIT_QUERY_APPLICATION then
    (dropFirstByte baseQueryID).map (fun rest => "a" ++ rest)
  else if level = AUDIT_QUERY_PROJECT then
    (dropFirstByte baseQueryID).map (fun rest => "p" ++ rest)
  else if level = c.AUDIT_QUERY_TENANT then
    (dropFirstByte baseQueryID).map (fun rest => "t" ++ rest)
  else some QueryID

/-- The `POST` of `CreateIACQueryOverride`: the local struct `NewQuery`, which
embeds the base query with `Level` lower-cased. The JSON names of the embedded
query's fields are declared outside the given sources, so these fields appear
under their Go names. -/
def iacOverrideRequest (c : Cx1Client) (auditSession : AuditSession) (level : String)
    (baseQuery : IACQuery) : Request :=
  { method := "POST"
    path := sessionPath auditSession ++ "/queries"
    body :=
      [("IACQuery.QueryID", baseQuery.QueryID),
       ("IACQuery.Level", c.ToLower level),
       ("IACQuery.LevelID", baseQuery.LevelID),
       ("IACQuery.Path", baseQuery.Path),
       ("IACQuery.Source", baseQuery.Source),
       ("IACQuery.Name", baseQuery.Name),
       ("IACQuery.Category", baseQuery.Category),
       ("IACQuery.Platform", baseQuery.Platform),
       ("IACQuery.Severity", baseQuery.Severity),
       ("IACQuery.Custom", toString baseQuery.Custom),
       ("IACQuery.Description", baseQuery.Description),
       ("IACQuery.DescriptionID", baseQuery.DescriptionID),
       ("IACQuery.DescriptionURL", baseQuery.DescriptionURL),
       ("IACQuery.CWE", baseQuery.CWE),
       ("IACQuery.Key", baseQuery.Key),
       ("id", baseQuery.QueryID),
       ("queryname", baseQuery.Name),
       ("oldseverity", baseQuery.Severity)] }

/-- Lines 626-692 of `CreateIACQueryOverride`, entered with the accepted level,
the base query (after the metadata merge, if any) and the effects so far. The
result is the new query, the error, and the base query as left by the call. -/
def createIACOverride (c : Cx1Client) (auditSession : AuditSession) (level : String)
    (baseQuery : IACQuery) (before : List Event) (fuel : Nat) :
    Option (Run (IACQuery × Option Error × Option IACQuery)) :=
  let post := Event.request (iacOverrideRequest c auditSession level baseQuery)
  match c.requestIDs (iacOverrideRequest c auditSession level baseQuery) with
  | .transportFailed err => some ⟨.returned ({}, some err, some baseQuery), before ++ [post]⟩
  | .received _ (some err) =>
    some ⟨.returned ({}, some (Error.unmarshalResponse err), some baseQuery), before ++ [post]⟩
  | .received responseBody none =>
    match AuditRequestStatusPollingByID c auditSession responseBody.Id fuel with
    | none => none
    | some data =>
      match data.err with
      | some err =>
        some ⟨.returned ({}, some (Error.createQueryFailed err), some baseQuery),
          before ++ post :: data.log⟩
      | none =>
        match data.value with
        | Dyn.object responseValue =>
          match responseValue.lookup "id" with
          | some (Dyn.string key) =>
            match GetAuditIACQueryByID c auditSession key with
            | ⟨.panicked, sent⟩ => some ⟨.panicked, before ++ post :: data.log ++ sent⟩
            | ⟨.returned (newQuery, some err), sent⟩ =>
              some ⟨.returned (newQuery, some err, some baseQuery),
                before ++ post :: data.log ++ sent⟩
            | ⟨.returned (newQuery, none), sent⟩ =>
              let newQuery : IACQuery :=
                { newQuery with LevelID := switchLevelID c auditSession level newQuery.LevelID }
              if newQuery.QueryID = "" then
                match overrideQueryID c level baseQuery.QueryID newQuery.QueryID with
                | none => some ⟨.panicked, before ++ post :: data.log ++ sent⟩
                | some QueryID =>
                  some ⟨.returned (c.MergeIACQuery { newQuery with QueryID := QueryID } baseQuery,
                      none, some baseQuery), before ++ post :: data.log ++ sent⟩
              else
                some ⟨.returned (c.MergeIACQuery newQuery baseQuery, none, some baseQuery),
                  before ++ post :: data.log ++ sent⟩
          | _ => some ⟨.panicked, before ++ post :: data.log⟩
        | _ => some ⟨.panicked, before ++ post :: data.log⟩

/-- `CreateIACQueryOverride`; `none` as base query is the nil pointer. The result
is the new query, the error, and the base query as left by the call, which
merges fetched metadata into it. -/
def CreateIACQueryOverride (c : Cx1Client) (auditSession : AuditSession) (level : String)
    (baseQuery : Option IACQuery) (fuel : Nat) :
    Option (Run (IACQuery × Option Error × Option IACQuery)) :=
  match overrideLevel c auditSession level with
  | .error err => some ⟨.returned ({}, some err, baseQuery), []⟩
  | .ok level =>
    match baseQuery with
    | none => some ⟨.returned ({}, some Error.baseQueryNil, none), []⟩
    | some baseQuery =>
      if baseQuery.Description = "" then
        match GetAuditIACQueryByID c auditSession baseQuery.QueryID with
        | ⟨.panicked, sent⟩ => some ⟨.panicked, sent⟩
        | ⟨.returned (_, some err), sent⟩ =>
          some ⟨.returned ({}, some err, some baseQuery), sent⟩
        | ⟨.returned (q, none), sent⟩ =>
          createIACOverride c auditSession level (c.MergeIACQuery baseQuery q) sent fuel
      else
        createIACOverride c auditSession level baseQuery [] fuel

/-! ## Source updates -/

/-- The `PUT` of `updateQuerySourceByKey`: the one-element array of the local
struct `QueryUpdate`. -/
def sourceUpdateRequest (auditSession : AuditSession) (queryKey source : String) : Request :=
  ⟨"PUT", sessionPath auditSession ++ "/queries/source", [("id", queryKey), ("source", source)]⟩

/-- `updateQuerySourceByKey`. -/
def updateQuerySourceByKey (c : Cx1Client) (auditSession : AuditSession)
    (queryKey source : String) (fuel : Nat) :
    Option ((List QueryFailure × Option Error) × List Event) :=
  let put := Event.request (sourceUpdateRequest auditSession queryKey source)
  match c.requestIDs (sourceUpdateRequest auditSession queryKey source) with
  | .transportFailed err => some (([], some (Error.saveSourceFailed err)), [put])
  | .received _ (some err) => some (([], some (Error.unmarshalResponse err)), [put])
  | .received responseBody none =>
    match AuditRequestStatusPollingByID c auditSession responseBody.Id fuel with
    | none => none
    | some responseObj =>
      match responseObj.err with
      | some err =>
        some (([], some (Error.pollFailed err responseObj.value)), put :: responseObj.log)
      | none =>
        match responseObj.value with
        | Dyn.object responseMap =>
          match responseMap.lookup "failed_queries" with
          | some val =>
            match c.unmarshalFailures val with
            | (queryFail, some err) =>
              some ((queryFail, some (Error.unmarshalFailure err)), put :: responseObj.log)
            | (queryFail, none) =>
              if queryFail.length = 1 then
                some ((queryFail, some Error.saveSourceRejected), put :: responseObj.log)
              else
                some ((queryFail, none), put :: responseObj.log)
          | none => some (([], none), put :: responseObj.log)
        | _ => some (([], none), put :: responseObj.log)

/-- `updateSASTQuerySourceByKey`. -/
def updateSASTQuerySourceByKey (c : Cx1Client) (auditSession : AuditSession)
    (queryKey source : String) (fuel : Nat) :
    Option ((List QueryFailure × Option Error) × List Event) :=
  updateQuerySourceByKey c auditSession queryKey source fuel

/-- `updateIACQuerySourceByID`. -/
def updateIACQuerySourceByID (c : Cx1Client) (auditSession : AuditSession)
    (queryId source : String) (fuel : Nat) :
    Option ((List QueryFailure × Option Error) × List Event) :=
  updateQuerySourceByKey c auditSession queryId source fuel

/-- `UpdateSASTQuerySource`. -/
def UpdateSASTQuerySource (c : Cx1Client) (auditSession : AuditSession) (query : SASTQuery)
    (source : String) (fuel : Nat) :
    Option ((SASTQuery × List QueryFailure × Option Error) × List Event) :=
  if query.EditorKey = "" then
    some (({}, [], some (Error.missingEditorKey query.Name)), [])
  else if source = query.Source then
    some ((query, [], none), [])
  else
    match updateSASTQuerySourceByKey c auditSession query.EditorKey source fuel with
    | none => none
    | some ((queryFail, some err), sent) => some ((query, queryFail, some err), sent)
    | some ((queryFail, none), sent) =>
      match GetAuditSASTQueryByKey c auditSession query.EditorKey with
      | ((_, some err), fetched) => some ((query, queryFail, some err), sent ++ fetched)
      | ((newQuery, none), fetched) =>
        some ((c.MergeSASTQuery newQuery query, queryFail, none), sent ++ fetched)

/-- `UpdateIACQuerySource`. -/
def UpdateIACQuerySource (c : Cx1Client) (auditSession : AuditSession) (query : IACQuery)
    (source : String) (fuel : Nat) :
    Option (Run (IACQuery × List QueryFailure × Option Error)) :=
  if query.QueryID = "" then
    some ⟨.returned ({}, [], some (Error.missingEditorKey query.Name)), []⟩
  else if source = query.Source then
    some ⟨.returned (query, [], none), []⟩
  else
    match updateIACQuerySourceByID c auditSession query.QueryID source fuel with
    | none => none
    | some ((queryFail, some err), sent) => some ⟨.returned (query, queryFail, some err), sent⟩
    | some ((queryFail, none), sent) =>
      match GetAuditIACQueryByID c auditSession query.QueryID with
      | ⟨.panicked, fetched⟩ => some ⟨.panicked, sent ++ fetched⟩
      | ⟨.returned (_, some err), fetched⟩ =>
        some ⟨.returned (query, queryFail, some err), sent ++ fetched⟩
      | ⟨.returned (newQuery, none), fetched⟩ =>
        some ⟨.returned (c.MergeIACQuery newQuery query, queryFail, none), sent ++ fetched⟩

/-! ## Editor keys -/

/-- A byte. A Go `string` is a sequence of bytes, and the editor key is computed
from the bytes of its arguments, so here a string is the list of its bytes. -/
abbrev Byte := Fin 256

/-- The alphabet of `base32.StdEncoding` (RFC 4648). -/
def base32Alphabet : List Char :=
  ['A', 'B', 'C', 'D', 'E', 'F', 'G', 'H', 'I', 'J', 'K', 'L', 'M', 'N', 'O', 'P',
   'Q', 'R', 'S', 'T', 'U', 'V', 'W', 'X', 'Y', 'Z', '2', '3', '4', '5', '6', '7']

/-- The character of a 5-bit value. -/
def encodeDigit (d : Nat) : Char :=
  base32Alphabet.getD d 'A'

/-- The 5-bit value of a character of the alphabet. -/
def decodeDigit (ch : Char) : Option Nat :=
  if base32Alphabet.indexOf ch < 32 then some (base32Alphabet.indexOf ch) else none

/-- The eight 5-bit values of a group of five bytes, by the shifts and masks of
the library's encoder. -/
def groupDigits (s0 s1 s2 s3 s4 : Nat) : List Nat :=
  [s0 / 8, s0 % 8 * 4 + s1 / 64, s1 / 2 % 32, s1 % 2 * 16 + s2 / 16,
   s2 % 16 * 2 + s3 / 128, s3 / 4 % 32, s3 % 4 * 8 + s4 / 32, s4 % 32]

/-- The library function `base32.StdEncoding.EncodeToString`: groups of five
bytes become eight characters, and a last group of fewer bytes is filled with
zero bits and padded with `=`. -/
def base32Encode : List Byte → List Char
  | [] => []
  | [a] => ((groupDigits a 0 0 0 0).take 2).map encodeDigit ++ List.replicate 6 '='
  | [a, b] => ((groupDigits a b 0 0 0).take 4).map encodeDigit ++ List.replicate 4 '='
  | [a, b, c] => ((groupDigits a b c 0 0).take 5).map encodeDigit ++ List.replicate 3 '='
  | [a, b, c, d] => ((groupDigits a b c d 0).take 7).map encodeDigit ++ List.replicate 1 '='
  | a :: b :: c :: d :: e :: rest =>
    (groupDigits a b c d e).map encodeDigit ++ base32Encode rest

/-- The five bytes of eight 5-bit values. -/
def groupBytes (d0 d1 d2 d3 d4 d5 d6 d7 : Nat) : List Byte :=
  [Fin.ofNat (d0 * 8 + d1 / 4), Fin.ofNat (d1 % 4 * 64 + d2 * 2 + d3 / 16),
   Fin.ofNat (d3 % 16 * 16 + d4 / 2), Fin.ofNat (d4 % 2 * 128 + d5 * 4 + d6 / 8),
   Fin.ofNat (d6 % 8 * 32 + d7)]

/-- The bytes of one group of eight characters, padding included; `none` when the
group is not one the encoder produces characters for. -/
def decodeGroup (c0 c1 c2 c3 c4 c5 c6 c7 : Char) : Option (List Byte) :=
  match decodeDigit c0, decodeDigit c1 with
  | some d0, some d1 =>
    if c2 = '=' then
      if c3 = '=' ∧ c4 = '=' ∧ c5 = '=' ∧ c6 = '=' ∧ c7 = '=' then
        some ((groupBytes d0 d1 0 0 0 0 0 0).take 1)
      else none
    else
      match decodeDigit c2, decodeDigit c3 with
      | some d2, some d3 =>
        if c4 = '=' then
          if c5 = '=' ∧ c6 = '=' ∧ c7 = '=' then
            some ((groupBytes d0 d1 d2 d3 0 0 0 0).take 2)
          else none
        else
          match decodeDigit c4 with
          | some d4 =>
            if c5 = '=' then
              if c6 = '=' ∧ c7 = '=' then some ((groupBytes d0 d1 d2 d3 d4 0 0 0).take 3)
              else none
            else
              match decodeDigit c5, decodeDigit c6 with
              | some d5, some d6 =>
                if c7 = '=' then some ((groupBytes d0 d1 d2 d3 d4 d5 d6 0).take 4)
                else
                  match decodeDigit c7 with
                  | some d7 => some (groupBytes d0 d1 d2 d3 d4 d5 d6 d7)
                  | none => none
              | _, _ => none
          | none => none
      | _, _ => none
  | _, _ => none

/-- The decoding of padded base32 text: `none` for text that is not a sequence of
full groups with padding in the last group only. -/
def base32Decode : List Char → Option (List Byte)
  | [] => some []
  | c0 :: c1 :: c2 :: c3 :: c4 :: c5 :: c6 :: c7 :: rest =>
    match decodeGroup c0 c1 c2 c3 c4 c5 c6 c7, base32Decode rest with
    | some group, some more =>
      if group.length < 5 ∧ rest ≠ [] then none else some (group ++ more)
    | _, _ => none
  | _ => none

/-- The string `level-language-group-name` built by `fmt.Sprintf("%s-%s-%s-%s", ...)`;
45 is the byte of `-`. -/
def joinedQueryID (level language group name : List Byte) : List Byte :=
  level ++ 45 :: (language ++ 45 :: (group ++ 45 :: name))

/-- `calculateEditorKey`. -/
def calculateEditorKey (level language group name : List Byte) : String :=
  String.mk (base32Encode (joinedQueryID level language group name))

/-- The bytes of a string of ASCII characters. -/
def asciiBytes (s : String) : List Byte :=
  s.data.map (fun ch => Fin.ofNat ch.toNat)

/-! ## Validation, run and creation of queries -/

/-- The `POST` of `ValidateQuerySourceByKey`. -/
def validateRequest (auditSession : AuditSession) (queryKey source : String) : Request :=
  ⟨"POST", sessionPath auditSession ++ "/queries/validate",
    [("id", queryKey), ("source", source)]⟩

/-- `ValidateQuerySourceByKey`. -/
def ValidateQuerySourceByKey (c : Cx1Client) (auditSession : AuditSession)
    (queryKey source : String) (fuel : Nat) :
    Option ((List QueryFailure × Option Error) × List Event) :=
  let post := Event.request (validateRequest auditSession queryKey source)
  match c.requestIDs (validateRequest auditSession queryKey source) with
  | .transportFailed err => some (([], some (Error.sendSourceFailed err)), [post])
  | .received _ (some err) => some (([], some (Error.unmarshalResponse err)), [post])
  | .received responseBody none =>
    match AuditRequestStatusPollingByID c auditSession responseBody.Id fuel with
    | none => none
    | some responseObj =>
      match responseObj.err with
      | some err =>
        some (([], some (Error.pollFailed err responseObj.value)), post :: responseObj.log)
      | none =>
        match responseObj.value with
        | Dyn.object responseMap =>
          match responseMap.lookup "failed_queries" with
          | some val =>
            match c.unmarshalFailures val with
            | (queryFail, some err) =>
              some ((queryFail, some (Error.unmarshalFailure err)), post :: responseObj.log)
            | (queryFail, none) =>
              if queryFail.length = 0 then
                some ((queryFail, none), post :: responseObj.log)
              else
                some ((queryFail, some Error.validateRejected), post :: responseObj.log)
          | none => some (([], none), post :: responseObj.log)
        | _ => some (([], none), post :: responseObj.log)

/-- The `POST` of `RunQueryByKey`. -/
def runRequest (auditSession : AuditSession) (queryKey source : String) : Request :=
  ⟨"POST", sessionPath auditSession ++ "/queries/run", [("id", queryKey), ("source", source)]⟩

/-- `RunQueryByKey`; the zero `QueryFailure` is the record of a JSON null. -/
def RunQueryByKey (c : Cx1Client) (auditSession : AuditSession)
    (queryKey source : String) (fuel : Nat) :
    Option ((QueryFailure × Option Error) × List Event) :=
  let post := Event.request (runRequest auditSession queryKey source)
  let queryFail : QueryFailure := ⟨Dyn.null⟩
  match c.requestIDs (runRequest auditSession queryKey source) with
  | .transportFailed err => some ((queryFail, some (Error.runFailed err)), [post])
  | .received _ (some err) => some ((queryFail, some (Error.unmarshalResponse err)), [post])
  | .received responseBody none =>
    match AuditRequestStatusPollingByID c auditSession responseBody.Id fuel with
    | none => none
    | some responseObj =>
      match responseObj.err with
      | some err =>
        some ((queryFail, some (Error.pollFailed err responseObj.value)),
          post :: responseObj.log)
      | none =>
        match responseObj.value with
        | Dyn.object responseMap =>
          match responseMap.lookup "failed_queries" with
          | some val =>
            match c.unmarshalFailures val with
            | (_, some err) =>
              some ((queryFail, some (Error.unmarshalFailure err)), post :: responseObj.log)
            | (failedQueries, none) =>
              match failedQueries with
              | [only] => some ((only, some Error.runRejected), post :: responseObj.log)
              | _ =>
                some ((queryFail,
                    some (Error.runRejectedMany (failedQueries.map QueryFailure.detail))),
                  post :: responseObj.log)
          | none => some ((queryFail, none), post :: responseObj.log)
        | _ => some ((queryFail, none), post :: responseObj.log)

/-- The `POST` of `CreateNewSASTQuery`: the local struct `NewQuery`, whose `cwe`
and `description` are clamped at 0 and left out when 0. -/
def newSASTQueryRequest (auditSession : AuditSession) (query : SASTQuery) : Request :=
  let cwe : Int := if query.CweID < 0 then 0 else query.CweID
  let description : Int := if query.QueryDescriptionId < 0 then 0 else query.QueryDescriptionId
  { method := "POST"
    path := sessionPath auditSession ++ "/queries"
    body :=
      [("name", query.Name), ("language", query.Language), ("group", query.Group),
       ("severity", query.Severity), ("executable", toString query.IsExecutable)]
      ++ (if cwe = 0 then [] else [("cwe", toString cwe)])
      ++ (if description = 0 then [] else [("description", toString description)]) }

/-- `CreateNewSASTQuery`. -/
def CreateNewSASTQuery (c : Cx1Client) (auditSession : AuditSession) (query : SASTQuery)
    (fuel : Nat) : Option (Run (SASTQuery × List QueryFailure × Option Error)) :=
  let post := Event.request (newSASTQueryRequest auditSession query)
  match c.requestIDs (newSASTQueryRequest auditSession query) with
  | .transportFailed err => some ⟨.returned ({}, [], some err), [post]⟩
  | .received _ (some err) =>
    some ⟨.returned ({}, [], some (Error.unmarshalResponse err)), [post]⟩
  | .received responseBody none =>
    match AuditRequestStatusPollingByID c auditSession responseBody.Id fuel with
    | none => none
    | some data =>
      match data.err with
      | some err =>
        some ⟨.returned ({}, [], some (Error.createQueryFailed err)), post :: data.log⟩
      | none =>
        match data.value with
        | Dyn.object responseValue =>
          match responseValue.lookup "id" with
          | some (Dyn.string queryKey) =>
            match updateSASTQuerySourceByKey c auditSession queryKey query.Source fuel with
            | none => none
            | some ((queryFail, some err), sent) =>
              some ⟨.returned ({}, queryFail, some err), post :: data.log ++ sent⟩
            | some ((queryFail, none), sent) =>
              match GetAuditSASTQueryByKey c auditSession queryKey with
              | ((newQuery, err), fetched) =>
                some ⟨.returned (newQuery, queryFail, err), post :: data.log ++ sent ++ fetched⟩
          | _ => some ⟨.panicked, post :: data.log⟩
        | _ => some ⟨.panicked, post :: data.log⟩

/-! ## Transport -/

/-- The number of bytes of a character in UTF-8. -/
def utf8Width (ch : Char) : Nat :=
  if ch.toNat < 128 then 1 else if ch.toNat < 2048 then 2 else if ch.toNat < 65536 then 3 else 4

/-- The slice `str[:n]` of the first `n` bytes; a character cut by the slice is
left out as a whole. -/
def takeBytes : Nat → List Char → List Char
  | _, [] => []
  | n, ch :: rest => if utf8Width ch ≤ n then ch :: takeBytes (n - utf8Width ch) rest else []

/-- The value `msg[key]` when it is not nil: the key is present and not null. -/
def fieldOf (msg : List (String × Dyn)) (key : String) : Option Dyn :=
  match msg.lookup key with
  | some Dyn.null => none
  | other => other

/-- The chain that picks the error text from a decoded error body: the first of
`message`, `error_description`, `error`, `errorMessage` that is not nil,
asserted to be a string (`none` when the assertion panics), else the body. -/
def errorText (msg : List (String × Dyn)) (resBody : String) : Option String :=
  let chosen : Option Dyn :=
    match fieldOf msg "message" with
    | some v => some v
    | none =>
      match fieldOf msg "error_description" with
      | some v => some v
      | none =>
        match fieldOf msg "error" with
        | some v => some v
        | none => fieldOf msg "errorMessage"
  match chosen with
  | some (Dyn.string str) => some str
  | some _ => none
  | none => some resBody

/-- Lines 237-265 of `sendRequestRaw`: the check of the status code. A body that
was read is empty in the response handed back. -/
def checkStatus (c : Cx1Client) (response : HttpResponse) :
    Outcome (Option HttpResponse × Option Error) :=
  if response.StatusCode ≥ 400 then
    match c.unmarshalObject response.Body with
    | some msg =>
      match errorText msg response.Body with
      | none => .panicked
      | some str =>
        .returned (some { response with Body := "" }, some (Error.http response.Status str))
    | none =>
      let str :=
        if (response.Body.data.map utf8Width).sum > 20 then
          String.mk (takeBytes 20 response.Body.data)
        else response.Body
      .returned (some { response with Body := "" }, some (Error.http response.Status str))
  else .returned (some response, none)

/-- `sendRequestRaw`. -/
def sendRequestRaw (c : Cx1Client) (request : Request) :
    Outcome (Option HttpResponse × Option Error) :=
  match c.Do request with
  | .invalid err => .returned (none, some err)
  | .failed response err =>
    if err = "remote error: tls: user canceled" then
      match response with
      | none => .panicked
      | some response => checkStatus c response
    else
      .returned (response.map (fun r => { r with Body := "" }), some (Error.external err))
  | .responded response => checkStatus c response

/-- `sendRequestInternal`: the body left to read and the error. -/
def sendRequestInternal (c : Cx1Client) (request : Request) : Outcome (String × Option Error) :=
  match sendRequestRaw c request with
  | .panicked => .panicked
  | .returned (some response, err) => .returned (response.Body, err)
  | .returned (none, err) => .returned ("", err)

/-- `sendRequest`; the request's path is the one below `/api`. -/
def sendRequest (c : Cx1Client) (request : Request) : Outcome (String × Option Error) :=
  sendRequestInternal c request

/-! ## Version check -/

/-- The part of `VersionInfo` read by `CheckCxOne` and `String`. -/
structure VersionInfo where
  CxOne : String := ""
  SAST : String := ""
  KICS : String := ""

/-- The library call `strings.Split(version, ".")` on the characters of a string:
the pieces between the dots, at least one. -/
def splitDots : List Char → List (List Char)
  | [] => [[]]
  | ch :: rest =>
    if ch = '.' then [] :: splitDots rest
    else
      match splitDots rest with
      | [] => [[ch]]
      | first :: more => (ch :: first) :: more

/-- The value of a decimal digit. -/
def digitValue (ch : Char) : Option Nat :=
  if 48 ≤ ch.toNat ∧ ch.toNat ≤ 57 then some (ch.toNat - 48) else none

/-- The value of a string of decimal digits read after `acc`; `none` when a
character is not a digit. -/
def parseDigits : Nat → List Char → Option Nat
  | acc, [] => some acc
  | acc, ch :: rest =>
    match digitValue ch with
    | some d => parseDigits (acc * 10 + d) rest
    | none => none

/-- The value returned by the library call `strconv.ParseInt(val, 10, 64)`, whose
error the code drops: 0 for text that is not an optionally signed string of
digits, and the nearest bound of `int64` for a value out of range. -/
def ParseInt (val : List Char) : Int :=
  let signed : Bool × List Char :=
    match val with
    | '+' :: digits => (false, digits)
    | '-' :: digits => (true, digits)
    | digits => (false, digits)
  match signed.2 with
  | [] => 0
  | digits =>
    match parseDigits 0 digits with
    | none => 0
    | some un =>
      if signed.1 then
        if un > 2 ^ 63 then -(2 ^ 63) else -(un : Int)
      else
        if un ≥ 2 ^ 63 then 2 ^ 63 - 1 else (un : Int)

/-- `versionStringToInts`. -/
def versionStringToInts (version : String) : List Int :=
  if version = "" then [0, 0, 0]
  else (splitDots version.data).map ParseInt

/-- `VersionInfo.CheckCxOne`; `none` when an index is out of range and the call
panics. -/
def VersionInfo.CheckCxOne (v : VersionInfo) (version : String) : Option Int :=
  let check := versionStringToInts version
  let cx1 := versionStringToInts v.CxOne
  match check[0]?, cx1[0]? with
  | some check0, some cx10 =>
    if check0 < cx10 then some 1
    else if check0 > cx10 then some (-1)
    else
      match check[1]?, cx1[1]? with
      | some check1, some cx11 =>
        if check1 < cx11 then some 1
        else if check1 > cx11 then some (-1)
        else
          match check[2]?, cx1[2]? with
          | some check2, some cx12 =>
            if check2 < cx12 then some 1
            else if check2 > cx12 then some (-1)
            else some 0
          | _, _ => none
      | _, _ => none
  | _, _ => none

/-- The order of the claim on versions: lexicographic on (major, minor, patch). -/
def versionLess (a b : Nat × Nat × Nat) : Prop :=
  a.1 < b.1 ∨ (a.1 = b.1 ∧ (a.2.1 < b.2.1 ∨ (a.2.1 = b.2.1 ∧ a.2.2 < b.2.2)))

/-- The version string `major.minor.patch` of three strings of digits. -/
def dotted (major minor patch : List Char) : String :=
  String.mk (major ++ '.' :: (minor ++ '.' :: patch))

/-- The text `x` is a non-empty string of decimal digits whose value `a` is in the
range of `int64`. -/
def isDecimal (x : List Char) (a : Nat) : Prop :=
  x ≠ [] ∧ parseDigits 0 x = some a ∧ a < 2 ^ 63

/-- The steps of `InitializeClient` that follow a `GetVersion` returning
`cxVersion` without error: the two version checks, the first of which
reassigns the level variables. The result is the state left by a call that gets
past both checks; `none` when a check panics. The requests made before and
after (`GetTenantID`, `RefreshFlags`, ...) do not touch the level variables
and are not modelled. -/
def InitializeClient (c : Cx1Client) (cxVersion : VersionInfo) : Option Cx1Client :=
  match cxVersion.CheckCxOne "3.12.7" with
  | none => none
  | some check =>
    let c : Cx1Client :=
      if check ≥ 0 then
        { c with AUDIT_QUERY_TENANT := "Tenant", AUDIT_QUERY_APPLICATION := "Application" }
      else c
    match cxVersion.CheckCxOne "3.30.0" with
    | none => none
    | some _ => some c

/-- The level variables hold the values of their declarations, or the values
`InitializeClient` assigns for CxOne 3.12.7 and later. -/
def levelsAssigned (c : Cx1Client) : Prop :=
  (c.AUDIT_QUERY_TENANT = "Corp" ∧ c.AUDIT_QUERY_APPLICATION = "Team")
  ∨ (c.AUDIT_QUERY_TENANT = "Tenant" ∧ c.AUDIT_QUERY_APPLICATION = "Application")

/-! ## User roles -/

/-- The loop of `RemoveUserRoles` over `user.Roles`: the application roles to
remove, the IAM roles to remove, and the remaining roles, each in the order of
`user.Roles`. -/
def sortRoles (c : Cx1Client) (roles : List Role) : List Role → List Role × List Role × List Role
  | [] => ([], [], [])
  | r :: rest =>
    match sortRoles c roles rest with
    | (appRoles, iamRoles, remainingRoles) =>
      if r.ClientID = c.GetASTAppID then
        if roles.any (fun ar => decide (ar.RoleID = r.RoleID)) then
          (r :: appRoles, iamRoles, remainingRoles)
        else (appRoles, iamRoles, r :: remainingRoles)
      else if r.ClientID = c.GetTenantID then
        if roles.any (fun ir => decide (ir.RoleID = r.RoleID)) then
          (appRoles, r :: iamRoles, remainingRoles)
        else (appRoles, iamRoles, r :: remainingRoles)
      else (appRoles, iamRoles, remainingRoles)

/-- The `DELETE` of `removeUserRolesByClientID`, sent through `sendRequestIAM` with
base `/auth/admin`; the body is the marshalled roles, each named by its id. -/
def removeAppRolesRequest (c : Cx1Client) (user : User) (roles : List Role) : Request :=
  ⟨"DELETE", "/auth/admin/users/" ++ user.UserID ++ "/role-mappings/clients/" ++ c.GetASTAppID,
    roles.map (fun r => ("role", r.RoleID))⟩

/-- The `DELETE` of `removeUserKCRoles`. -/
def removeIAMRolesRequest (user : User) (roles : List Role) : Request :=
  ⟨"DELETE", "/auth/admin/users/" ++ user.UserID ++ "/role-mappings/realm",
    roles.map (fun r => ("role", r.RoleID))⟩

/-- `RemoveUserRoles`: the user as left by the call, and the error. -/
def RemoveUserRoles (c : Cx1Client) (user : User) (roles : List Role) :
    (User × Option Error) × List Event :=
  match sortRoles c roles user.Roles with
  | (appRoles, iamRoles, remainingRoles) =>
    let appSent : Option Error × List Event :=
      if appRoles.length > 0 then
        (c.send (removeAppRolesRequest c user appRoles),
         [Event.request (removeAppRolesRequest c user appRoles)])
      else (none, [])
    match appSent with
    | (some err, sent) => ((user, some (Error.removeApplicationRolesFailed err)), sent)
    | (none, sent) =>
      let iamSent : Option Error × List Event :=
        if iamRoles.length > 0 then
          (c.send (removeIAMRolesRequest user iamRoles),
           [Event.request (removeIAMRolesRequest user iamRoles)])
        else (none, [])
      match iamSent with
      | (some err, sentIAM) => ((user, some (Error.removeIAMRolesFailed err)), sent ++ sentIAM)
      | (none, sentIAM) => (({ user with Roles := remainingRoles }, none), sent ++ sentIAM)

/-! ## Stubs used to run the model on concrete inputs -/

/-- Lower-casing of the ASCII letters, standing in for `strings.ToLower`. -/
def asciiLower (s : String) : String :=
  String.mk (s.data.map Char.toLower)

/-- A status reply that reports `completed` with `value` and no error. -/
def statusOk (completed : Bool) (value : Dyn) : StatusReply :=
  .received { Completed := completed, Value := value } none

/-- A client whose remote answers the session `POST` with `session`, the
`n`-th status query with `statuses n`, and the project lookup with `project`. -/
def stubClient (delaySeconds maxSeconds : Int) (project : Except Error Project)
    (session : SessionReply) (statuses : Nat → StatusReply) : Cx1Client :=
  { consts := ⟨delaySeconds, maxSeconds⟩
    ToLower := asciiLower
    now := fun n => 1000 + n
    GetProjectByID := fun _ => project
    sessions := fun _ => session
    requests := fun _ n => statuses n }

/-- Status replies of a request that is pending for the first `N` queries and
completed with `value` from then on. -/
def pendingThenDone (N : Nat) (value : Dyn) (n : Nat) : StatusReply :=
  if n < N then statusOk false Dyn.null else statusOk true value

/-- Status replies of a request that never completes and never fails. -/
def neverDone (_ : Nat) : StatusReply :=
  statusOk false Dyn.null

/-- A session with id `sess`. -/
def sampleSession : AuditSession :=
  { ID := "sess" }

/-- A client whose remote answers the session `POST` with session `sess` in the
given status, request id `req` and the given query filters, and reports every
status query as completed with `languages`. -/
def sessionClient (project : Except Error Project) (status : String) (filters : List String)
    (languages : Dyn) : Cx1Client :=
  stubClient 30 0 project (.received "sess" ⟨status, "req", filters⟩ none)
    (fun _ => statusOk true languages)

/-- A client for a project owned by two applications, for the `iac` engine. -/
def multiOwnerClient : Cx1Client :=
  sessionClient (.ok ⟨some ["app1", "app2"]⟩) "RUNNING" ["terraform"] Dyn.null

/-- The session `multiOwnerClient` hands out for project `proj`. -/
def multiOwnerSession : AuditSession :=
  { ID := "sess", Data := ⟨"RUNNING", "req", ["terraform"]⟩, Engine := "iac",
    Platforms := ["terraform"], ProjectID := "proj",
    ApplicationID := "Error: multiple owning applications",
    CreatedAt := 1000, LastHeartbeat := 1001 }

/-- A client for the `sast` engine whose provisioning request delivers the
languages `go` and `java`. -/
def sastClient : Cx1Client :=
  sessionClient (.ok ⟨some ["app"]⟩) "ALLOCATED" []
    (Dyn.array [Dyn.string "go", Dyn.string "java"])

/-- The session `sastClient` hands out for project `proj`. -/
def sastSession : AuditSession :=
  { ID := "sess", Data := ⟨"ALLOCATED", "req", []⟩, Engine := "sast",
    Languages := ["go", "java"], ProjectID := "proj", ApplicationID := "app",
    CreatedAt := 1000, LastHeartbeat := 1001 }

/-- The effects of creating `sastSession`: lookup, `POST`, one status query. -/
def sastLog : List Event :=
  [Event.projectLookup "proj", Event.request (projectSessionRequest "sast" "proj" "scan"),
   Event.request (statusRequest { ID := "sess" } "req")]

/-- A client for the `sast` engine whose provisioning request delivers an empty
language list. -/
def noLanguagesClient : Cx1Client :=
  sessionClient (.ok ⟨some ["app"]⟩) "ALLOCATED" [] (Dyn.array [])

/-- A client for the `iac` engine whose provisioning response has no query filters. -/
def noPlatformsClient : Cx1Client :=
  sessionClient (.ok ⟨some ["app"]⟩) "RUNNING" [] Dyn.null

/-- Equality of the ASCII lower-casings, standing in for `strings.EqualFold`. -/
def asciiEqualFold (a b : String) : Bool :=
  decide (asciiLower a = asciiLower b)

/-- The query the remote of `editorClient` returns for every key. -/
def remoteSASTQuery : AuditSASTQuery :=
  { Key := "newkey", Name := "Reflected_XSS", Level := "Team", Path := "queries/Reflected_XSS",
    Source := "result = All;",
    Metadata := { Language := "Java", Group := "Java_High_Risk", Severity := "High", Cwe := 79 } }

/-- The query the remote of `editorClient` returns for every id. -/
def remoteIACQuery : AuditIACQuery :=
  { QueryID := "p:1234", Name := "Open_Port", Level := "Project",
    Metadata := { Platform := "Terraform", Severity := "Medium", Description := "open port" } }

/-- A client for the query editor. Its project has two owning applications; the
session `POST` is answered with session `sess`, status `ALLOCATED` and request
`req`; request `req` completes with the language `go` and every other request
with the id `newkey`; every query fetch returns `remoteSASTQuery` or
`remoteIACQuery`; a `PATCH` succeeds and any other request without response
body fails. -/
def editorClient : Cx1Client :=
  { consts := ⟨30, 0⟩
    ToLower := asciiLower
    now := fun n => 1000 + n
    GetProjectByID := fun _ => .ok ⟨some ["app1", "app2"]⟩
    sessions := fun _ => .received "sess" ⟨"ALLOCATED", "req", []⟩ none
    requests := fun request _ =>
      if request.path = "/query-editor/sessions/sess/requests/req" then
        statusOk true (Dyn.array [Dyn.string "go"])
      else statusOk true (Dyn.object [("id", Dyn.string "newkey")])
    EqualFold := asciiEqualFold
    send := fun request =>
      if request.method = "PATCH" then none else some (Error.external "gone")
    requestIDs := fun _ => .received { Id := "create" } none
    sastQueries := fun _ => .received remoteSASTQuery none
    iacQueries := fun _ => .received remoteIACQuery none
    queryTrees := fun _ => .received [⟨Dyn.string "Java"⟩] none }

/-- A client whose project has no owning application; otherwise as `editorClient`. -/
def noOwnerClient : Cx1Client :=
  { editorClient with GetProjectByID := fun _ => .ok ⟨some []⟩ }

/-- A session of `editorClient` whose last heartbeat is ten minutes before the
client's clock readings. -/
def staleSession : AuditSession :=
  { ID := "sess", Engine := "sast", LastHeartbeat := 1000 - 600000000000 }

/-- A SAST query without editor key whose source is `result = All;`. -/
def keylessSASTQuery : SASTQuery :=
  { Name := "Reflected_XSS", Source := "result = All;" }

/-- A SAST query with an editor key. -/
def keyedSASTQuery : SASTQuery :=
  { Name := "Reflected_XSS", Source := "result = All;", EditorKey := "newkey", QueryID := 42,
    Level := "Cx", Language := "Java", Group := "Java_High_Risk" }

/-- An IAC query without id whose source is `package Cx`. -/
def keylessIACQuery : IACQuery :=
  { Name := "Open_Port", Source := "package Cx" }

/-- An IAC query with an id and a description. -/
def keyedIACQuery : IACQuery :=
  { Name := "Open_Port", Source := "package Cx", QueryID := "c:1234", Description := "open port" }

/-- The SAST session `editorClient` hands out for project `proj`, whose two
owning applications leave the marker as application id. -/
def markerSession : AuditSession :=
  { ID := "sess", Data := ⟨"ALLOCATED", "req", []⟩, Engine := "sast", Languages := ["go"],
    ProjectID := "proj", ApplicationID := "Error: multiple owning applications",
    CreatedAt := 1000, LastHeartbeat := 1001 }

/-- The query an Application-level override of `keyedSASTQuery` returns under
`markerSession`. -/
def markerOverride : SASTQuery :=
  { QueryID := 42, Level := "Team", LevelID := "Error: multiple owning applications",
    Path := "queries/Reflected_XSS", Source := "result = All;", Name := "Reflected_XSS",
    Group := "Java_High_Risk", Language := "Java", Severity := "High", CweID := 79,
    Custom := true, EditorKey := "newkey" }

/-- A client whose asynchronous requests all complete with the id `newkey` and a
`failed_queries` field that decodes to `failures`; otherwise as `editorClient`. -/
def failingClient (failures : List QueryFailure) : Cx1Client :=
  { editorClient with
    requests := fun _ _ =>
      statusOk true
        (Dyn.object [("id", Dyn.string "newkey"), ("failed_queries", Dyn.array [])])
    unmarshalFailures := fun _ => (failures, none) }

/-- A failure record naming a compilation error. -/
def compileFailure : QueryFailure :=
  ⟨Dyn.string "compilation error"⟩

/-- A client whose remote returns, for every IAC query, a record with the given id. -/
def iacIdClient (QueryID : String) : Cx1Client :=
  { editorClient with
    iacQueries := fun _ => .received { remoteIACQuery with QueryID := QueryID } none }

/-- A client whose HTTP layer answers every request with the given status and
body, an error body being decoded to the given fields. -/
def httpClient (StatusCode : Int) (Status Body : String)
    (decoded : Option (List (String × Dyn))) : Cx1Client :=
  { editorClient with
    Do := fun _ => DoResult.responded ⟨StatusCode, Status, Body⟩
    unmarshalObject := fun _ => decoded }

/-- A request used to exercise the transport. -/
def sampleRequest : Request :=
  ⟨"GET", "/projects", []⟩

/-- The client `editorClient` as `InitializeClient` leaves the level variables
against CxOne 3.12.7 or later. -/
def currentClient : Cx1Client :=
  { editorClient with AUDIT_QUERY_TENANT := "Tenant", AUDIT_QUERY_APPLICATION := "Application" }

/-- The client `c` with a remote that reports every query at the given level. -/
def levelClient (c : Cx1Client) (level : String) : Cx1Client :=
  { c with
    sastQueries := fun _ => .received { remoteSASTQuery with Level := level } none
    iacQueries := fun _ => .received { remoteIACQuery with Level := level } none }

/-- A client whose requests without response body all succeed; its AST
application id is `ast-app` and its tenant id `tenant`. -/
def rolesClient : Cx1Client :=
  { editorClient with send := fun _ => none }

/-- A user with two application roles, one IAM role and one role of another
client. -/
def sampleUser : User :=
  { UserID := "u1"
    Roles :=
      [⟨"ast-app", "r1", "ast-viewer"⟩, ⟨"tenant", "r2", "iam-admin"⟩,
       ⟨"other", "r3", "realm-management"⟩, ⟨"ast-app", "r4", "ast-scanner"⟩] }

/-- A client used only for its status replies. -/
def pollingClient (statuses : Nat → StatusReply) : Cx1Client :=
  stubClient 30 0 (.error (Error.external "no project")) (.transportFailed (Error.external "down"))
    statuses

end Cx1ClientGo

namespace Cx1ClientGo

/-! ## Lemmas on the poller -/

theorem AuditGetRequestStatusByID_sent (c : Cx1Client) (auditSession : AuditSession)
    (requestId : String) (n : Nat) :
    (AuditGetRequestStatusByID c auditSession requestId n).2
      = [Event.request (statusRequest auditSession requestId)] := by
  unfold AuditGetRequestStatusByID
  split
  · rfl
  · rfl
  · split_ifs <;> rfl

theorem AuditGetRequestStatusByID_eq (c : Cx1Client) (auditSession : AuditSession)
    (requestId : String) (n : Nat) (t : Bool × Dyn × Option Error)
    (h : (AuditGetRequestStatusByID c auditSession requestId n).1 = t) :
    AuditGetRequestStatusByID c auditSession requestId n
      = (t, [Event.request (statusRequest auditSession requestId)]) := by
  rw [← h, ← AuditGetRequestStatusByID_sent c auditSession requestId n]

theorem pollLoop_err (c : Cx1Client) (s : AuditSession) (rid : String) (d m : Int)
    (fuel n : Nat) (pc : Int) (st : Bool) (v : Dyn) (e : Error)
    (h : (AuditGetRequestStatusByID c s rid n).1 = (st, v, some e)) :
    pollLoop c s rid d m (fuel + 1) n pc
      = some ⟨v, some e, [Event.request (statusRequest s rid)]⟩ := by
  simp [pollLoop, AuditGetRequestStatusByID_eq c s rid n _ h]

theorem pollLoop_timeout (c : Cx1Client) (s : AuditSession) (rid : String) (d m : Int)
    (fuel n : Nat) (pc : Int) (st : Bool) (v : Dyn)
    (h : (AuditGetRequestStatusByID c s rid n).1 = (st, v, none))
    (ht : timedOut m pc) :
    pollLoop c s rid d m (fuel + 1) n pc
      = some ⟨v, some (Error.pollTimeout rid pc), [Event.request (statusRequest s rid)]⟩ := by
  obtain ⟨h0, h1⟩ := ht
  simp [pollLoop, AuditGetRequestStatusByID_eq c s rid n _ h, h0, h1]

theorem pollLoop_done (c : Cx1Client) (s : AuditSession) (rid : String) (d m : Int)
    (fuel n : Nat) (pc : Int) (v : Dyn)
    (h : (AuditGetRequestStatusByID c s rid n).1 = (true, v, none))
    (ht : ¬ timedOut m pc) :
    pollLoop c s rid d m (fuel + 1) n pc
      = some ⟨v, none, [Event.request (statusRequest s rid)]⟩ := by
  have ht2 : ¬ (m ≠ 0 ∧ pc ≥ m) := ht
  simp only [pollLoop, AuditGetRequestStatusByID_eq c s rid n _ h]
  simp [ht2]

theorem pollLoop_next (c : Cx1Client) (s : AuditSession) (rid : String) (d m : Int)
    (fuel n : Nat) (pc : Int) (v : Dyn)
    (h : (AuditGetRequestStatusByID c s rid n).1 = (false, v, none))
    (ht : ¬ timedOut m pc) :
    pollLoop c s rid d m (fuel + 1) n pc
      = (pollLoop c s rid d m fuel (n + 1) (wrapInt (pc + d))).map
          (fun r => ⟨r.value, r.err,
            Event.request (statusRequest s rid) :: Event.sleep (sleepDuration d) :: r.log⟩) := by
  have ht2 : ¬ (m ≠ 0 ∧ pc ≥ m) := ht
  simp only [pollLoop, AuditGetRequestStatusByID_eq c s rid n _ h]
  simp only [Option.isSome_none, Bool.false_eq_true, if_false, ht2]
  cases pollLoop c s rid d m fuel (n + 1) (wrapInt (pc + d)) <;> rfl

theorem requestsSent_pollingRounds (q : Request) (d : Int) (N : Nat) (rest : List Event) :
    requestsSent (pollingRounds q d N ++ rest) = N + requestsSent rest := by
  induction N with
  | zero => simp [pollingRounds]
  | succ k ih => simp [pollingRounds, requestsSent, ih]; omega

theorem sleeps_pollingRounds (q : Request) (d : Int) (N : Nat) (rest : List Event) :
    sleeps (pollingRounds q d N ++ rest)
      = List.replicate N (sleepDuration d) ++ sleeps rest := by
  induction N with
  | zero => simp [pollingRounds]
  | succ k ih => simp [pollingRounds, sleeps, ih, List.replicate_succ]

/-- A request pending for `N` more queries and then completed is returned after
`N` rounds, whatever the counter, when no timeout is set. -/
theorem pollLoop_pending_then_done (c : Cx1Client) (s : AuditSession) (rid : String)
    (d : Int) (v : Dyn) (N : Nat) :
    ∀ (n : Nat) (pc : Int) (fuel : Nat),
      (∀ k, k < N → ∃ w, (AuditGetRequestStatusByID c s rid (n + k)).1 = (false, w, none)) →
      (AuditGetRequestStatusByID c s rid (n + N)).1 = (true, v, none) →
      N + 1 ≤ fuel →
      pollLoop c s rid d 0 fuel n pc
        = some ⟨v, none, pollingRounds (statusRequest s rid) d N
            ++ [Event.request (statusRequest s rid)]⟩ := by
  induction N with
  | zero =>
    intro n pc fuel _ hdone hfuel
    obtain ⟨f, rfl⟩ : ∃ f, fuel = f + 1 := ⟨fuel - 1, by omega⟩
    have hlive : ¬ timedOut 0 pc := fun h => h.1 rfl
    simpa [pollingRounds] using pollLoop_done c s rid d 0 f n pc v hdone hlive
  | succ N ih =>
    intro n pc fuel hpend hdone hfuel
    obtain ⟨f, rfl⟩ : ∃ f, fuel = f + 1 := ⟨fuel - 1, by omega⟩
    have hlive : ¬ timedOut 0 pc := fun h => h.1 rfl
    obtain ⟨w, hw⟩ := hpend 0 (by omega)
    rw [pollLoop_next c s rid d 0 f n pc w hw hlive]
    have hrec := ih (n + 1) (wrapInt (pc + d)) f
      (fun k hk => by
        have := hpend (k + 1) (by omega)
        rwa [show n + (k + 1) = n + 1 + k by omega] at this)
      (by rwa [show n + (N + 1) = n + 1 + N by omega] at hdone)
      (by omega)
    rw [hrec]
    simp [pollingRounds]

/-- For a delay between 0 and 9223372036 seconds the duration handed to
`time.Sleep` is that many seconds. -/
theorem sleepDuration_seconds (delaySeconds : Int) (h0 : 0 ≤ delaySeconds)
    (h1 : delaySeconds ≤ 9223372036) :
    sleepDuration delaySeconds = delaySeconds * 1000000000 := by
  unfold sleepDuration wrapInt intBits
  norm_num
  omega

/-- C1, counterexample: with `delaySeconds = 2^62 + 1` and `maxSeconds = 0`, a
request pending at the first status query and completed at the second is
returned after one sleep, and the duration handed to `time.Sleep` is the
wrapped product 1000000000 nanoseconds, one second, not `2^62 + 1` seconds. -/
theorem poll_sleep_duration_wraps :
    AuditRequestStatusPollingByIDWithTimeout
        (pollingClient (pendingThenDone 1 (Dyn.string "done"))) sampleSession "req"
        4611686018427387905 0 2
      = some ⟨Dyn.string "done", none,
          [Event.request (statusRequest sampleSession "req"), Event.sleep 1000000000,
           Event.request (statusRequest sampleSession "req")]⟩
    ∧ (0 : Int) ≤ 4611686018427387905
    ∧ (1000000000 : Int) ≠ 4611686018427387905 * 1000000000 :=
  ⟨rfl, by decide, by decide⟩

/-- C1, amended: with `maxSeconds = 0`, if the first `N` status queries report
`completed = false` without error and query `N + 1` reports `completed = true`
with value `v`, then for every `delaySeconds` the poller, given fuel for
`N + 1` iterations, returns `(v, nil)`; its effects are exactly `N` rounds of
one query and one sleep, followed by the completing query: `N + 1` status
queries, `N` sleeps, nothing after the completing query, and no timeout
error. When `0 ≤ delaySeconds ≤ 9223372036` each sleep lasts `delaySeconds`
seconds, `N * delaySeconds` seconds in total. -/
theorem poll_unbounded_returns_after_N_rounds (c : Cx1Client) (s : AuditSession)
    (rid : String) (delaySeconds : Int) (N : Nat) (v : Dyn) (fuel : Nat)
    (hpending : ∀ k, k < N → ∃ w, (AuditGetRequestStatusByID c s rid k).1 = (false, w, none))
    (hdone : (AuditGetRequestStatusByID c s rid N).1 = (true, v, none))
    (hfuel : N + 1 ≤ fuel) :
    ∃ log, AuditRequestStatusPollingByIDWithTimeout c s rid delaySeconds 0 fuel
        = some ⟨v, none, log⟩
      ∧ log = pollingRounds (statusRequest s rid) delaySeconds N
          ++ [Event.request (statusRequest s rid)]
      ∧ requestsSent log = N + 1
      ∧ sleeps log = List.replicate N (sleepDuration delaySeconds)
      ∧ (0 ≤ delaySeconds → delaySeconds ≤ 9223372036 →
          sleeps log = List.replicate N (delaySeconds * 1000000000)
          ∧ (sleeps log).sum = N * delaySeconds * 1000000000) := by
  have hsleeps : sleeps (pollingRounds (statusRequest s rid) delaySeconds N
      ++ [Event.request (statusRequest s rid)])
      = List.replicate N (sleepDuration delaySeconds) := by
    rw [sleeps_pollingRounds]; simp [sleeps]
  refine ⟨_, ?_, rfl, ?_, hsleeps, ?_⟩
  · unfold AuditRequestStatusPollingByIDWithTimeout
    exact pollLoop_pending_then_done c s rid delaySeconds v N 0 0 fuel
      (fun k hk => by simpa using hpending k hk) (by simpa using hdone) hfuel
  · rw [requestsSent_pollingRounds]; rfl
  · intro h0 h1
    rw [hsleeps, sleepDuration_seconds delaySeconds h0 h1]
    refine ⟨rfl, ?_⟩
    simp [List.sum_replicate, mul_assoc]

/-- Witness of C1 as amended: a request pending for two queries and completed at
the third, polled every 7 seconds. -/
theorem poll_unbounded_returns_after_N_rounds_witness :
    ∃ log, AuditRequestStatusPollingByIDWithTimeout
          (pollingClient (pendingThenDone 2 (Dyn.string "done"))) sampleSession "req" 7 0 3
        = some ⟨Dyn.string "done", none, log⟩
      ∧ log = pollingRounds (statusRequest sampleSession "req") 7 2
          ++ [Event.request (statusRequest sampleSession "req")]
      ∧ requestsSent log = 2 + 1
      ∧ sleeps log = List.replicate 2 (sleepDuration 7)
      ∧ ((0 : Int) ≤ 7 → (7 : Int) ≤ 9223372036 →
          sleeps log = List.replicate 2 ((7 : Int) * 1000000000)
          ∧ (sleeps log).sum = (2 : Nat) * (7 : Int) * 1000000000) :=
  poll_unbounded_returns_after_N_rounds
    (pollingClient (pendingThenDone 2 (Dyn.string "done"))) sampleSession "req" 7 2
    (Dyn.string "done") 3
    (fun k hk => by
      interval_cases k
      · exact ⟨Dyn.null, rfl⟩
      · exact ⟨Dyn.null, rfl⟩)
    rfl (by decide)

/-- A query that reports completion while the timeout guard is silent ends the
loop, from whatever query number the pending stretch starts. -/
theorem pollLoop_completed_query (c : Cx1Client) (s : AuditSession) (rid : String)
    (d m : Int) (v : Dyn) (k : Nat) :
    ∀ (n : Nat) (fuel : Nat),
      (∀ j, j < k → (∃ w, (AuditGetRequestStatusByID c s rid (n + j)).1 = (false, w, none))
        ∧ ¬ timedOut m (pollingCounterAt d (n + j))) →
      (AuditGetRequestStatusByID c s rid (n + k)).1 = (true, v, none) →
      ¬ timedOut m (pollingCounterAt d (n + k)) →
      k + 1 ≤ fuel →
      pollLoop c s rid d m fuel n (pollingCounterAt d n)
        = some ⟨v, none, pollingRounds (statusRequest s rid) d k
            ++ [Event.request (statusRequest s rid)]⟩ := by
  induction k with
  | zero =>
    intro n fuel _ hdone hlive hfuel
    obtain ⟨f, rfl⟩ : ∃ f, fuel = f + 1 := ⟨fuel - 1, by omega⟩
    simpa [pollingRounds] using pollLoop_done c s rid d m f n _ v hdone hlive
  | succ k ih =>
    intro n fuel hpend hdone hlive hfuel
    obtain ⟨f, rfl⟩ : ∃ f, fuel = f + 1 := ⟨fuel - 1, by omega⟩
    obtain ⟨⟨w, hw⟩, hl0⟩ := hpend 0 (by omega)
    simp only [Nat.add_zero] at hw hl0
    rw [pollLoop_next c s rid d m f n _ w hw hl0]
    have hrec := ih (n + 1) f
      (fun j hj => by
        have := hpend (j + 1) (by omega)
        rwa [show n + (j + 1) = n + 1 + j by omega] at this)
      (by rwa [show n + (k + 1) = n + 1 + k by omega] at hdone)
      (by rwa [show n + (k + 1) = n + 1 + k by omega] at hlive)
      (by omega)
    have hpc : wrapInt (pollingCounterAt d n + d) = pollingCounterAt d (n + 1) := rfl
    rw [hpc, hrec]
    simp [pollingRounds]

/-- C2, as amended: whenever the poller reaches a status query (every earlier
query reported `completed = false` without error and without the timeout guard
firing) that reports `completed = true` with no error, and the timeout guard
does not fire at that query (`maxSeconds = 0` or the elapsed counter is below
`maxSeconds`), the poller returns that query's value with a nil error, right
after that query. -/
theorem poll_returns_completed_value (c : Cx1Client) (s : AuditSession) (rid : String)
    (delaySeconds maxSeconds : Int) (k : Nat) (v : Dyn) (fuel : Nat)
    (hreach : ∀ j, j < k →
      (∃ w, (AuditGetRequestStatusByID c s rid j).1 = (false, w, none))
        ∧ ¬ timedOut maxSeconds (pollingCounterAt delaySeconds j))
    (hdone : (AuditGetRequestStatusByID c s rid k).1 = (true, v, none))
    (hlive : ¬ timedOut maxSeconds (pollingCounterAt delaySeconds k))
    (hfuel : k + 1 ≤ fuel) :
    AuditRequestStatusPollingByIDWithTimeout c s rid delaySeconds maxSeconds fuel
      = some ⟨v, none, pollingRounds (statusRequest s rid) delaySeconds k
          ++ [Event.request (statusRequest s rid)]⟩ := by
  unfold AuditRequestStatusPollingByIDWithTimeout
  exact pollLoop_completed_query c s rid delaySeconds maxSeconds v k 0 fuel
    (fun j hj => by simpa using hreach j hj) (by simpa using hdone)
    (by simpa using hlive) hfuel

/-- Witness of C2 as amended: delay 5, limit 10, completion reported by the
second query, made with 5 seconds elapsed. -/
theorem poll_returns_completed_value_witness :
    AuditRequestStatusPollingByIDWithTimeout
        (pollingClient (pendingThenDone 1 (Dyn.string "done"))) sampleSession "req" 5 10 2
      = some ⟨Dyn.string "done", none, pollingRounds (statusRequest sampleSession "req") 5 1
          ++ [Event.request (statusRequest sampleSession "req")]⟩ :=
  poll_returns_completed_value
    (pollingClient (pendingThenDone 1 (Dyn.string "done"))) sampleSession "req" 5 10 1
    (Dyn.string "done") 2
    (fun j hj => by
      interval_cases j
      exact ⟨⟨Dyn.null, rfl⟩, by decide⟩)
    rfl (by decide) (by decide)

/-- Counterexample to C2 as stated: with delay 5 and limit 5 the second status
query reports `completed = true` with value `"done"` and no error, but it is made
with the counter at 5, and the poller returns a timeout error. -/
theorem poll_completed_query_times_out :
    (AuditGetRequestStatusByID (pollingClient (pendingThenDone 1 (Dyn.string "done")))
        sampleSession "req" 1).1 = (true, Dyn.string "done", none)
    ∧ AuditRequestStatusPollingByIDWithTimeout
        (pollingClient (pendingThenDone 1 (Dyn.string "done"))) sampleSession "req" 5 5 2
      = some ⟨Dyn.string "done", some (Error.pollTimeout "req" 5),
          [Event.request (statusRequest sampleSession "req"), Event.sleep 5000000000,
           Event.request (statusRequest sampleSession "req")]⟩ :=
  ⟨rfl, rfl⟩

/-- C3: with `delaySeconds = 5`, `maxSeconds = 10` and a status endpoint that
never reports completion and never errors, the poller returns the timeout error
naming the request id and 10 elapsed seconds; it has then performed exactly two
polling rounds (a query followed by a 5-second sleep) and the one further query
at which the guard fires, and with fuel for only two queries it has not yet
returned. -/
theorem poll_delay5_max10_times_out_after_two_rounds (c : Cx1Client) (s : AuditSession)
    (rid : String) (fuel : Nat)
    (hnever : ∀ k, ∃ w, (AuditGetRequestStatusByID c s rid k).1 = (false, w, none))
    (hfuel : 3 ≤ fuel) :
    ∃ w log, AuditRequestStatusPollingByIDWithTimeout c s rid 5 10 fuel
        = some ⟨w, some (Error.pollTimeout rid 10), log⟩
      ∧ log = pollingRounds (statusRequest s rid) 5 2 ++ [Event.request (statusRequest s rid)]
      ∧ sleeps log = [5000000000, 5000000000]
      ∧ requestsSent log = 3
      ∧ AuditRequestStatusPollingByIDWithTimeout c s rid 5 10 2 = none := by
  obtain ⟨w0, h0⟩ := hnever 0
  obtain ⟨w1, h1⟩ := hnever 1
  obtain ⟨w2, h2⟩ := hnever 2
  obtain ⟨f, rfl⟩ : ∃ f, fuel = f + 3 := ⟨fuel - 3, by omega⟩
  have l0 : ¬ timedOut 10 0 := by unfold timedOut; omega
  have l1 : ¬ timedOut 10 (wrapInt (0 + 5)) := by
    have : wrapInt (0 + 5) = 5 := by decide
    rw [this]; unfold timedOut; omega
  have l2 : timedOut 10 (wrapInt (wrapInt (0 + 5) + 5)) := by
    have : wrapInt (wrapInt (0 + 5) + 5) = 10 := by decide
    rw [this]; unfold timedOut; omega
  have e10 : wrapInt (wrapInt (0 + 5) + 5) = 10 := by decide
  refine ⟨w2, _, ?_, rfl, ?_, ?_, ?_⟩
  · unfold AuditRequestStatusPollingByIDWithTimeout
    rw [pollLoop_next c s rid 5 10 (f + 2) 0 0 w0 h0 l0,
      pollLoop_next c s rid 5 10 (f + 1) 1 _ w1 h1 l1,
      pollLoop_timeout c s rid 5 10 f 2 _ false w2 h2 l2, e10]
    rfl
  · rw [sleeps_pollingRounds]; rfl
  · rw [requestsSent_pollingRounds]; rfl
  · unfold AuditRequestStatusPollingByIDWithTimeout
    rw [pollLoop_next c s rid 5 10 1 0 0 w0 h0 l0,
      pollLoop_next c s rid 5 10 0 1 _ w1 h1 l1]
    rfl

/-- Witness of C3: the stub that never completes. -/
theorem poll_delay5_max10_times_out_after_two_rounds_witness :
    ∃ w log, AuditRequestStatusPollingByIDWithTimeout (pollingClient neverDone)
          sampleSession "req" 5 10 3
        = some ⟨w, some (Error.pollTimeout "req" 10), log⟩
      ∧ log = pollingRounds (statusRequest sampleSession "req") 5 2
          ++ [Event.request (statusRequest sampleSession "req")]
      ∧ sleeps log = [5000000000, 5000000000]
      ∧ requestsSent log = 3
      ∧ AuditRequestStatusPollingByIDWithTimeout (pollingClient neverDone)
          sampleSession "req" 5 10 2 = none :=
  poll_delay5_max10_times_out_after_two_rounds (pollingClient neverDone) sampleSession "req" 3
    (fun _ => ⟨Dyn.null, rfl⟩) (by decide)

theorem wrapInt_of_isInt (x : Int) (h : isInt x) : wrapInt x = x := by
  unfold isInt intBits at h
  unfold wrapInt intBits
  norm_num at h ⊢
  omega

theorem le_ceilDiv_mul (m d : Int) (hd : 0 < d) (hm : 0 < m) : m ≤ (ceilDiv m d : Int) * d := by
  unfold ceilDiv
  have hq : 0 ≤ (m + d - 1) / d := Int.ediv_nonneg (by omega) (by omega)
  rw [Int.toNat_of_nonneg hq]
  have h1 := Int.ediv_add_emod (m + d - 1) d
  have h2 := Int.emod_lt_of_pos (m + d - 1) hd
  nlinarith [Int.emod_nonneg (m + d - 1) (ne_of_gt hd)]

/-- From any loop state whose counter is at most `R` steps of `delaySeconds`
short of `maxSeconds`, the loop returns within `R` more sleeps. -/
theorem pollLoop_bounded (c : Cx1Client) (s : AuditSession) (rid : String) (d m : Int)
    (hd : 0 < d) (hno : m + d ≤ 2 ^ (intBits - 1)) (R : Nat) :
    ∀ (n : Nat) (pc : Int), 0 ≤ pc → 0 < m → m ≤ pc + R * d →
      ∃ r, (∀ fuel, R + 1 ≤ fuel → pollLoop c s rid d m fuel n pc = some r)
        ∧ (sleeps r.log).length ≤ R ∧ requestsSent r.log ≤ R + 1 := by
  induction R with
  | zero =>
    intro n pc _ hm hreach
    have hto : timedOut m pc := ⟨by omega, by simpa using hreach⟩
    rcases hq : (AuditGetRequestStatusByID c s rid n).1 with ⟨st, v, e⟩
    cases e with
    | some err =>
      refine ⟨⟨v, some err, [Event.request (statusRequest s rid)]⟩, ?_, by simp [sleeps],
        by simp [requestsSent]⟩
      intro fuel hf
      obtain ⟨f, rfl⟩ : ∃ f, fuel = f + 1 := ⟨fuel - 1, by omega⟩
      exact pollLoop_err c s rid d m f n pc st v err hq
    | none =>
      refine ⟨⟨v, some (Error.pollTimeout rid pc), [Event.request (statusRequest s rid)]⟩, ?_,
        by simp [sleeps], by simp [requestsSent]⟩
      intro fuel hf
      obtain ⟨f, rfl⟩ : ∃ f, fuel = f + 1 := ⟨fuel - 1, by omega⟩
      exact pollLoop_timeout c s rid d m f n pc st v hq hto
  | succ R ih =>
    intro n pc hpc hm hreach
    rcases hq : (AuditGetRequestStatusByID c s rid n).1 with ⟨st, v, e⟩
    cases e with
    | some err =>
      refine ⟨⟨v, some err, [Event.request (statusRequest s rid)]⟩, ?_, by simp [sleeps],
        by simp [requestsSent]⟩
      intro fuel hf
      obtain ⟨f, rfl⟩ : ∃ f, fuel = f + 1 := ⟨fuel - 1, by omega⟩
      exact pollLoop_err c s rid d m f n pc st v err hq
    | none =>
      by_cases hto : timedOut m pc
      · refine ⟨⟨v, some (Error.pollTimeout rid pc), [Event.request (statusRequest s rid)]⟩, ?_,
          by simp [sleeps], by simp [requestsSent]⟩
        intro fuel hf
        obtain ⟨f, rfl⟩ : ∃ f, fuel = f + 1 := ⟨fuel - 1, by omega⟩
        exact pollLoop_timeout c s rid d m f n pc st v hq hto
      · cases st with
        | true =>
          refine ⟨⟨v, none, [Event.request (statusRequest s rid)]⟩, ?_, by simp [sleeps],
            by simp [requestsSent]⟩
          intro fuel hf
          obtain ⟨f, rfl⟩ : ∃ f, fuel = f + 1 := ⟨fuel - 1, by omega⟩
          exact pollLoop_done c s rid d m f n pc v hq hto
        | false =>
          have hlt : pc < m := by
            by_contra hge
            exact hto ⟨by omega, by omega⟩
          have hw : wrapInt (pc + d) = pc + d := by
            apply wrapInt_of_isInt
            unfold isInt
            constructor
            · have : (0 : Int) ≤ 2 ^ (intBits - 1) := by positivity
              omega
            · omega
          obtain ⟨r, hr, hs, hreq⟩ := ih (n + 1) (pc + d) (by omega) hm (by push_cast at hreach; linarith)
          refine ⟨⟨r.value, r.err,
            Event.request (statusRequest s rid) :: Event.sleep (sleepDuration d) :: r.log⟩, ?_, ?_, ?_⟩
          · intro fuel hf
            obtain ⟨f, rfl⟩ : ∃ f, fuel = f + 1 := ⟨fuel - 1, by omega⟩
            rw [pollLoop_next c s rid d m f n pc v hq hto, hw, hr f (by omega)]
            rfl
          · simp only [sleeps, List.length_cons]; omega
          · simp only [requestsSent]; omega

/-- C4, as amended: for `delaySeconds > 0` and `maxSeconds > 0` that leave room
for one more step of the counter inside the range of `int`
(`maxSeconds + delaySeconds ≤ 2^63`), and every behaviour of the status
endpoint, the poller returns: fuel for `ceil(maxSeconds/delaySeconds) + 1`
iterations is enough, and the run has at most `ceil(maxSeconds/delaySeconds)`
sleeps and at most `ceil(maxSeconds/delaySeconds) + 1` status queries. -/
theorem poll_with_timeout_terminates (c : Cx1Client) (s : AuditSession) (rid : String)
    (delaySeconds maxSeconds : Int) (hd : 0 < delaySeconds) (hm : 0 < maxSeconds)
    (hroom : maxSeconds + delaySeconds ≤ 2 ^ (intBits - 1)) :
    ∃ r, (∀ fuel, ceilDiv maxSeconds delaySeconds + 1 ≤ fuel →
          AuditRequestStatusPollingByIDWithTimeout c s rid delaySeconds maxSeconds fuel = some r)
      ∧ (sleeps r.log).length ≤ ceilDiv maxSeconds delaySeconds
      ∧ requestsSent r.log ≤ ceilDiv maxSeconds delaySeconds + 1 := by
  unfold AuditRequestStatusPollingByIDWithTimeout
  exact pollLoop_bounded c s rid delaySeconds maxSeconds hd hroom
    (ceilDiv maxSeconds delaySeconds) 0 0 le_rfl hm
    (by simpa using le_ceilDiv_mul maxSeconds delaySeconds hd hm)

/-- Witness of C4 as amended: delay 5 and limit 12 give at most 3 sleeps and 4
queries against the stub that never completes. -/
theorem poll_with_timeout_terminates_witness :
    ∃ r, (∀ fuel, ceilDiv 12 5 + 1 ≤ fuel →
          AuditRequestStatusPollingByIDWithTimeout (pollingClient neverDone) sampleSession
            "req" 5 12 fuel = some r)
      ∧ (sleeps r.log).length ≤ ceilDiv 12 5
      ∧ requestsSent r.log ≤ ceilDiv 12 5 + 1 :=
  poll_with_timeout_terminates (pollingClient neverDone) sampleSession "req" 5 12
    (by decide) (by decide) (by decide)

/-- Counterexample to C4 as stated: `delaySeconds = 2^62 + 1` and
`maxSeconds = 2^63 - 1` are positive `int`s with `ceil(maxSeconds/delaySeconds) = 2`,
but the second addition to the counter wraps around to a negative value, so
against an endpoint that never completes the poller has not returned after
three queries, and no run returns within two sleeps. -/
theorem poll_counter_wraps_past_bound :
    isInt 4611686018427387905 ∧ isInt 9223372036854775807
    ∧ ceilDiv 9223372036854775807 4611686018427387905 = 2
    ∧ pollingCounterAt 4611686018427387905 2 = -9223372036854775806
    ∧ AuditRequestStatusPollingByIDWithTimeout (pollingClient neverDone) sampleSession "req"
        4611686018427387905 9223372036854775807 3 = none
    ∧ ¬ ∃ fuel r, AuditRequestStatusPollingByIDWithTimeout (pollingClient neverDone)
          sampleSession "req" 4611686018427387905 9223372036854775807 fuel = some r
        ∧ (sleeps r.log).length ≤ 2 := by
  have hq : ∀ n, (AuditGetRequestStatusByID (pollingClient neverDone) sampleSession "req" n).1
      = (false, Dyn.null, none) := fun _ => rfl
  have l0 : ¬ timedOut 9223372036854775807 0 := by decide
  have l1 : ¬ timedOut 9223372036854775807 (wrapInt (0 + 4611686018427387905)) := by decide
  have l2 : ¬ timedOut 9223372036854775807
      (wrapInt (wrapInt (0 + 4611686018427387905) + 4611686018427387905)) := by decide
  have unfold3 : ∀ f, AuditRequestStatusPollingByIDWithTimeout (pollingClient neverDone)
      sampleSession "req" 4611686018427387905 9223372036854775807 (f + 3)
      = (pollLoop (pollingClient neverDone) sampleSession "req" 4611686018427387905
          9223372036854775807 f 3 (wrapInt (wrapInt (wrapInt (0 + 4611686018427387905)
            + 4611686018427387905) + 4611686018427387905))).map
          (fun r => ⟨r.value, r.err,
            pollingRounds (statusRequest sampleSession "req") 4611686018427387905 3 ++ r.log⟩) := by
    intro f
    unfold AuditRequestStatusPollingByIDWithTimeout
    rw [pollLoop_next _ _ _ _ _ (f + 2) 0 0 _ (hq 0) l0,
      pollLoop_next _ _ _ _ _ (f + 1) 1 _ _ (hq 1) l1,
      pollLoop_next _ _ _ _ _ f 2 _ _ (hq 2) l2]
    cases pollLoop (pollingClient neverDone) sampleSession "req" 4611686018427387905
          9223372036854775807 f 3 (wrapInt (wrapInt (wrapInt (0 + 4611686018427387905)
            + 4611686018427387905) + 4611686018427387905)) <;> rfl
  refine ⟨by decide, by decide, by decide, by decide, ?_, ?_⟩
  · rw [unfold3 0]; rfl
  · rintro ⟨fuel, r, hr, hs⟩
    rcases Nat.lt_or_ge fuel 3 with hlt | hge
    · interval_cases fuel
      · exact Option.noConfusion hr
      · unfold AuditRequestStatusPollingByIDWithTimeout at hr
        rw [pollLoop_next _ _ _ _ _ 0 0 0 _ (hq 0) l0] at hr
        exact Option.noConfusion hr
      · unfold AuditRequestStatusPollingByIDWithTimeout at hr
        rw [pollLoop_next _ _ _ _ _ 1 0 0 _ (hq 0) l0,
          pollLoop_next _ _ _ _ _ 0 1 _ _ (hq 1) l1] at hr
        exact Option.noConfusion hr
    · obtain ⟨f, rfl⟩ : ∃ f, fuel = f + 3 := ⟨fuel - 3, by omega⟩
      rw [unfold3 f] at hr
      cases hp : pollLoop (pollingClient neverDone) sampleSession "req" 4611686018427387905
          9223372036854775807 f 3 (wrapInt (wrapInt (wrapInt (0 + 4611686018427387905)
            + 4611686018427387905) + 4611686018427387905)) with
      | none => rw [hp] at hr; exact Option.noConfusion hr
      | some r1 =>
        rw [hp] at hr
        obtain rfl := Option.some.inj hr
        rw [sleeps_pollingRounds] at hs
        simp at hs

theorem AuditGetRequestStatusByID_received (c : Cx1Client) (s : AuditSession)
    (rid : String) (n : Nat) (status : AuditRequestStatus)
    (hreply : c.requests (statusRequest s rid) n = StatusReply.received status none) :
    (AuditGetRequestStatusByID c s rid n).1
      = if status.ErrorCode ≠ 0 ∧ status.ErrorMessage ≠ "" then
          (false, status.Value,
            some (Error.queryEditorCode status.ErrorCode status.ErrorMessage))
        else if status.Status = "Failed" then
          (false, status.Value, some (Error.queryEditorFailed status.Value))
        else (status.Completed, status.Value, none) := by
  unfold AuditGetRequestStatusByID
  rw [hreply]
  dsimp only
  split_ifs <;> rfl

/-- C5: for a status response that was transported and decoded without error,
`AuditGetRequestStatusByID` returns an error exactly when the code is non-zero
with a non-empty message, or the status text is `"Failed"`; the first case
yields the error built from code and message, the second (when the first does
not apply) the error wrapping the value; otherwise it returns
`(completed, value, nil)` as reported, and in particular a non-zero code with
an empty message is not an error. -/
theorem status_error_iff_code_message_or_failed (c : Cx1Client) (s : AuditSession)
    (rid : String) (n : Nat) (status : AuditRequestStatus)
    (hreply : c.requests (statusRequest s rid) n = StatusReply.received status none) :
    (((AuditGetRequestStatusByID c s rid n).1.2.2.isSome = true) ↔
        ((status.ErrorCode ≠ 0 ∧ status.ErrorMessage ≠ "") ∨ status.Status = "Failed"))
    ∧ ((status.ErrorCode ≠ 0 ∧ status.ErrorMessage ≠ "") →
        (AuditGetRequestStatusByID c s rid n).1 = (false, status.Value,
          some (Error.queryEditorCode status.ErrorCode status.ErrorMessage)))
    ∧ (¬ (status.ErrorCode ≠ 0 ∧ status.ErrorMessage ≠ "") → status.Status = "Failed" →
        (AuditGetRequestStatusByID c s rid n).1 = (false, status.Value,
          some (Error.queryEditorFailed status.Value)))
    ∧ (¬ (status.ErrorCode ≠ 0 ∧ status.ErrorMessage ≠ "") → status.Status ≠ "Failed" →
        (AuditGetRequestStatusByID c s rid n).1 = (status.Completed, status.Value, none))
    ∧ (status.ErrorCode ≠ 0 → status.ErrorMessage = "" → status.Status ≠ "Failed" →
        (AuditGetRequestStatusByID c s rid n).1 = (status.Completed, status.Value, none)) := by
  rw [AuditGetRequestStatusByID_received c s rid n status hreply]
  by_cases h1 : status.ErrorCode ≠ 0 ∧ status.ErrorMessage ≠ ""
  · rw [if_pos h1]
    refine ⟨⟨fun _ => Or.inl h1, fun _ => rfl⟩, fun _ => rfl, fun h => absurd h1 h,
      fun h => absurd h1 h, fun _ hm => absurd hm h1.2⟩
  · by_cases h2 : status.Status = "Failed"
    · rw [if_neg h1, if_pos h2]
      exact ⟨⟨fun _ => Or.inr h2, fun _ => rfl⟩, fun h => absurd h h1, fun _ _ => rfl,
        fun _ h => absurd h2 h, fun _ _ h => absurd h2 h⟩
    · rw [if_neg h1, if_neg h2]
      refine ⟨⟨fun h => ?_, fun h => ?_⟩, fun h => absurd h h1, fun _ h => absurd h h2,
        fun _ _ => rfl, fun _ _ _ => rfl⟩
      · exact absurd h (by simp)
      · rcases h with h | h
        · exact absurd h h1
        · exact absurd h h2

/-- Witness of C5: code 7 with an empty message, status `"Running"`, not
completed: no error. -/
theorem status_error_iff_code_message_or_failed_witness :
    (AuditGetRequestStatusByID
        (pollingClient (fun _ => StatusReply.received
          { ErrorCode := 7, Status := "Running", Value := Dyn.string "v" } none))
        sampleSession "req" 0).1 = (false, Dyn.string "v", none) :=
  (status_error_iff_code_message_or_failed
    (pollingClient (fun _ => StatusReply.received
      { ErrorCode := 7, Status := "Running", Value := Dyn.string "v" } none))
    sampleSession "req" 0 { ErrorCode := 7, Status := "Running", Value := Dyn.string "v" }
    rfl).2.2.2.2 (by decide) (by decide) (by decide)

/-! ## Lemmas on session creation -/

theorem appendLanguages_strings (langs : List String) :
    ∀ acc, appendLanguages acc (langs.map Dyn.string) = some (acc ++ langs) := by
  induction langs with
  | nil => intro acc; simp [appendLanguages]
  | cons l rest ih => intro acc; simp [appendLanguages, ih]

theorem appendLanguages_some (items : List Dyn) :
    ∀ acc out, appendLanguages acc items = some out →
      ∃ langs, items = langs.map Dyn.string ∧ out = acc ++ langs := by
  induction items with
  | nil =>
    intro acc out h
    refine ⟨[], rfl, ?_⟩
    simpa [appendLanguages] using h.symm
  | cons x rest ih =>
    intro acc out h
    cases x with
    | string l =>
      obtain ⟨langs, h1, h2⟩ := ih (acc ++ [l]) out (by simpa [appendLanguages] using h)
      exact ⟨l :: langs, by simp [h1], by simp [h2]⟩
    | null => simp [appendLanguages] at h
    | bool b => simp [appendLanguages] at h
    | number n => simp [appendLanguages] at h
    | array a => simp [appendLanguages] at h
    | object o => simp [appendLanguages] at h

/-- What a nil-error return of `AuditCreateSessionByID` looks like. -/
theorem AuditCreateSessionByID_success (c : Cx1Client) (engine pid sid : String) (fuel : Nat)
    (sess : AuditSession) (log : List Event)
    (h : AuditCreateSessionByID c engine pid sid fuel = some ⟨.returned (sess, none), log⟩) :
    ∃ appId id data, owningApplication (c.GetProjectByID pid) = some appId
      ∧ c.sessions (projectSessionRequest (c.ToLower engine) pid sid)
          = SessionReply.received id data none
      ∧ ((c.ToLower engine = "sast" ∧ data.Status = "ALLOCATED" ∧ ∃ polled langs,
            AuditRequestStatusPollingByID c
                { ID := id, Data := data, Engine := c.ToLower engine } data.RequestID fuel
              = some polled
            ∧ polled.err = none ∧ polled.value = Dyn.array (langs.map Dyn.string)
            ∧ sess = { ID := id, Data := data, Engine := c.ToLower engine, Languages := langs,
                       ProjectID := pid, ApplicationID := appId,
                       CreatedAt := c.now 0, LastHeartbeat := c.now 1 }
            ∧ log = Event.projectLookup pid
                :: Event.request (projectSessionRequest (c.ToLower engine) pid sid)
                :: polled.log)
        ∨ (c.ToLower engine = "iac" ∧ data.Status = "RUNNING"
            ∧ sess = { ID := id, Data := data, Engine := c.ToLower engine,
                       Platforms := data.QueryFilters, ProjectID := pid, ApplicationID := appId,
                       CreatedAt := c.now 0, LastHeartbeat := c.now 1 }
            ∧ log = [Event.projectLookup pid,
                Event.request (projectSessionRequest (c.ToLower engine) pid sid)])) := by
  unfold AuditCreateSessionByID at h
  dsimp only at h
  split at h
  · simp at h
  · split at h
    · simp at h
    · rename_i appId happ
      split at h
      · simp at h
      · simp at h
      · rename_i id data hpost
        refine ⟨appId, id, data, happ, hpost, ?_⟩
        split at h
        · rename_i hs
          left
          split at h
          · simp at h
          · rename_i hst
            split at h
            · simp at h
            · rename_i polled hpoll
              split at h
              · simp at h
              · rename_i herr
                split at h
                · rename_i languages hval
                  split at h
                  · simp at h
                  · rename_i langs happend
                    obtain ⟨strs, hitems, hout⟩ := appendLanguages_some languages [] langs happend
                    simp only [Option.some.injEq, Run.mk.injEq, Outcome.returned.injEq,
                      Prod.mk.injEq, and_true] at h
                    obtain ⟨hsess, hlog⟩ := h
                    refine ⟨hs, not_not.mp hst, polled, strs, hpoll, herr, ?_, ?_, hlog.symm⟩
                    · rw [hval, hitems]
                    · rw [← hsess, hout]; simp
                · simp at h
        · rename_i hs
          right
          split at h
          · rename_i hi
            split at h
            · simp at h
            · rename_i hst
              simp only [Option.some.injEq, Run.mk.injEq, Outcome.returned.injEq,
                Prod.mk.injEq, and_true] at h
              exact ⟨hi, not_not.mp hst, h.1.symm, h.2.symm⟩
          · rename_i hi
            rename_i hguard _ _
            exact absurd ⟨hs, hi⟩ hguard

/-- What a nil-error return of `AuditCreateSession` looks like. -/
theorem AuditCreateSession_success (c : Cx1Client) (engine filter : String) (fuel : Nat)
    (sess : AuditSession) (log : List Event)
    (h : AuditCreateSession c engine filter fuel = some ⟨.returned (sess, none), log⟩) :
    ∃ id data polled langs,
      c.sessions (tenantSessionRequest engine filter) = SessionReply.received id data none
      ∧ data.Status = "ALLOCATED"
      ∧ AuditRequestStatusPollingByID c
            { ID := id, Data := data, Engine := engine,
              CreatedAt := c.now 0, LastHeartbeat := c.now 1 } data.RequestID fuel
          = some polled
      ∧ polled.err = none ∧ polled.value = Dyn.array (langs.map Dyn.string)
      ∧ sess = { ID := id, Data := data, Engine := engine, Languages := langs,
                 CreatedAt := c.now 0, LastHeartbeat := c.now 1 }
      ∧ log = Event.request (tenantSessionRequest engine filter) :: polled.log := by
  unfold AuditCreateSession at h
  dsimp only at h
  split at h
  · simp at h
  · simp at h
  · rename_i id data hpost
    split at h
    · simp at h
    · rename_i hst
      split at h
      · simp at h
      · rename_i polled hpoll
        split at h
        · simp at h
        · rename_i herr
          split at h
          · rename_i languages hval
            split at h
            · simp at h
            · rename_i langs happend
              obtain ⟨strs, hitems, hout⟩ := appendLanguages_some languages [] langs happend
              simp only [Option.some.injEq, Run.mk.injEq, Outcome.returned.injEq,
                Prod.mk.injEq, and_true] at h
              obtain ⟨hsess, hlog⟩ := h
              refine ⟨id, data, polled, strs, hpost, not_not.mp hst, hpoll, herr, ?_, ?_,
                hlog.symm⟩
              · rw [hval, hitems]
              · rw [← hsess, hout]; simp
          · simp at h

/-- C6: `AuditCreateSessionByID` validates the lower-cased engine before doing
anything else. If it is neither `"sast"` nor `"iac"` the call returns the
`unknown engine` error with an empty log: no project lookup and no `POST`. If
it is `"sast"` or `"iac"` the call goes on to the project lookup, and every
session it returns after the provisioning response was decoded carries the
lower-cased engine. -/
theorem createSessionByID_validates_engine (c : Cx1Client) (engine pid sid : String)
    (fuel : Nat) :
    (c.ToLower engine ≠ "sast" → c.ToLower engine ≠ "iac" →
      AuditCreateSessionByID c engine pid sid fuel
        = some ⟨.returned ({}, some (Error.unknownEngine (c.ToLower engine))), []⟩)
    ∧ ((c.ToLower engine = "sast" ∨ c.ToLower engine = "iac") →
        ∀ r, AuditCreateSessionByID c engine pid sid fuel = some r →
          r.log.head? = some (Event.projectLookup pid)
          ∧ ∀ sess err id data, r.outcome = .returned (sess, err) →
              c.sessions (projectSessionRequest (c.ToLower engine) pid sid)
                = SessionReply.received id data none →
              sess.Engine = c.ToLower engine) := by
  constructor
  · intro h1 h2
    unfold AuditCreateSessionByID
    dsimp only
    rw [if_pos ⟨h1, h2⟩]
  · intro hacc r h
    have hguard : ¬ (c.ToLower engine ≠ "sast" ∧ c.ToLower engine ≠ "iac") := by
      rintro ⟨h1, h2⟩
      rcases hacc with h | h
      · exact h1 h
      · exact h2 h
    unfold AuditCreateSessionByID at h
    dsimp only at h
    rw [if_neg hguard] at h
    split at h
    · obtain rfl := Option.some.inj h
      exact ⟨rfl, fun _ _ _ _ ho => by simp at ho⟩
    · split at h
      · rename_i hp
        obtain rfl := Option.some.inj h
        exact ⟨rfl, fun _ _ _ _ _ hp2 => by rw [hp] at hp2; simp at hp2⟩
      · rename_i hp
        obtain rfl := Option.some.inj h
        exact ⟨rfl, fun _ _ _ _ _ hp2 => by rw [hp] at hp2; simp at hp2⟩
      · split at h
        · split at h
          · obtain rfl := Option.some.inj h
            exact ⟨rfl, fun _ _ _ _ ho _ => by simp at ho; rw [← ho.1]⟩
          · split at h
            · simp at h
            · split at h
              · obtain rfl := Option.some.inj h
                exact ⟨rfl, fun _ _ _ _ ho _ => by simp at ho; rw [← ho.1]⟩
              · split at h
                · split at h
                  · obtain rfl := Option.some.inj h
                    exact ⟨rfl, fun _ _ _ _ ho _ => by simp at ho⟩
                  · obtain rfl := Option.some.inj h
                    exact ⟨rfl, fun _ _ _ _ ho _ => by simp at ho; rw [← ho.1]⟩
                · obtain rfl := Option.some.inj h
                  exact ⟨rfl, fun _ _ _ _ ho _ => by simp at ho; rw [← ho.1]⟩
        · split at h
          · split at h
            · obtain rfl := Option.some.inj h
              exact ⟨rfl, fun _ _ _ _ ho _ => by simp at ho; rw [← ho.1]⟩
            · obtain rfl := Option.some.inj h
              exact ⟨rfl, fun _ _ _ _ ho _ => by simp at ho; rw [← ho.1]⟩
          · obtain rfl := Option.some.inj h
            exact ⟨rfl, fun _ _ _ _ ho _ => by simp at ho; rw [← ho.1]⟩

/-- Witness of C6: `"Kics"` is rejected with nothing sent, and `"IaC"` is
accepted, looked up, and stored as `"iac"`. -/
theorem createSessionByID_validates_engine_witness :
    AuditCreateSessionByID
        (sessionClient (.ok ⟨some ["app"]⟩) "RUNNING" ["terraform"] Dyn.null)
        "Kics" "proj" "scan" 0
      = some ⟨.returned ({}, some (Error.unknownEngine "kics")), []⟩
    ∧ ∀ r, AuditCreateSessionByID
          (sessionClient (.ok ⟨some ["app"]⟩) "RUNNING" ["terraform"] Dyn.null)
          "IaC" "proj" "scan" 0 = some r →
        r.log.head? = some (Event.projectLookup "proj")
        ∧ ∀ sess err id data, r.outcome = .returned (sess, err) →
            (sessionClient (.ok ⟨some ["app"]⟩) "RUNNING" ["terraform"] Dyn.null).sessions
                (projectSessionRequest "iac" "proj" "scan")
              = SessionReply.received id data none →
            sess.Engine = "iac" :=
  ⟨(createSessionByID_validates_engine
      (sessionClient (.ok ⟨some ["app"]⟩) "RUNNING" ["terraform"] Dyn.null)
      "Kics" "proj" "scan" 0).1 (by decide) (by decide),
   (createSessionByID_validates_engine
      (sessionClient (.ok ⟨some ["app"]⟩) "RUNNING" ["terraform"] Dyn.null)
      "IaC" "proj" "scan" 0).2 (Or.inr (by decide))⟩

/-- C7, the code at the failing input: `AuditCreateSession` with the engine
`"bogus"` sends the `POST` and the status query and returns a session with a
nil error. -/
theorem createSession_does_not_validate_engine :
    AuditCreateSession
        (sessionClient (.error (Error.external "unused")) "ALLOCATED" []
          (Dyn.array [Dyn.string "go"]))
        "bogus" "" 1
      = some ⟨.returned
          ({ ID := "sess", Data := ⟨"ALLOCATED", "req", []⟩, Engine := "bogus",
             Languages := ["go"], CreatedAt := 1000, LastHeartbeat := 1001 }, none),
          [Event.request (tenantSessionRequest "bogus" ""),
           Event.request (statusRequest { ID := "sess" } "req")]⟩ :=
  rfl

/-- C8: a session returned with a nil error by `AuditCreateSessionByID` has the
requested project id, and its application id follows the owning applications
of the looked-up project: the single owner if there is exactly one, the empty
string if there is none, and the marker `"Error: multiple owning applications"`
if there are several. When the project lookup itself fails the application id
is empty as well. -/
theorem createSessionByID_application_id (c : Cx1Client) (engine pid sid : String)
    (fuel : Nat) (sess : AuditSession) (log : List Event)
    (h : AuditCreateSessionByID c engine pid sid fuel = some ⟨.returned (sess, none), log⟩) :
    sess.ProjectID = pid
    ∧ (∀ proj apps, c.GetProjectByID pid = .ok proj → proj.Applications = some apps →
        (∀ a, apps = [a] → sess.ApplicationID = a)
        ∧ (apps = [] → sess.ApplicationID = "")
        ∧ (1 < apps.length → sess.ApplicationID = "Error: multiple owning applications"))
    ∧ (∀ e, c.GetProjectByID pid = .error e → sess.ApplicationID = "") := by
  obtain ⟨appId, id, data, happ, _, hcase⟩ :=
    AuditCreateSessionByID_success c engine pid sid fuel sess log h
  have hp : sess.ProjectID = pid ∧ sess.ApplicationID = appId := by
    rcases hcase with ⟨_, _, _, _, _, _, _, hs, _⟩ | ⟨_, _, hs, _⟩ <;> rw [hs] <;> exact ⟨rfl, rfl⟩
  refine ⟨hp.1, ?_, ?_⟩
  · intro proj apps hproj happs
    rw [hp.2]
    rw [hproj] at happ
    simp only [owningApplication, happs] at happ
    refine ⟨?_, ?_, ?_⟩
    · rintro a rfl
      simpa using happ.symm
    · rintro rfl
      simpa using happ.symm
    · intro hlen
      have h1 : apps.length ≠ 1 := by omega
      simpa [h1, hlen] using happ.symm
  · intro e herr
    rw [hp.2]
    rw [herr] at happ
    simpa [owningApplication] using happ.symm

/-- Witness of C8: a project owned by `app1` and `app2` yields the marker. -/
theorem createSessionByID_application_id_witness :
    AuditCreateSessionByID multiOwnerClient "iac" "proj" "scan" 0
      = some ⟨.returned (multiOwnerSession, none),
          [Event.projectLookup "proj", Event.request (projectSessionRequest "iac" "proj" "scan")]⟩
    ∧ multiOwnerSession.ProjectID = "proj"
    ∧ (∀ proj apps, multiOwnerClient.GetProjectByID "proj" = .ok proj →
        proj.Applications = some apps →
        (∀ a, apps = [a] → multiOwnerSession.ApplicationID = a)
        ∧ (apps = [] → multiOwnerSession.ApplicationID = "")
        ∧ (1 < apps.length →
            multiOwnerSession.ApplicationID = "Error: multiple owning applications"))
    ∧ (∀ e, multiOwnerClient.GetProjectByID "proj" = .error e →
        multiOwnerSession.ApplicationID = "") :=
  ⟨rfl, createSessionByID_application_id multiOwnerClient "iac" "proj" "scan" 0
    multiOwnerSession
    [Event.projectLookup "proj", Event.request (projectSessionRequest "iac" "proj" "scan")]
    rfl⟩

/-- C9: in `AuditCreateSessionByID`, once the project lookup has not panicked
and the provisioning response has been decoded: for engine `sast`, a status
other than `"ALLOCATED"` gives the allocation error with no polling, and with
`"ALLOCATED"` the call polls the response's request id and, when the poll
returns a list of strings without error, returns the session with `Languages`
equal to that list; for engine `iac`, a status other than `"RUNNING"` gives an
error, and with `"RUNNING"` the call returns the session with `Platforms` equal
to the response's `queryFilters`, having sent only the lookup and the `POST`. -/
theorem createSessionByID_status_gate (c : Cx1Client) (engine pid sid : String) (fuel : Nat)
    (appId id : String) (data : SessionData)
    (happ : owningApplication (c.GetProjectByID pid) = some appId)
    (hpost : c.sessions (projectSessionRequest (c.ToLower engine) pid sid)
      = SessionReply.received id data none) :
    (c.ToLower engine = "sast" →
      (data.Status ≠ "ALLOCATED" →
        AuditCreateSessionByID c engine pid sid fuel
          = some ⟨.returned ({ ID := id, Data := data, Engine := "sast" },
                some (Error.allocateFailed data.Status)),
              [Event.projectLookup pid, Event.request (projectSessionRequest "sast" pid sid)]⟩)
      ∧ (data.Status = "ALLOCATED" → ∀ polled langs,
          AuditRequestStatusPollingByID c { ID := id, Data := data, Engine := "sast" }
              data.RequestID fuel = some polled →
          polled.err = none → polled.value = Dyn.array (langs.map Dyn.string) →
          AuditCreateSessionByID c engine pid sid fuel
            = some ⟨.returned (
                { ID := id, Data := data, Engine := "sast", Languages := langs,
                  ProjectID := pid, ApplicationID := appId,
                  CreatedAt := c.now 0, LastHeartbeat := c.now 1 }, none),
                Event.projectLookup pid :: Event.request (projectSessionRequest "sast" pid sid)
                  :: polled.log⟩))
    ∧ (c.ToLower engine = "iac" →
      (data.Status ≠ "RUNNING" →
        AuditCreateSessionByID c engine pid sid fuel
          = some ⟨.returned ({ ID := id, Data := data, Engine := "iac" },
                some (Error.startFailed data.Status)),
              [Event.projectLookup pid, Event.request (projectSessionRequest "iac" pid sid)]⟩)
      ∧ (data.Status = "RUNNING" →
        AuditCreateSessionByID c engine pid sid fuel
          = some ⟨.returned (
              { ID := id, Data := data, Engine := "iac",
                Platforms := data.QueryFilters, ProjectID := pid, ApplicationID := appId,
                CreatedAt := c.now 0, LastHeartbeat := c.now 1 }, none),
              [Event.projectLookup pid, Event.request (projectSessionRequest "iac" pid sid)]⟩)) := by
  constructor
  · intro hs
    rw [hs] at hpost
    have hguard : ¬ (c.ToLower engine ≠ "sast" ∧ c.ToLower engine ≠ "iac") := fun hg => hg.1 hs
    constructor
    · intro hst
      unfold AuditCreateSessionByID
      dsimp only
      rw [if_neg hguard, happ]
      dsimp only
      rw [hs, hpost]
      dsimp only
      rw [if_pos rfl, if_pos hst]
    · intro hst polled langs hpoll herr hval
      unfold AuditCreateSessionByID
      dsimp only
      rw [if_neg hguard, happ]
      dsimp only
      rw [hs, hpost]
      dsimp only
      rw [if_pos rfl, if_neg (not_not.mpr hst), hpoll]
      dsimp only
      rw [herr]
      dsimp only
      rw [hval]
      dsimp only
      rw [appendLanguages_strings]
      simp
  · intro hi
    rw [hi] at hpost
    have hguard : ¬ (c.ToLower engine ≠ "sast" ∧ c.ToLower engine ≠ "iac") := fun hg => hg.2 hi
    have hne : ¬ (("iac" : String) = "sast") := by decide
    constructor
    · intro hst
      unfold AuditCreateSessionByID
      dsimp only
      rw [if_neg hguard, happ]
      dsimp only
      rw [hi, hpost]
      dsimp only
      rw [if_neg hne, if_pos rfl, if_pos hst]
    · intro hst
      unfold AuditCreateSessionByID
      dsimp only
      rw [if_neg hguard, happ]
      dsimp only
      rw [hi, hpost]
      dsimp only
      rw [if_neg hne, if_pos rfl, if_neg (not_not.mpr hst)]

/-- Witness of C9: an `iac` session in status `RUNNING` takes its platforms
from the response, and a `sast` session in status `ALLOCATED` takes its
languages from the poll of request `req`. -/
theorem createSessionByID_status_gate_witness :
    AuditCreateSessionByID multiOwnerClient "IAC" "proj" "scan" 0
      = some ⟨.returned (multiOwnerSession, none),
          [Event.projectLookup "proj", Event.request (projectSessionRequest "iac" "proj" "scan")]⟩
    ∧ AuditCreateSessionByID sastClient "Sast" "proj" "scan" 1
      = some ⟨.returned (sastSession, none), sastLog⟩ :=
  ⟨((createSessionByID_status_gate multiOwnerClient "IAC" "proj" "scan" 0
      "Error: multiple owning applications" "sess" ⟨"RUNNING", "req", ["terraform"]⟩
      rfl rfl).2 (by decide)).2 rfl,
   ((createSessionByID_status_gate sastClient "Sast" "proj" "scan" 1
      "app" "sess" ⟨"ALLOCATED", "req", []⟩ rfl rfl).1 (by decide)).2 rfl
      ⟨Dyn.array [Dyn.string "go", Dyn.string "java"], none,
        [Event.request (statusRequest { ID := "sess" } "req")]⟩
      ["go", "java"] rfl rfl rfl⟩

/-- C10, as amended: a session returned with a nil error by
`AuditCreateSessionByID` has, when its engine is `sast`, `Languages` equal to
the list of strings delivered by the poll of the provisioning request, and,
when its engine is `iac`, `Platforms` equal to the provisioning response's
`queryFilters`; a session returned with a nil error by `AuditCreateSession`
has `Languages` equal to the list of strings delivered by the poll. So the
languages, respectively platforms, are non-empty exactly when the delivered
list, respectively `queryFilters`, is. -/
theorem returned_session_capabilities (c : Cx1Client) (fuel : Nat) (sess : AuditSession)
    (log : List Event) :
    (∀ engine pid sid,
      AuditCreateSessionByID c engine pid sid fuel = some ⟨.returned (sess, none), log⟩ →
      ∃ id data, c.sessions (projectSessionRequest (c.ToLower engine) pid sid)
          = SessionReply.received id data none
        ∧ (sess.Engine = "sast" → ∃ polled langs,
            AuditRequestStatusPollingByID c { ID := id, Data := data, Engine := "sast" }
                data.RequestID fuel = some polled
            ∧ polled.err = none ∧ polled.value = Dyn.array (langs.map Dyn.string)
            ∧ sess.Languages = langs ∧ (sess.Languages ≠ [] ↔ langs ≠ []))
        ∧ (sess.Engine = "iac" →
            sess.Platforms = data.QueryFilters
            ∧ (sess.Platforms ≠ [] ↔ data.QueryFilters ≠ [])))
    ∧ (∀ engine filter,
      AuditCreateSession c engine filter fuel = some ⟨.returned (sess, none), log⟩ →
      ∃ id data polled langs, c.sessions (tenantSessionRequest engine filter)
          = SessionReply.received id data none
        ∧ AuditRequestStatusPollingByID c
              { ID := id, Data := data, Engine := engine,
                CreatedAt := c.now 0, LastHeartbeat := c.now 1 } data.RequestID fuel
            = some polled
        ∧ polled.err = none ∧ polled.value = Dyn.array (langs.map Dyn.string)
        ∧ sess.Languages = langs ∧ (sess.Languages ≠ [] ↔ langs ≠ [])) := by
  constructor
  · intro engine pid sid h
    obtain ⟨appId, id, data, _, hpost, hcase⟩ :=
      AuditCreateSessionByID_success c engine pid sid fuel sess log h
    refine ⟨id, data, hpost, ?_, ?_⟩
    · intro hs
      rcases hcase with ⟨he, _, polled, langs, hpoll, herr, hval, hsess, _⟩ | ⟨he, _, hsess, _⟩
      · rw [he] at hpoll
        refine ⟨polled, langs, hpoll, herr, hval, ?_, ?_⟩ <;> rw [hsess]
      · rw [hsess, he] at hs
        have hs2 : ("iac" : String) = "sast" := hs
        exact absurd hs2 (by decide)
    · intro hi
      rcases hcase with ⟨he, _, polled, langs, hpoll, herr, hval, hsess, _⟩ | ⟨he, _, hsess, _⟩
      · rw [hsess, he] at hi
        have hi2 : ("sast" : String) = "iac" := hi
        exact absurd hi2 (by decide)
      · constructor <;> rw [hsess]
  · intro engine filter h
    obtain ⟨id, data, polled, langs, hpost, _, hpoll, herr, hval, hsess, _⟩ :=
      AuditCreateSession_success c engine filter fuel sess log h
    refine ⟨id, data, polled, langs, hpost, hpoll, herr, hval, ?_, ?_⟩ <;> rw [hsess]

/-- Witness of C10 as amended: the `sast` session of `sastClient` has the two
polled languages. -/
theorem returned_session_capabilities_witness :
    AuditCreateSessionByID sastClient "sast" "proj" "scan" 1
      = some ⟨.returned (sastSession, none), sastLog⟩
    ∧ ∃ id data, sastClient.sessions (projectSessionRequest (sastClient.ToLower "sast") "proj" "scan")
        = SessionReply.received id data none
      ∧ (sastSession.Engine = "sast" → ∃ polled langs,
          AuditRequestStatusPollingByID sastClient { ID := id, Data := data, Engine := "sast" }
              data.RequestID 1 = some polled
          ∧ polled.err = none ∧ polled.value = Dyn.array (langs.map Dyn.string)
          ∧ sastSession.Languages = langs ∧ (sastSession.Languages ≠ [] ↔ langs ≠ []))
      ∧ (sastSession.Engine = "iac" →
          sastSession.Platforms = data.QueryFilters
          ∧ (sastSession.Platforms ≠ [] ↔ data.QueryFilters ≠ [])) :=
  ⟨rfl, (returned_session_capabilities sastClient 1 sastSession sastLog).1
    "sast" "proj" "scan" rfl⟩

/-- Counterexample to C10 as stated: `AuditCreateSessionByID` returns, with a
nil error, a `sast` session without languages when the poll delivers an empty
list, and an `iac` session without platforms when the response has no query
filters; `AuditCreateSession` likewise returns a `sast` session without
languages. -/
theorem returned_session_may_lack_capabilities :
    AuditCreateSessionByID noLanguagesClient "sast" "proj" "scan" 1
      = some ⟨.returned (
          { ID := "sess", Data := ⟨"ALLOCATED", "req", []⟩, Engine := "sast", Languages := [],
            ProjectID := "proj", ApplicationID := "app",
            CreatedAt := 1000, LastHeartbeat := 1001 }, none),
          [Event.projectLookup "proj", Event.request (projectSessionRequest "sast" "proj" "scan"),
           Event.request (statusRequest { ID := "sess" } "req")]⟩
    ∧ AuditCreateSessionByID noPlatformsClient "iac" "proj" "scan" 1
      = some ⟨.returned (
          { ID := "sess", Data := ⟨"RUNNING", "req", []⟩, Engine := "iac", Platforms := [],
            ProjectID := "proj", ApplicationID := "app",
            CreatedAt := 1000, LastHeartbeat := 1001 }, none),
          [Event.projectLookup "proj", Event.request (projectSessionRequest "iac" "proj" "scan")]⟩
    ∧ AuditCreateSession noLanguagesClient "sast" "" 1
      = some ⟨.returned (
          { ID := "sess", Data := ⟨"ALLOCATED", "req", []⟩, Engine := "sast", Languages := [],
            CreatedAt := 1000, LastHeartbeat := 1001 }, none),
          [Event.request (tenantSessionRequest "sast" ""),
           Event.request (statusRequest { ID := "sess" } "req")]⟩ :=
  ⟨rfl, rfl, rfl⟩

/-! ## Lemmas on base32 -/

/-- The encoder reproduces the test vectors of RFC 4648, section 10. -/
theorem base32Encode_rfc4648_vectors :
    String.mk (base32Encode (asciiBytes "")) = ""
    ∧ String.mk (base32Encode (asciiBytes "f")) = "MY======"
    ∧ String.mk (base32Encode (asciiBytes "fo")) = "MZXQ===="
    ∧ String.mk (base32Encode (asciiBytes "foo")) = "MZXW6==="
    ∧ String.mk (base32Encode (asciiBytes "foob")) = "MZXW6YQ="
    ∧ String.mk (base32Encode (asciiBytes "fooba")) = "MZXW6YTB"
    ∧ String.mk (base32Encode (asciiBytes "foobar")) = "MZXW6YTBOI======" := by
  decide

theorem decodeDigit_encodeDigit (d : Nat) (h : d < 32) :
    decodeDigit (encodeDigit d) = some d := by
  interval_cases d <;> rfl

theorem encodeDigit_ne_pad (d : Nat) (h : d < 32) : encodeDigit d ≠ '=' := by
  interval_cases d <;> decide

theorem decodeGroup_eight (d0 d1 d2 d3 d4 d5 d6 d7 : Nat) (h0 : d0 < 32) (h1 : d1 < 32)
    (h2 : d2 < 32) (h3 : d3 < 32) (h4 : d4 < 32) (h5 : d5 < 32) (h6 : d6 < 32) (h7 : d7 < 32) :
    decodeGroup (encodeDigit d0) (encodeDigit d1) (encodeDigit d2) (encodeDigit d3)
        (encodeDigit d4) (encodeDigit d5) (encodeDigit d6) (encodeDigit d7)
      = some (groupBytes d0 d1 d2 d3 d4 d5 d6 d7) := by
  simp [decodeGroup, decodeDigit_encodeDigit, encodeDigit_ne_pad, h0, h1, h2, h3, h4, h5, h6, h7]

theorem decodeGroup_seven (d0 d1 d2 d3 d4 d5 d6 : Nat) (h0 : d0 < 32) (h1 : d1 < 32)
    (h2 : d2 < 32) (h3 : d3 < 32) (h4 : d4 < 32) (h5 : d5 < 32) (h6 : d6 < 32) :
    decodeGroup (encodeDigit d0) (encodeDigit d1) (encodeDigit d2) (encodeDigit d3)
        (encodeDigit d4) (encodeDigit d5) (encodeDigit d6) '='
      = some ((groupBytes d0 d1 d2 d3 d4 d5 d6 0).take 4) := by
  simp [decodeGroup, decodeDigit_encodeDigit, encodeDigit_ne_pad, h0, h1, h2, h3, h4, h5, h6]

theorem decodeGroup_five (d0 d1 d2 d3 d4 : Nat) (h0 : d0 < 32) (h1 : d1 < 32)
    (h2 : d2 < 32) (h3 : d3 < 32) (h4 : d4 < 32) :
    decodeGroup (encodeDigit d0) (encodeDigit d1) (encodeDigit d2) (encodeDigit d3)
        (encodeDigit d4) '=' '=' '='
      = some ((groupBytes d0 d1 d2 d3 d4 0 0 0).take 3) := by
  simp [decodeGroup, decodeDigit_encodeDigit, encodeDigit_ne_pad, h0, h1, h2, h3, h4]

theorem decodeGroup_four (d0 d1 d2 d3 : Nat) (h0 : d0 < 32) (h1 : d1 < 32)
    (h2 : d2 < 32) (h3 : d3 < 32) :
    decodeGroup (encodeDigit d0) (encodeDigit d1) (encodeDigit d2) (encodeDigit d3)
        '=' '=' '=' '='
      = some ((groupBytes d0 d1 d2 d3 0 0 0 0).take 2) := by
  simp [decodeGroup, decodeDigit_encodeDigit, encodeDigit_ne_pad, h0, h1, h2, h3]

theorem decodeGroup_two (d0 d1 : Nat) (h0 : d0 < 32) (h1 : d1 < 32) :
    decodeGroup (encodeDigit d0) (encodeDigit d1) '=' '=' '=' '=' '=' '='
      = some ((groupBytes d0 d1 0 0 0 0 0 0).take 1) := by
  simp [decodeGroup, decodeDigit_encodeDigit, h0, h1]

theorem byte_ofNat (a : Byte) (x : Nat) (h : x = a.val) : (Fin.ofNat x : Byte) = a := by
  apply Fin.ext
  simp only [Fin.ofNat, h]
  exact Nat.mod_eq_of_lt a.isLt

/-- Decoding undoes encoding. -/
theorem base32Decode_encode (n : Nat) :
    ∀ bytes : List Byte, bytes.length ≤ n → base32Decode (base32Encode bytes) = some bytes := by
  induction n using Nat.strong_induction_on with
  | _ n ih =>
    intro bytes hlen
    match bytes, hlen with
    | [], _ => rfl
    | [a], _ =>
      have ha := a.isLt
      simp only [base32Encode, groupDigits, List.take, List.map, List.replicate, List.cons_append,
        List.nil_append, base32Decode]
      rw [decodeGroup_two _ _ (by omega) (by omega)]
      simp only [groupBytes, List.take, List.length_cons, List.length_nil, ne_eq,
        not_true_eq_false, and_false, if_false, List.append_nil, Option.some.injEq,
        List.cons.injEq, and_true]
      exact byte_ofNat a _ (by omega)
    | [a, b], _ =>
      have ha := a.isLt
      have hb := b.isLt
      simp only [base32Encode, groupDigits, List.take, List.map, List.replicate, List.cons_append,
        List.nil_append, base32Decode]
      rw [decodeGroup_four _ _ _ _ (by omega) (by omega) (by omega) (by omega)]
      simp only [groupBytes, List.take, List.length_cons, List.length_nil, ne_eq,
        not_true_eq_false, and_false, if_false, List.append_nil, Option.some.injEq,
        List.cons.injEq, and_true]
      exact ⟨byte_ofNat a _ (by omega), byte_ofNat b _ (by omega)⟩
    | [a, b, c], _ =>
      have ha := a.isLt
      have hb := b.isLt
      have hc := c.isLt
      simp only [base32Encode, groupDigits, List.take, List.map, List.replicate, List.cons_append,
        List.nil_append, base32Decode]
      rw [decodeGroup_five _ _ _ _ _ (by omega) (by omega) (by omega) (by omega) (by omega)]
      simp only [groupBytes, List.take, List.length_cons, List.length_nil, ne_eq,
        not_true_eq_false, and_false, if_false, List.append_nil, Option.some.injEq,
        List.cons.injEq, and_true]
      exact ⟨byte_ofNat a _ (by omega), byte_ofNat b _ (by omega), byte_ofNat c _ (by omega)⟩
    | [a, b, c, d], _ =>
      have ha := a.isLt
      have hb := b.isLt
      have hc := c.isLt
      have hd := d.isLt
      simp only [base32Encode, groupDigits, List.take, List.map, List.replicate, List.cons_append,
        List.nil_append, base32Decode]
      rw [decodeGroup_seven _ _ _ _ _ _ _ (by omega) (by omega) (by omega) (by omega) (by omega)
        (by omega) (by omega)]
      simp only [groupBytes, List.take, List.length_cons, List.length_nil, ne_eq,
        not_true_eq_false, and_false, if_false, List.append_nil, Option.some.injEq,
        List.cons.injEq, and_true]
      exact ⟨byte_ofNat a _ (by omega), byte_ofNat b _ (by omega), byte_ofNat c _ (by omega),
        byte_ofNat d _ (by omega)⟩
    | a :: b :: c :: d :: e :: rest, hlen =>
      have ha := a.isLt
      have hb := b.isLt
      have hc := c.isLt
      have hd := d.isLt
      have he := e.isLt
      have hrest := ih rest.length (by simp at hlen; omega) rest le_rfl
      simp only [base32Encode, groupDigits, List.map, List.cons_append, List.nil_append,
        base32Decode]
      rw [decodeGroup_eight _ _ _ _ _ _ _ _ (by omega) (by omega) (by omega) (by omega)
        (by omega) (by omega) (by omega) (by omega)]
      simp only [List.append_eq, List.nil_append, hrest]
      have hgroup : groupBytes (a.val / 8) (a.val % 8 * 4 + b.val / 64) (b.val / 2 % 32)
          (b.val % 2 * 16 + c.val / 16) (c.val % 16 * 2 + d.val / 128) (d.val / 4 % 32)
          (d.val % 4 * 8 + e.val / 32) (e.val % 32) = [a, b, c, d, e] := by
        simp only [groupBytes, List.cons.injEq, and_true]
        exact ⟨byte_ofNat a _ (by omega), byte_ofNat b _ (by omega), byte_ofNat c _ (by omega),
          byte_ofNat d _ (by omega), byte_ofNat e _ (by omega)⟩
      rw [hgroup]
      simp

/-- The encoder is injective. -/
theorem base32Encode_injective (x y : List Byte) (h : base32Encode x = base32Encode y) :
    x = y := by
  have hx := base32Decode_encode x.length x le_rfl
  have hy := base32Decode_encode y.length y le_rfl
  rw [h, hy] at hx
  exact (Option.some.inj hx).symm

/-- Cutting at the first `-`: with no `-` in either head, equal strings have equal
heads and equal tails. -/
theorem split_at_dash (a : List Byte) :
    ∀ (b x y : List Byte), (45 : Byte) ∉ a → (45 : Byte) ∉ b →
      a ++ 45 :: x = b ++ 45 :: y → a = b ∧ x = y := by
  induction a with
  | nil =>
    intro b x y _ hb h
    cases b with
    | nil => exact ⟨rfl, by simpa using h⟩
    | cons b0 bs =>
      simp only [List.nil_append, List.cons_append, List.cons.injEq] at h
      exact absurd (h.1 ▸ List.mem_cons_self _ _) hb
  | cons a0 as ih =>
    intro b x y ha hb h
    cases b with
    | nil =>
      simp only [List.nil_append, List.cons_append, List.cons.injEq] at h
      exact absurd (h.1 ▸ List.mem_cons_self _ _) ha
    | cons b0 bs =>
      simp only [List.cons_append, List.cons.injEq] at h
      obtain ⟨h1, h2⟩ := ih bs x y (fun hm => ha (List.mem_cons_of_mem _ hm))
        (fun hm => hb (List.mem_cons_of_mem _ hm)) h.2
      exact ⟨by rw [h.1, h1], h2⟩

/-! ## Session lifecycle -/

/-- C11: `AuditSessionKeepAlive`, for every session and clock: if less than five
minutes have elapsed since `LastHeartbeat` it returns nil, sends nothing and
leaves the session as it is; otherwise it sends exactly one `PATCH` to
`/query-editor/sessions/{id}`, and then either the `PATCH` succeeds and the
session is returned with `LastHeartbeat` set to the next clock reading and
every other field unchanged, or the `PATCH` fails and its error is returned
with the session unchanged. -/
theorem keepAlive_rate_limited (c : Cx1Client) (s : AuditSession) :
    (c.now 0 - s.LastHeartbeat < fiveMinutes →
      AuditSessionKeepAlive c s = ((s, none), []))
    ∧ (¬ (c.now 0 - s.LastHeartbeat < fiveMinutes) →
        (c.send ⟨"PATCH", "/query-editor/sessions/" ++ s.ID, []⟩ = none →
          AuditSessionKeepAlive c s
            = (({ s with LastHeartbeat := c.now 1 }, none),
               [Event.request ⟨"PATCH", "/query-editor/sessions/" ++ s.ID, []⟩]))
        ∧ (∀ err, c.send ⟨"PATCH", "/query-editor/sessions/" ++ s.ID, []⟩ = some err →
          AuditSessionKeepAlive c s
            = ((s, some err),
               [Event.request ⟨"PATCH", "/query-editor/sessions/" ++ s.ID, []⟩]))) := by
  refine ⟨fun h => ?_, fun h => ⟨fun hs => ?_, fun err hs => ?_⟩⟩
  · unfold AuditSessionKeepAlive
    rw [if_pos h]
  · unfold AuditSessionKeepAlive
    rw [if_neg h]
    simp only [sessionPath, hs]
  · unfold AuditSessionKeepAlive
    rw [if_neg h]
    simp only [sessionPath, hs]

/-- Witness of C11: a session refreshed at the clock's first reading is left
alone, and one refreshed ten minutes earlier is refreshed by one `PATCH`. -/
theorem keepAlive_rate_limited_witness :
    AuditSessionKeepAlive editorClient { ID := "sess", LastHeartbeat := 1000 }
      = (({ ID := "sess", LastHeartbeat := 1000 }, none), [])
    ∧ AuditSessionKeepAlive editorClient staleSession
      = (({ staleSession with LastHeartbeat := 1001 }, none),
         [Event.request ⟨"PATCH", "/query-editor/sessions/sess", []⟩]) :=
  ⟨(keepAlive_rate_limited editorClient { ID := "sess", LastHeartbeat := 1000 }).1 (by decide),
   ((keepAlive_rate_limited editorClient staleSession).2 (by decide)).1 rfl⟩

/-- C12: `AuditDeleteSession` with a nil session returns nil and sends nothing;
with a session it sends exactly one `DELETE` to `/query-editor/sessions/{id}`
and returns the error of that request, if any. -/
theorem deleteSession_nil_is_success (c : Cx1Client) :
    AuditDeleteSession c none = (none, [])
    ∧ ∀ s : AuditSession, AuditDeleteSession c (some s)
        = (c.send ⟨"DELETE", "/query-editor/sessions/" ++ s.ID, []⟩,
           [Event.request ⟨"DELETE", "/query-editor/sessions/" ++ s.ID, []⟩]) := by
  refine ⟨rfl, fun s => ?_⟩
  unfold AuditDeleteSession
  simp only [sessionPath]
  cases c.send ⟨"DELETE", "/query-editor/sessions/" ++ s.ID, []⟩ <;> rfl

/-! ## Source updates -/

/-- C13, as amended: for every session and every query that has an editor key
(SAST) or an id (IAC), `UpdateSASTQuerySource` and `UpdateIACQuerySource` called
with the query's current source return the query unchanged, an empty failure
list and a nil error, and send no request. -/
theorem updateSource_unchanged_is_noop (c : Cx1Client) (s : AuditSession) (fuel : Nat) :
    (∀ query : SASTQuery, query.EditorKey ≠ "" →
      UpdateSASTQuerySource c s query query.Source fuel = some ((query, [], none), []))
    ∧ (∀ query : IACQuery, query.QueryID ≠ "" →
      UpdateIACQuerySource c s query query.Source fuel
        = some ⟨.returned (query, [], none), []⟩) := by
  constructor
  · intro query hkey
    unfold UpdateSASTQuerySource
    rw [if_neg hkey, if_pos rfl]
  · intro query hkey
    unfold UpdateIACQuerySource
    rw [if_neg hkey, if_pos rfl]

/-- Witness of C13 as amended: a keyed SAST query and a keyed IAC query. -/
theorem updateSource_unchanged_is_noop_witness :
    UpdateSASTQuerySource editorClient staleSession keyedSASTQuery "result = All;" 0
      = some ((keyedSASTQuery, [], none), [])
    ∧ UpdateIACQuerySource editorClient staleSession keyedIACQuery "package Cx" 0
      = some ⟨.returned (keyedIACQuery, [], none), []⟩ :=
  ⟨(updateSource_unchanged_is_noop editorClient staleSession 0).1 keyedSASTQuery (by decide),
   (updateSource_unchanged_is_noop editorClient staleSession 0).2 keyedIACQuery (by decide)⟩

/-- Counterexample to C13 as stated: for a SAST query without editor key and an
IAC query without id, the call with the query's current source returns an
error and an empty query instead of the query. -/
theorem updateSource_unchanged_without_key_fails :
    UpdateSASTQuerySource editorClient staleSession keylessSASTQuery keylessSASTQuery.Source 0
      = some (({}, [], some (Error.missingEditorKey "Reflected_XSS")), [])
    ∧ UpdateIACQuerySource editorClient staleSession keylessIACQuery keylessIACQuery.Source 0
      = some ⟨.returned ({}, [], some (Error.missingEditorKey "Open_Port")), []⟩ :=
  ⟨rfl, rfl⟩

/-! ## Editor keys -/

/-- C14, as amended: on tuples whose level, language and group contain no `-`,
editor key derivation is injective: two such tuples that differ have different
keys. -/
theorem editorKey_injective_without_dash
    (level language group name level2 language2 group2 name2 : List Byte)
    (h1 : (45 : Byte) ∉ level) (h2 : (45 : Byte) ∉ language) (h3 : (45 : Byte) ∉ group)
    (h4 : (45 : Byte) ∉ level2) (h5 : (45 : Byte) ∉ language2) (h6 : (45 : Byte) ∉ group2)
    (hne : (level, language, group, name) ≠ (level2, language2, group2, name2)) :
    calculateEditorKey level language group name
      ≠ calculateEditorKey level2 language2 group2 name2 := by
  intro h
  apply hne
  have hjoin := base32Encode_injective _ _ (congrArg String.data h)
  unfold joinedQueryID at hjoin
  obtain ⟨e1, r1⟩ := split_at_dash level level2 _ _ h1 h4 hjoin
  obtain ⟨e2, r2⟩ := split_at_dash language language2 _ _ h2 h5 r1
  obtain ⟨e3, r3⟩ := split_at_dash group group2 _ _ h3 h6 r2
  rw [e1, e2, e3, r3]

/-- Witness of C14 as amended: two tuples that differ in the name only. -/
theorem editorKey_injective_without_dash_witness :
    calculateEditorKey (asciiBytes "Cx") (asciiBytes "Java") (asciiBytes "High") (asciiBytes "XSS")
      ≠ calculateEditorKey (asciiBytes "Cx") (asciiBytes "Java") (asciiBytes "High")
          (asciiBytes "SQLi") :=
  editorKey_injective_without_dash (asciiBytes "Cx") (asciiBytes "Java") (asciiBytes "High")
    (asciiBytes "XSS") (asciiBytes "Cx") (asciiBytes "Java") (asciiBytes "High")
    (asciiBytes "SQLi") (by decide) (by decide) (by decide) (by decide) (by decide) (by decide)
    (by decide)

/-- Counterexample to C14 as stated: the tuples `(a-b, c, d, e)` and
`(a, b-c, d, e)` differ and have the same key, the encoding of `a-b-c-d-e`. -/
theorem editorKey_collision :
    (asciiBytes "a-b", asciiBytes "c", asciiBytes "d", asciiBytes "e")
      ≠ (asciiBytes "a", asciiBytes "b-c", asciiBytes "d", asciiBytes "e")
    ∧ calculateEditorKey (asciiBytes "a-b") (asciiBytes "c") (asciiBytes "d") (asciiBytes "e")
      = calculateEditorKey (asciiBytes "a") (asciiBytes "b-c") (asciiBytes "d") (asciiBytes "e")
    ∧ calculateEditorKey (asciiBytes "a-b") (asciiBytes "c") (asciiBytes "d") (asciiBytes "e")
      = "MEWWELLDFVSC2ZI=" := by
  decide

/-- C15: `calculateEditorKey` returns the padded base32 text of the bytes of
`level-language-group-name`; decoding the key gives back exactly these bytes;
and two tuples have the same key if and only if their joined strings are
equal. -/
theorem editorKey_is_reversible_encoding (level language group name : List Byte) :
    calculateEditorKey level language group name
      = String.mk (base32Encode (level ++ 45 :: (language ++ 45 :: (group ++ 45 :: name))))
    ∧ base32Decode (calculateEditorKey level language group name).data
      = some (level ++ 45 :: (language ++ 45 :: (group ++ 45 :: name)))
    ∧ ∀ level2 language2 group2 name2 : List Byte,
        calculateEditorKey level language group name
            = calculateEditorKey level2 language2 group2 name2
          ↔ joinedQueryID level language group name
            = joinedQueryID level2 language2 group2 name2 := by
  refine ⟨rfl, ?_, fun level2 language2 group2 name2 => ⟨fun h => ?_, fun h => ?_⟩⟩
  · exact base32Decode_encode _ _ le_rfl
  · exact base32Encode_injective _ _ (congrArg String.data h)
  · unfold calculateEditorKey
    rw [h]

/-! ## The level variables -/

theorem levelsAssigned_distinct (c : Cx1Client) (h : levelsAssigned c) :
    c.AUDIT_QUERY_APPLICATION ≠ AUDIT_QUERY_PRODUCT
    ∧ c.AUDIT_QUERY_APPLICATION ≠ AUDIT_QUERY_PROJECT
    ∧ c.AUDIT_QUERY_APPLICATION ≠ c.AUDIT_QUERY_TENANT
    ∧ c.AUDIT_QUERY_TENANT ≠ AUDIT_QUERY_PRODUCT
    ∧ c.AUDIT_QUERY_TENANT ≠ AUDIT_QUERY_PROJECT := by
  rcases h with ⟨ht, ha⟩ | ⟨ht, ha⟩ <;> rw [ht, ha] <;> decide

/-- The level variables keep one of their two pairs of values across
`InitializeClient`. -/
theorem InitializeClient_levelsAssigned (c after : Cx1Client) (cxVersion : VersionInfo)
    (h : levelsAssigned c) (hinit : InitializeClient c cxVersion = some after) :
    levelsAssigned after := by
  unfold InitializeClient at hinit
  split at hinit
  · exact absurd hinit (by simp)
  · dsimp only at hinit
    split at hinit
    · exact absurd hinit (by simp)
    · obtain rfl := Option.some.inj hinit
      split_ifs
      · exact Or.inr ⟨rfl, rfl⟩
      · exact h

/-- Against CxOne 3.25.1 `InitializeClient` turns `editorClient` into
`currentClient`, and against CxOne 3.12.6 it leaves the declared names. -/
theorem InitializeClient_editorClient :
    (InitializeClient editorClient { CxOne := "3.25.1" }).map
        (fun c => (c.AUDIT_QUERY_TENANT, c.AUDIT_QUERY_APPLICATION))
      = some (currentClient.AUDIT_QUERY_TENANT, currentClient.AUDIT_QUERY_APPLICATION)
    ∧ (InitializeClient editorClient { CxOne := "3.12.6" }).map
        (fun c => (c.AUDIT_QUERY_TENANT, c.AUDIT_QUERY_APPLICATION))
      = some ("Corp", "Team") :=
  ⟨by decide, by decide⟩

theorem switchLevelID_product (c : Cx1Client) (s : AuditSession) (LevelID : String)
    (h : levelsAssigned c) :
    switchLevelID c s AUDIT_QUERY_PRODUCT LevelID = AUDIT_QUERY_PRODUCT := by
  obtain ⟨h1, _, _, _, _⟩ := levelsAssigned_distinct c h
  unfold switchLevelID
  rw [if_neg (fun e => h1 e.symm), if_pos rfl]

theorem switchLevelID_tenant (c : Cx1Client) (s : AuditSession) (LevelID : String)
    (h : levelsAssigned c) :
    switchLevelID c s c.AUDIT_QUERY_TENANT LevelID = c.AUDIT_QUERY_TENANT := by
  obtain ⟨_, _, h3, h4, h5⟩ := levelsAssigned_distinct c h
  unfold switchLevelID
  rw [if_neg (fun e => h3 e.symm), if_neg h4, if_neg h5, if_pos rfl]

theorem switchLevelID_application (c : Cx1Client) (s : AuditSession) (LevelID : String) :
    switchLevelID c s c.AUDIT_QUERY_APPLICATION LevelID = s.ApplicationID := by
  unfold switchLevelID
  rw [if_pos rfl]

theorem switchLevelID_project (c : Cx1Client) (s : AuditSession) (LevelID : String)
    (h : levelsAssigned c) :
    switchLevelID c s AUDIT_QUERY_PROJECT LevelID = s.ProjectID := by
  obtain ⟨_, h2, _, _, _⟩ := levelsAssigned_distinct c h
  unfold switchLevelID
  rw [if_neg (fun e => h2 e.symm), if_neg (by decide), if_pos rfl]

/-! ## Query overrides -/

theorem overrideLevel_noApplication (c : Cx1Client) (s : AuditSession) (level : String)
    (hs : s.ApplicationID = "") (hl : c.EqualFold level c.AUDIT_QUERY_APPLICATION = true) :
    overrideLevel c s level = .error (Error.noApplication s.ID) := by
  unfold overrideLevel
  rw [if_pos hl, if_pos hs]

theorem overrideLevel_invalid (c : Cx1Client) (s : AuditSession) (level : String)
    (ha : c.EqualFold level c.AUDIT_QUERY_APPLICATION = false)
    (hp : c.EqualFold level AUDIT_QUERY_PROJECT = false)
    (ht : c.EqualFold level c.AUDIT_QUERY_TENANT = false) :
    overrideLevel c s level = .error (Error.invalidOverrideLevel level) := by
  unfold overrideLevel
  simp [ha, hp, ht]

/-- The level an accepted override is made at: the Application level for a
level that folds to it on a session with an application, else the Project
level, else the Tenant level. -/
theorem overrideLevel_accepted (c : Cx1Client) (s : AuditSession) (level canon : String)
    (h : (c.EqualFold level c.AUDIT_QUERY_APPLICATION = true ∧ s.ApplicationID ≠ ""
          ∧ canon = c.AUDIT_QUERY_APPLICATION)
        ∨ (c.EqualFold level c.AUDIT_QUERY_APPLICATION = false
          ∧ c.EqualFold level AUDIT_QUERY_PROJECT = true ∧ canon = AUDIT_QUERY_PROJECT)
        ∨ (c.EqualFold level c.AUDIT_QUERY_APPLICATION = false
          ∧ c.EqualFold level AUDIT_QUERY_PROJECT = false
          ∧ c.EqualFold level c.AUDIT_QUERY_TENANT = true
          ∧ canon = c.AUDIT_QUERY_TENANT)) :
    overrideLevel c s level = .ok canon := by
  unfold overrideLevel
  rcases h with ⟨ha, hs, rfl⟩ | ⟨ha, hp, rfl⟩ | ⟨ha, hp, ht, rfl⟩
  · rw [if_pos ha, if_neg hs]
  · simp [ha, hp]
  · simp [ha, hp, ht]

theorem CreateSASTQueryOverride_rejected (c : Cx1Client) (s : AuditSession) (level : String)
    (err : Error) (h : overrideLevel c s level = .error err) (base : Option SASTQuery)
    (fuel : Nat) :
    CreateSASTQueryOverride c s level base fuel = some ⟨.returned ({}, some err), []⟩ := by
  unfold CreateSASTQueryOverride
  rw [h]

theorem CreateIACQueryOverride_rejected (c : Cx1Client) (s : AuditSession) (level : String)
    (err : Error) (h : overrideLevel c s level = .error err) (base : Option IACQuery)
    (fuel : Nat) :
    CreateIACQueryOverride c s level base fuel = some ⟨.returned ({}, some err, base), []⟩ := by
  unfold CreateIACQueryOverride
  rw [h]

/-- An accepted SAST override starts with the `POST` for the canonical level. -/
theorem CreateSASTQueryOverride_log (c : Cx1Client) (s : AuditSession) (level canon : String)
    (base : SASTQuery) (fuel : Nat) (r : Run (SASTQuery × Option Error))
    (hlevel : overrideLevel c s level = .ok canon)
    (h : CreateSASTQueryOverride c s level (some base) fuel = some r) :
    ∃ rest, r.log = Event.request (sastOverrideRequest c s canon base) :: rest := by
  unfold CreateSASTQueryOverride at h
  rw [hlevel] at h
  dsimp only at h
  repeat' split at h
  all_goals first
    | (obtain rfl := Option.some.inj h; exact ⟨_, rfl⟩)
    | exact absurd h (by simp)

/-- The second part of an IAC override starts, after the effects so far, with
the `POST` for the given level. -/
theorem createIACOverride_log (c : Cx1Client) (s : AuditSession) (canon : String)
    (base : IACQuery) (before : List Event) (fuel : Nat)
    (r : Run (IACQuery × Option Error × Option IACQuery))
    (h : createIACOverride c s canon base before fuel = some r) :
    ∃ rest, r.log = before ++ Event.request (iacOverrideRequest c s canon base) :: rest := by
  unfold createIACOverride at h
  dsimp only at h
  repeat' split at h
  all_goals first
    | (obtain rfl := Option.some.inj h; exact ⟨_, rfl⟩)
    | (obtain rfl := Option.some.inj h
       simp only [List.append_assoc, List.cons_append]
       exact ⟨_, rfl⟩)
    | exact absurd h (by simp)

/-- An accepted SAST override whose `POST` fails in transport returns that
error after the one request. -/
theorem CreateSASTQueryOverride_transport (c : Cx1Client) (s : AuditSession)
    (level canon : String) (base : SASTQuery) (fuel : Nat) (err : Error)
    (hlevel : overrideLevel c s level = .ok canon)
    (hreq : c.requestIDs (sastOverrideRequest c s canon base) = Reply.transportFailed err) :
    CreateSASTQueryOverride c s level (some base) fuel
      = some ⟨.returned ({}, some err), [Event.request (sastOverrideRequest c s canon base)]⟩ := by
  unfold CreateSASTQueryOverride
  rw [hlevel]
  simp only [hreq]

/-- An accepted SAST override whose `POST` is answered and whose poll returns
ends, and its effects start with the `POST` and the poll. -/
theorem CreateSASTQueryOverride_polled (c : Cx1Client) (s : AuditSession)
    (level canon : String) (base : SASTQuery) (fuel : Nat) (body : requestIDBody)
    (data : Polled) (hlevel : overrideLevel c s level = .ok canon)
    (hreq : c.requestIDs (sastOverrideRequest c s canon base) = Reply.received body none)
    (hpoll : AuditRequestStatusPollingByID c s body.Id fuel = some data) :
    ∃ outcome rest, CreateSASTQueryOverride c s level (some base) fuel
      = some ⟨outcome,
          Event.request (sastOverrideRequest c s canon base) :: (data.log ++ rest)⟩ := by
  unfold CreateSASTQueryOverride
  rw [hlevel]
  simp only [hreq, hpoll]
  repeat' split
  all_goals first
    | exact ⟨_, [], by rw [List.append_nil]⟩
    | exact ⟨_, _, rfl⟩

theorem createIACOverride_transport (c : Cx1Client) (s : AuditSession) (canon : String)
    (base : IACQuery) (before : List Event) (fuel : Nat) (err : Error)
    (hreq : c.requestIDs (iacOverrideRequest c s canon base) = Reply.transportFailed err) :
    createIACOverride c s canon base before fuel
      = some ⟨.returned ({}, some err, some base),
          before ++ [Event.request (iacOverrideRequest c s canon base)]⟩ := by
  unfold createIACOverride
  simp only [hreq]

theorem createIACOverride_polled (c : Cx1Client) (s : AuditSession) (canon : String)
    (base : IACQuery) (before : List Event) (fuel : Nat) (body : requestIDBody)
    (data : Polled)
    (hreq : c.requestIDs (iacOverrideRequest c s canon base) = Reply.received body none)
    (hpoll : AuditRequestStatusPollingByID c s body.Id fuel = some data) :
    ∃ outcome rest, createIACOverride c s canon base before fuel
      = some ⟨outcome,
          before ++ Event.request (iacOverrideRequest c s canon base)
            :: (data.log ++ rest)⟩ := by
  unfold createIACOverride
  simp only [hreq, hpoll]
  repeat' split
  all_goals first
    | exact ⟨_, [], by rw [List.append_nil]⟩
    | exact ⟨_, _, by rw [List.append_assoc]; rfl⟩

theorem CreateIACQueryOverride_described (c : Cx1Client) (s : AuditSession)
    (level canon : String) (base : IACQuery) (fuel : Nat)
    (hlevel : overrideLevel c s level = .ok canon) (hd : base.Description ≠ "") :
    CreateIACQueryOverride c s level (some base) fuel
      = createIACOverride c s canon base [] fuel := by
  unfold CreateIACQueryOverride
  rw [hlevel]
  dsimp only
  rw [if_neg hd]

theorem CreateIACQueryOverride_undescribed (c : Cx1Client) (s : AuditSession)
    (level canon : String) (base q : IACQuery) (sent : List Event) (fuel : Nat)
    (hlevel : overrideLevel c s level = .ok canon) (hd : base.Description = "")
    (hget : GetAuditIACQueryByID c s base.QueryID = ⟨.returned (q, none), sent⟩) :
    CreateIACQueryOverride c s level (some base) fuel
      = createIACOverride c s canon (c.MergeIACQuery base q) sent fuel := by
  unfold CreateIACQueryOverride
  rw [hlevel]
  dsimp only
  rw [if_pos hd, hget]

/-- C16: for a session whose `ApplicationID` is empty and a level that is the
Application level, whatever name that level has when the call is made, in any
letter case, `CreateSASTQueryOverride` and `CreateIACQueryOverride` return the
error about the missing application, for every base query (nil included),
and send no request. -/
theorem applicationOverride_needs_application (c : Cx1Client) (s : AuditSession)
    (level : String) (hs : s.ApplicationID = "")
    (hl : c.EqualFold level c.AUDIT_QUERY_APPLICATION = true) (fuel : Nat) :
    (∀ base, CreateSASTQueryOverride c s level base fuel
        = some ⟨.returned ({}, some (Error.noApplication s.ID)), []⟩)
    ∧ (∀ base, CreateIACQueryOverride c s level base fuel
        = some ⟨.returned ({}, some (Error.noApplication s.ID), base), []⟩) :=
  ⟨fun base => CreateSASTQueryOverride_rejected c s level _
      (overrideLevel_noApplication c s level hs hl) base fuel,
   fun base => CreateIACQueryOverride_rejected c s level _
      (overrideLevel_noApplication c s level hs hl) base fuel⟩

/-- Witness of C16: on a session without application, the level spelled `TEAM`
while the Application level is named `Team`, and the level spelled
`APPLICATION` once `InitializeClient` has renamed it to `Application`. -/
theorem applicationOverride_needs_application_witness :
    ((∀ base, CreateSASTQueryOverride editorClient staleSession "TEAM" base 0
        = some ⟨.returned ({}, some (Error.noApplication "sess")), []⟩)
      ∧ (∀ base, CreateIACQueryOverride editorClient staleSession "TEAM" base 0
        = some ⟨.returned ({}, some (Error.noApplication "sess"), base), []⟩))
    ∧ ((∀ base, CreateSASTQueryOverride currentClient staleSession "APPLICATION" base 0
        = some ⟨.returned ({}, some (Error.noApplication "sess")), []⟩)
      ∧ (∀ base, CreateIACQueryOverride currentClient staleSession "APPLICATION" base 0
        = some ⟨.returned ({}, some (Error.noApplication "sess"), base), []⟩)) :=
  ⟨applicationOverride_needs_application editorClient staleSession "TEAM" rfl (by decide) 0,
   applicationOverride_needs_application currentClient staleSession "APPLICATION" rfl
    (by decide) 0⟩

theorem overrideLevel_canonical (c : Cx1Client) (s : AuditSession) (level canon : String)
    (h : overrideLevel c s level = .ok canon) :
    canon = c.AUDIT_QUERY_APPLICATION ∨ canon = AUDIT_QUERY_PROJECT
      ∨ canon = c.AUDIT_QUERY_TENANT := by
  unfold overrideLevel at h
  split_ifs at h
  · exact Or.inl (Except.ok.inj h).symm
  · exact Or.inr (Or.inl (Except.ok.inj h).symm)
  · exact Or.inr (Or.inr (Except.ok.inj h).symm)

/-- C17: `CreateSASTQueryOverride` and `CreateIACQueryOverride` normalise the
level without regard to letter case. For a level that folds to the
Application level (on a session with an application), else to the Project
level, else to the Tenant level, whatever the names of these levels are when
the call is made, the call goes on with the canonical name: the body of the
`POST` carries the lower-cased canonical name; when the `POST` fails in
transport the call returns that error after this one request; and when the
`POST` is answered and the poll returns, the call ends and its effects are
the `POST` for the canonical name, then the poll, then what follows (for an
IAC base query without description, after the metadata fetch). Any other
level, the Product level included when it folds to none of the three, is
rejected with the invalid-level error and nothing is sent. -/
theorem override_level_normalised (c : Cx1Client) (s : AuditSession) (level : String)
    (fuel : Nat) :
    (∀ canon,
      ((c.EqualFold level c.AUDIT_QUERY_APPLICATION = true ∧ s.ApplicationID ≠ ""
          ∧ canon = c.AUDIT_QUERY_APPLICATION)
        ∨ (c.EqualFold level c.AUDIT_QUERY_APPLICATION = false
          ∧ c.EqualFold level AUDIT_QUERY_PROJECT = true ∧ canon = AUDIT_QUERY_PROJECT)
        ∨ (c.EqualFold level c.AUDIT_QUERY_APPLICATION = false
          ∧ c.EqualFold level AUDIT_QUERY_PROJECT = false
          ∧ c.EqualFold level c.AUDIT_QUERY_TENANT = true
          ∧ canon = c.AUDIT_QUERY_TENANT)) →
      (∀ base, (sastOverrideRequest c s canon base).body.lookup "level"
          = some (c.ToLower canon))
      ∧ (∀ base, (iacOverrideRequest c s canon base).body.lookup "IACQuery.Level"
          = some (c.ToLower canon))
      ∧ (∀ base err,
          c.requestIDs (sastOverrideRequest c s canon base) = Reply.transportFailed err →
          CreateSASTQueryOverride c s level (some base) fuel
            = some ⟨.returned ({}, some err),
                [Event.request (sastOverrideRequest c s canon base)]⟩)
      ∧ (∀ base body data,
          c.requestIDs (sastOverrideRequest c s canon base) = Reply.received body none →
          AuditRequestStatusPollingByID c s body.Id fuel = some data →
          ∃ outcome rest, CreateSASTQueryOverride c s level (some base) fuel
            = some ⟨outcome,
                Event.request (sastOverrideRequest c s canon base) :: (data.log ++ rest)⟩)
      ∧ (∀ base err, base.Description ≠ "" →
          c.requestIDs (iacOverrideRequest c s canon base) = Reply.transportFailed err →
          CreateIACQueryOverride c s level (some base) fuel
            = some ⟨.returned ({}, some err, some base),
                [Event.request (iacOverrideRequest c s canon base)]⟩)
      ∧ (∀ base body data, base.Description ≠ "" →
          c.requestIDs (iacOverrideRequest c s canon base) = Reply.received body none →
          AuditRequestStatusPollingByID c s body.Id fuel = some data →
          ∃ outcome rest, CreateIACQueryOverride c s level (some base) fuel
            = some ⟨outcome,
                Event.request (iacOverrideRequest c s canon base) :: (data.log ++ rest)⟩)
      ∧ (∀ base q sent body data, base.Description = "" →
          GetAuditIACQueryByID c s base.QueryID = ⟨.returned (q, none), sent⟩ →
          c.requestIDs (iacOverrideRequest c s canon (c.MergeIACQuery base q))
            = Reply.received body none →
          AuditRequestStatusPollingByID c s body.Id fuel = some data →
          ∃ outcome rest, CreateIACQueryOverride c s level (some base) fuel
            = some ⟨outcome,
                sent ++ Event.request (iacOverrideRequest c s canon (c.MergeIACQuery base q))
                  :: (data.log ++ rest)⟩))
    ∧ (c.EqualFold level c.AUDIT_QUERY_APPLICATION = false →
        c.EqualFold level AUDIT_QUERY_PROJECT = false →
        c.EqualFold level c.AUDIT_QUERY_TENANT = false →
        (∀ base, CreateSASTQueryOverride c s level base fuel
          = some ⟨.returned ({}, some (Error.invalidOverrideLevel level)), []⟩)
        ∧ (∀ base, CreateIACQueryOverride c s level base fuel
          = some ⟨.returned ({}, some (Error.invalidOverrideLevel level), base), []⟩)) := by
  constructor
  · intro canon haccepted
    have hlevel := overrideLevel_accepted c s level canon haccepted
    refine ⟨fun _ => rfl, fun _ => rfl, ?_, ?_, ?_, ?_, ?_⟩
    · intro base err hreq
      exact CreateSASTQueryOverride_transport c s level canon base fuel err hlevel hreq
    · intro base body data hreq hpoll
      exact CreateSASTQueryOverride_polled c s level canon base fuel body data hlevel hreq hpoll
    · intro base err hd hreq
      rw [CreateIACQueryOverride_described c s level canon base fuel hlevel hd,
        createIACOverride_transport c s canon base [] fuel err hreq]
      rfl
    · intro base body data hd hreq hpoll
      rw [CreateIACQueryOverride_described c s level canon base fuel hlevel hd]
      obtain ⟨outcome, rest, h⟩ :=
        createIACOverride_polled c s canon base [] fuel body data hreq hpoll
      exact ⟨outcome, rest, by rw [h]; rfl⟩
    · intro base q sent body data hd hget hreq hpoll
      rw [CreateIACQueryOverride_undescribed c s level canon base q sent fuel hlevel hd hget]
      exact createIACOverride_polled c s canon _ sent fuel body data hreq hpoll
  · intro ha hp ht
    exact ⟨fun base => CreateSASTQueryOverride_rejected c s level _
        (overrideLevel_invalid c s level ha hp ht) base fuel,
      fun base => CreateIACQueryOverride_rejected c s level _
        (overrideLevel_invalid c s level ha hp ht) base fuel⟩

/-- Witness of C17: a SAST override asked for as `pRoJeCt` while the levels have
their declared names, an IAC override asked for as `TENANT` once
`InitializeClient` has renamed the Tenant level, and the Product level `Cx`
rejected by both functions with nothing sent. -/
theorem override_level_normalised_witness :
    (∃ outcome rest,
      CreateSASTQueryOverride editorClient sastSession "pRoJeCt" (some keyedSASTQuery) 1
        = some ⟨outcome,
            Event.request (sastOverrideRequest editorClient sastSession "Project" keyedSASTQuery)
              :: ([Event.request (statusRequest sastSession "create")] ++ rest)⟩)
    ∧ (sastOverrideRequest editorClient sastSession "Project" keyedSASTQuery).body.lookup "level"
      = some "project"
    ∧ (∃ outcome rest,
      CreateIACQueryOverride currentClient sastSession "TENANT" (some keyedIACQuery) 1
        = some ⟨outcome,
            Event.request (iacOverrideRequest currentClient sastSession "Tenant" keyedIACQuery)
              :: ([Event.request (statusRequest sastSession "create")] ++ rest)⟩)
    ∧ (iacOverrideRequest currentClient sastSession "Tenant" keyedIACQuery).body.lookup
        "IACQuery.Level" = some "tenant"
    ∧ (∀ base, CreateSASTQueryOverride currentClient sastSession "Cx" base 0
        = some ⟨.returned ({}, some (Error.invalidOverrideLevel "Cx")), []⟩)
    ∧ (∀ base, CreateIACQueryOverride currentClient sastSession "Cx" base 0
        = some ⟨.returned ({}, some (Error.invalidOverrideLevel "Cx"), base), []⟩) :=
  ⟨((override_level_normalised editorClient sastSession "pRoJeCt" 1).1 "Project"
      (Or.inr (Or.inl ⟨by decide, by decide, rfl⟩))).2.2.2.1 keyedSASTQuery { Id := "create" }
      ⟨Dyn.object [("id", Dyn.string "newkey")], none,
        [Event.request (statusRequest sastSession "create")]⟩ rfl rfl,
   ((override_level_normalised editorClient sastSession "pRoJeCt" 1).1 "Project"
      (Or.inr (Or.inl ⟨by decide, by decide, rfl⟩))).1 keyedSASTQuery,
   ((override_level_normalised currentClient sastSession "TENANT" 1).1 "Tenant"
      (Or.inr (Or.inr ⟨by decide, by decide, by decide, rfl⟩))).2.2.2.2.2.1 keyedIACQuery
      { Id := "create" }
      ⟨Dyn.object [("id", Dyn.string "newkey")], none,
        [Event.request (statusRequest sastSession "create")]⟩ (by decide) rfl rfl,
   ((override_level_normalised currentClient sastSession "TENANT" 1).1 "Tenant"
      (Or.inr (Or.inr ⟨by decide, by decide, by decide, rfl⟩))).2.1 keyedIACQuery,
   ((override_level_normalised currentClient sastSession "Cx" 0).2
      (by decide) (by decide) (by decide)).1,
   ((override_level_normalised currentClient sastSession "Cx" 0).2
      (by decide) (by decide) (by decide)).2⟩

/-- The zero-owner half of C18: for every session returned with a nil error by
`AuditCreateSessionByID` for a project that has no owning application, an
override at the Application level, in any letter case, is refused by
`CreateSASTQueryOverride` and `CreateIACQueryOverride` with the error about the
missing application, and nothing is sent. -/
theorem applicationOverride_refused_without_owner (c : Cx1Client)
    (engine pid sid level : String) (fuel : Nat) (sess : AuditSession) (log : List Event)
    (proj : Project)
    (hsess : AuditCreateSessionByID c engine pid sid fuel = some ⟨.returned (sess, none), log⟩)
    (hproj : c.GetProjectByID pid = .ok proj) (hnone : proj.Applications = some [])
    (hl : c.EqualFold level c.AUDIT_QUERY_APPLICATION = true) :
    sess.ApplicationID = ""
    ∧ (∀ base fuel2, CreateSASTQueryOverride c sess level base fuel2
        = some ⟨.returned ({}, some (Error.noApplication sess.ID)), []⟩)
    ∧ (∀ base fuel2, CreateIACQueryOverride c sess level base fuel2
        = some ⟨.returned ({}, some (Error.noApplication sess.ID), base), []⟩) := by
  obtain ⟨appId, id, data, happ, _, hcase⟩ :=
    AuditCreateSessionByID_success c engine pid sid fuel sess log hsess
  have happId : appId = "" := by
    rw [hproj] at happ
    simp only [owningApplication, hnone] at happ
    simpa using happ.symm
  have hs : sess.ApplicationID = "" := by
    rcases hcase with ⟨_, _, _, _, _, _, _, hs, _⟩ | ⟨_, _, hs, _⟩ <;> rw [hs] <;> exact happId
  exact ⟨hs,
    fun base fuel2 => CreateSASTQueryOverride_rejected c sess level _
      (overrideLevel_noApplication c sess level hs hl) base fuel2,
    fun base fuel2 => CreateIACQueryOverride_rejected c sess level _
      (overrideLevel_noApplication c sess level hs hl) base fuel2⟩

/-- The session of a project without owner, as an instance of the zero-owner
half of C18. -/
theorem applicationOverride_refused_without_owner_witness :
    ({ markerSession with ApplicationID := "" } : AuditSession).ApplicationID = ""
    ∧ (∀ base fuel2, CreateSASTQueryOverride noOwnerClient
          { markerSession with ApplicationID := "" } "team" base fuel2
        = some ⟨.returned ({}, some (Error.noApplication "sess")), []⟩)
    ∧ (∀ base fuel2, CreateIACQueryOverride noOwnerClient
          { markerSession with ApplicationID := "" } "team" base fuel2
        = some ⟨.returned ({}, some (Error.noApplication "sess"), base), []⟩) :=
  applicationOverride_refused_without_owner noOwnerClient "sast" "proj" "scan" "team" 1
    { markerSession with ApplicationID := "" }
    [Event.projectLookup "proj", Event.request (projectSessionRequest "sast" "proj" "scan"),
     Event.request (statusRequest { ID := "sess" } "req")]
    ⟨some []⟩ rfl rfl rfl (by decide)

/-- C18: evaluation of the code for a project with two owning applications.
`AuditCreateSessionByID` returns a session whose application id is the marker
`Error: multiple owning applications`, and an Application-level override on
that session is not refused: the `POST` is sent, the request is polled, the
query is fetched, and the call returns it with a nil error and the marker as
`LevelID`. This holds with the Application level named `Team` and, after
`InitializeClient`, named `Application`. -/
theorem applicationOverride_accepted_with_marker :
    AuditCreateSessionByID editorClient "sast" "proj" "scan" 1
      = some ⟨.returned (markerSession, none),
          [Event.projectLookup "proj", Event.request (projectSessionRequest "sast" "proj" "scan"),
           Event.request (statusRequest markerSession "req")]⟩
    ∧ CreateSASTQueryOverride editorClient markerSession "Team" (some keyedSASTQuery) 1
      = some ⟨.returned (markerOverride, none),
          [Event.request (sastOverrideRequest editorClient markerSession "Team" keyedSASTQuery),
           Event.request (statusRequest markerSession "create"),
           Event.request (sastQueryRequest editorClient markerSession "newkey")]⟩
    ∧ AuditCreateSessionByID currentClient "sast" "proj" "scan" 1
      = some ⟨.returned (markerSession, none),
          [Event.projectLookup "proj", Event.request (projectSessionRequest "sast" "proj" "scan"),
           Event.request (statusRequest markerSession "req")]⟩
    ∧ CreateSASTQueryOverride currentClient markerSession "Application" (some keyedSASTQuery) 1
      = some ⟨.returned (markerOverride, none),
          [Event.request
            (sastOverrideRequest currentClient markerSession "Application" keyedSASTQuery),
           Event.request (statusRequest markerSession "create"),
           Event.request (sastQueryRequest currentClient markerSession "newkey")]⟩ :=
  ⟨rfl, rfl, rfl, rfl⟩

/-! ## Query fetches -/

/-- C19: the level variables holding their declared or their reassigned names,
a query that the remote reports at one of the four levels is returned by
`GetAuditSASTQueryByKey`, and by `GetAuditIACQueryByID` when its id has at
least two bytes, with a nil error, after the one `GET`, as the converted
record with `LevelID` set from that level: the Product level name for
Product, the Tenant level name for Tenant, the session's application id for
Application, and the session's project id for Project. Conversely every query
returned with a nil error has the level the remote reported and the
`LevelID` of that level. -/
theorem fetched_query_levelID (c : Cx1Client) (s : AuditSession) (key : String)
    (hlevels : levelsAssigned c) :
    (∀ q levelID, c.sastQueries (sastQueryRequest c s key) = Reply.received q none →
      ((q.Level = AUDIT_QUERY_PRODUCT ∧ levelID = AUDIT_QUERY_PRODUCT)
        ∨ (q.Level = c.AUDIT_QUERY_TENANT ∧ levelID = c.AUDIT_QUERY_TENANT)
        ∨ (q.Level = c.AUDIT_QUERY_APPLICATION ∧ levelID = s.ApplicationID)
        ∨ (q.Level = AUDIT_QUERY_PROJECT ∧ levelID = s.ProjectID)) →
      GetAuditSASTQueryByKey c s key
        = (({ q.ToSASTQuery with LevelID := levelID }, none),
           [Event.request (sastQueryRequest c s key)]))
    ∧ (∀ q colon levelID, c.iacQueries (iacQueryRequest c s key) = Reply.received q none →
      secondByteIsColon q.QueryID = some colon →
      ((q.Level = AUDIT_QUERY_PRODUCT ∧ levelID = AUDIT_QUERY_PRODUCT)
        ∨ (q.Level = c.AUDIT_QUERY_TENANT ∧ levelID = c.AUDIT_QUERY_TENANT)
        ∨ (q.Level = c.AUDIT_QUERY_APPLICATION ∧ levelID = s.ApplicationID)
        ∨ (q.Level = AUDIT_QUERY_PROJECT ∧ levelID = s.ProjectID)) →
      GetAuditIACQueryByID c s key
        = ⟨.returned
            ({ AuditIACQuery.ToIACQuery
                { q with
                  Key := if colon = true then String.mk (q.QueryID.data.drop 2)
                    else q.QueryID } with
               LevelID := levelID }, none),
           [Event.request (iacQueryRequest c s key)]⟩)
    ∧ (∀ query log, GetAuditSASTQueryByKey c s key = ((query, none), log) →
      (∃ q, c.sastQueries (sastQueryRequest c s key) = Reply.received q none
        ∧ query.Level = q.Level)
      ∧ (query.Level = AUDIT_QUERY_PRODUCT → query.LevelID = AUDIT_QUERY_PRODUCT)
      ∧ (query.Level = c.AUDIT_QUERY_TENANT → query.LevelID = c.AUDIT_QUERY_TENANT)
      ∧ (query.Level = c.AUDIT_QUERY_APPLICATION → query.LevelID = s.ApplicationID)
      ∧ (query.Level = AUDIT_QUERY_PROJECT → query.LevelID = s.ProjectID))
    ∧ (∀ query log, GetAuditIACQueryByID c s key = ⟨.returned (query, none), log⟩ →
      (∃ q, c.iacQueries (iacQueryRequest c s key) = Reply.received q none
        ∧ query.Level = q.Level)
      ∧ (query.Level = AUDIT_QUERY_PRODUCT → query.LevelID = AUDIT_QUERY_PRODUCT)
      ∧ (query.Level = c.AUDIT_QUERY_TENANT → query.LevelID = c.AUDIT_QUERY_TENANT)
      ∧ (query.Level = c.AUDIT_QUERY_APPLICATION → query.LevelID = s.ApplicationID)
      ∧ (query.Level = AUDIT_QUERY_PROJECT → query.LevelID = s.ProjectID)) := by
  have hswitch : ∀ level old levelID,
      ((level = AUDIT_QUERY_PRODUCT ∧ levelID = AUDIT_QUERY_PRODUCT)
        ∨ (level = c.AUDIT_QUERY_TENANT ∧ levelID = c.AUDIT_QUERY_TENANT)
        ∨ (level = c.AUDIT_QUERY_APPLICATION ∧ levelID = s.ApplicationID)
        ∨ (level = AUDIT_QUERY_PROJECT ∧ levelID = s.ProjectID)) →
      switchLevelID c s level old = levelID := by
    intro level old levelID hcase
    rcases hcase with ⟨rfl, rfl⟩ | ⟨rfl, rfl⟩ | ⟨rfl, rfl⟩ | ⟨rfl, rfl⟩
    · exact switchLevelID_product c s old hlevels
    · exact switchLevelID_tenant c s old hlevels
    · exact switchLevelID_application c s old
    · exact switchLevelID_project c s old hlevels
  refine ⟨?_, ?_, ?_, ?_⟩
  · intro q levelID hq hcase
    unfold GetAuditSASTQueryByKey
    simp only [hq]
    rw [show (AuditSASTQuery.ToSASTQuery q).Level = q.Level from rfl,
      hswitch q.Level _ levelID hcase]
  · intro q colon levelID hq hcolon hcase
    unfold GetAuditIACQueryByID
    simp only [hq, hcolon]
    rw [show (AuditIACQuery.ToIACQuery
        { q with
          Key := if colon = true then String.mk (q.QueryID.data.drop 2)
            else q.QueryID }).Level = q.Level from rfl,
      hswitch q.Level _ levelID hcase]
  · intro query log h
    unfold GetAuditSASTQueryByKey at h
    dsimp only at h
    split at h
    · simp at h
    · simp at h
    · rename_i q hq
      simp only [Prod.mk.injEq, and_true] at h
      obtain ⟨hquery, _⟩ := h
      subst hquery
      refine ⟨⟨q, hq, rfl⟩, ?_, ?_, ?_, ?_⟩ <;> intro hl
      · exact hswitch _ _ _ (Or.inl ⟨hl, rfl⟩)
      · exact hswitch _ _ _ (Or.inr (Or.inl ⟨hl, rfl⟩))
      · exact hswitch _ _ _ (Or.inr (Or.inr (Or.inl ⟨hl, rfl⟩)))
      · exact hswitch _ _ _ (Or.inr (Or.inr (Or.inr ⟨hl, rfl⟩)))
  · intro query log h
    unfold GetAuditIACQueryByID at h
    dsimp only at h
    split at h
    · simp at h
    · simp at h
    · rename_i q hq
      split at h
      · simp at h
      · simp only [Run.mk.injEq, Outcome.returned.injEq, Prod.mk.injEq, and_true] at h
        obtain ⟨hquery, _⟩ := h
        subst hquery
        refine ⟨⟨q, hq, rfl⟩, ?_, ?_, ?_, ?_⟩ <;> intro hl
        · exact hswitch _ _ _ (Or.inl ⟨hl, rfl⟩)
        · exact hswitch _ _ _ (Or.inr (Or.inl ⟨hl, rfl⟩))
        · exact hswitch _ _ _ (Or.inr (Or.inr (Or.inl ⟨hl, rfl⟩)))
        · exact hswitch _ _ _ (Or.inr (Or.inr (Or.inr ⟨hl, rfl⟩)))

/-- Witness of C19: under `sastSession` (project `proj`, application `app`), SAST
queries reported at the four levels with the reassigned names, and IAC queries
reported at the four levels with the declared names. -/
theorem fetched_query_levelID_witness :
    (GetAuditSASTQueryByKey (levelClient currentClient "Cx") sastSession "newkey"
      = (({ AuditSASTQuery.ToSASTQuery { remoteSASTQuery with Level := "Cx" } with
            LevelID := "Cx" }, none),
         [Event.request (sastQueryRequest (levelClient currentClient "Cx") sastSession "newkey")])
    ∧ GetAuditSASTQueryByKey (levelClient currentClient "Tenant") sastSession "newkey"
      = (({ AuditSASTQuery.ToSASTQuery { remoteSASTQuery with Level := "Tenant" } with
            LevelID := "Tenant" }, none),
         [Event.request
            (sastQueryRequest (levelClient currentClient "Tenant") sastSession "newkey")])
    ∧ GetAuditSASTQueryByKey (levelClient currentClient "Application") sastSession "newkey"
      = (({ AuditSASTQuery.ToSASTQuery { remoteSASTQuery with Level := "Application" } with
            LevelID := "app" }, none),
         [Event.request
            (sastQueryRequest (levelClient currentClient "Application") sastSession "newkey")])
    ∧ GetAuditSASTQueryByKey (levelClient currentClient "Project") sastSession "newkey"
      = (({ AuditSASTQuery.ToSASTQuery { remoteSASTQuery with Level := "Project" } with
            LevelID := "proj" }, none),
         [Event.request
            (sastQueryRequest (levelClient currentClient "Project") sastSession "newkey")]))
    ∧ (GetAuditIACQueryByID (levelClient editorClient "Cx") sastSession "p:1234"
      = ⟨.returned
          ({ AuditIACQuery.ToIACQuery { remoteIACQuery with Level := "Cx", Key := "1234" } with
             LevelID := "Cx" }, none),
         [Event.request (iacQueryRequest (levelClient editorClient "Cx") sastSession "p:1234")]⟩
    ∧ GetAuditIACQueryByID (levelClient editorClient "Corp") sastSession "p:1234"
      = ⟨.returned
          ({ AuditIACQuery.ToIACQuery { remoteIACQuery with Level := "Corp", Key := "1234" } with
             LevelID := "Corp" }, none),
         [Event.request (iacQueryRequest (levelClient editorClient "Corp") sastSession "p:1234")]⟩
    ∧ GetAuditIACQueryByID (levelClient editorClient "Team") sastSession "p:1234"
      = ⟨.returned
          ({ AuditIACQuery.ToIACQuery { remoteIACQuery with Level := "Team", Key := "1234" } with
             LevelID := "app" }, none),
         [Event.request (iacQueryRequest (levelClient editorClient "Team") sastSession "p:1234")]⟩
    ∧ GetAuditIACQueryByID (levelClient editorClient "Project") sastSession "p:1234"
      = ⟨.returned
          ({ AuditIACQuery.ToIACQuery
              { remoteIACQuery with Level := "Project", Key := "1234" } with
             LevelID := "proj" }, none),
         [Event.request
            (iacQueryRequest (levelClient editorClient "Project") sastSession "p:1234")]⟩) :=
  ⟨⟨(fetched_query_levelID (levelClient currentClient "Cx") sastSession "newkey"
        (Or.inr ⟨rfl, rfl⟩)).1 { remoteSASTQuery with Level := "Cx" } "Cx" rfl
        (Or.inl ⟨rfl, rfl⟩),
     (fetched_query_levelID (levelClient currentClient "Tenant") sastSession "newkey"
        (Or.inr ⟨rfl, rfl⟩)).1 { remoteSASTQuery with Level := "Tenant" } "Tenant" rfl
        (Or.inr (Or.inl ⟨rfl, rfl⟩)),
     (fetched_query_levelID (levelClient currentClient "Application") sastSession "newkey"
        (Or.inr ⟨rfl, rfl⟩)).1 { remoteSASTQuery with Level := "Application" } "app" rfl
        (Or.inr (Or.inr (Or.inl ⟨rfl, rfl⟩))),
     (fetched_query_levelID (levelClient currentClient "Project") sastSession "newkey"
        (Or.inr ⟨rfl, rfl⟩)).1 { remoteSASTQuery with Level := "Project" } "proj" rfl
        (Or.inr (Or.inr (Or.inr ⟨rfl, rfl⟩)))⟩,
   ⟨(fetched_query_levelID (levelClient editorClient "Cx") sastSession "p:1234"
        (Or.inl ⟨rfl, rfl⟩)).2.1 { remoteIACQuery with Level := "Cx" } true "Cx" rfl rfl
        (Or.inl ⟨rfl, rfl⟩),
     (fetched_query_levelID (levelClient editorClient "Corp") sastSession "p:1234"
        (Or.inl ⟨rfl, rfl⟩)).2.1 { remoteIACQuery with Level := "Corp" } true "Corp" rfl rfl
        (Or.inr (Or.inl ⟨rfl, rfl⟩)),
     (fetched_query_levelID (levelClient editorClient "Team") sastSession "p:1234"
        (Or.inl ⟨rfl, rfl⟩)).2.1 { remoteIACQuery with Level := "Team" } true "app" rfl rfl
        (Or.inr (Or.inr (Or.inl ⟨rfl, rfl⟩))),
     (fetched_query_levelID (levelClient editorClient "Project") sastSession "p:1234"
        (Or.inl ⟨rfl, rfl⟩)).2.1 { remoteIACQuery with Level := "Project" } true "proj" rfl rfl
        (Or.inr (Or.inr (Or.inr ⟨rfl, rfl⟩)))⟩⟩

/-- C20: the level variables holding their declared or their reassigned names,
`GetAuditQueryTreeByLevelID` accepts the Tenant and Project levels only. Every
other level string, the Application and Product levels among them, gives the
invalid-level error and an empty tree with nothing sent. For Tenant the one
request is a `GET` of `/query-editor/sessions/{id}/queries`, for Project a `GET`
of the same path with `?projectId={levelId}`, and the call returns what the
transport and the decoder deliver. -/
theorem queryTree_accepts_tenant_and_project (c : Cx1Client) (s : AuditSession)
    (level levelId : String) (hlevels : levelsAssigned c) :
    (level ≠ c.AUDIT_QUERY_TENANT → level ≠ AUDIT_QUERY_PROJECT →
      GetAuditQueryTreeByLevelID c s level levelId
        = (([], some (Error.invalidLevel level c.AUDIT_QUERY_TENANT AUDIT_QUERY_PROJECT)), []))
    ∧ GetAuditQueryTreeByLevelID c s c.AUDIT_QUERY_APPLICATION levelId
        = (([], some (Error.invalidLevel c.AUDIT_QUERY_APPLICATION c.AUDIT_QUERY_TENANT
              AUDIT_QUERY_PROJECT)), [])
    ∧ GetAuditQueryTreeByLevelID c s AUDIT_QUERY_PRODUCT levelId
        = (([], some (Error.invalidLevel AUDIT_QUERY_PRODUCT c.AUDIT_QUERY_TENANT
              AUDIT_QUERY_PROJECT)), [])
    ∧ (∀ url,
        (level = c.AUDIT_QUERY_TENANT ∧ url = "/query-editor/sessions/" ++ s.ID ++ "/queries")
          ∨ (level = AUDIT_QUERY_PROJECT
            ∧ url = "/query-editor/sessions/" ++ s.ID ++ "/queries?projectId=" ++ levelId) →
        (∀ tree err, c.queryTrees ⟨"GET", url, []⟩ = Reply.received tree err →
          GetAuditQueryTreeByLevelID c s level levelId
            = ((tree, err), [Event.request ⟨"GET", url, []⟩]))
        ∧ (∀ err, c.queryTrees ⟨"GET", url, []⟩ = Reply.transportFailed err →
          GetAuditQueryTreeByLevelID c s level levelId
            = (([], some err), [Event.request ⟨"GET", url, []⟩]))) := by
  obtain ⟨h1, h2, h3, h4, h5⟩ := levelsAssigned_distinct c hlevels
  have hrejected : ∀ other, other ≠ c.AUDIT_QUERY_TENANT → other ≠ AUDIT_QUERY_PROJECT →
      GetAuditQueryTreeByLevelID c s other levelId
        = (([], some (Error.invalidLevel other c.AUDIT_QUERY_TENANT AUDIT_QUERY_PROJECT)),
            []) := by
    intro other ht hp
    unfold GetAuditQueryTreeByLevelID
    simp only [if_neg ht, if_neg hp]
  refine ⟨hrejected level, hrejected _ h3 h2, hrejected _ (fun e => h4 e.symm) (by decide), ?_⟩
  intro url hurl
  have hsome : (if level = c.AUDIT_QUERY_TENANT then some (sessionPath s ++ "/queries")
      else if level = AUDIT_QUERY_PROJECT then
        some (sessionPath s ++ "/queries?projectId=" ++ levelId)
      else none) = some url := by
    rcases hurl with ⟨hl, hu⟩ | ⟨hl, hu⟩
    · rw [if_pos hl, hu]; rfl
    · have hne : level ≠ c.AUDIT_QUERY_TENANT := by rw [hl]; exact fun e => h5 e.symm
      rw [if_neg hne, if_pos hl, hu]; rfl
  constructor
  · intro tree err hreply
    unfold GetAuditQueryTreeByLevelID
    simp only [hsome, hreply]
  · intro err hreply
    unfold GetAuditQueryTreeByLevelID
    simp only [hsome, hreply]

/-- Witness of C20: once `InitializeClient` has renamed the levels, `Tenant` is
accepted and the old name `Corp` and the Application level are rejected; with
the declared names, `Corp` and `Project` are accepted and `project` is not. -/
theorem queryTree_accepts_tenant_and_project_witness :
    GetAuditQueryTreeByLevelID currentClient staleSession "Tenant" "Tenant"
      = (([⟨Dyn.string "Java"⟩], none),
         [Event.request ⟨"GET", "/query-editor/sessions/sess/queries", []⟩])
    ∧ GetAuditQueryTreeByLevelID currentClient staleSession "Corp" "Corp"
      = (([], some (Error.invalidLevel "Corp" "Tenant" "Project")), [])
    ∧ GetAuditQueryTreeByLevelID currentClient staleSession "Application" "app"
      = (([], some (Error.invalidLevel "Application" "Tenant" "Project")), [])
    ∧ GetAuditQueryTreeByLevelID editorClient staleSession "Corp" "Corp"
      = (([⟨Dyn.string "Java"⟩], none),
         [Event.request ⟨"GET", "/query-editor/sessions/sess/queries", []⟩])
    ∧ GetAuditQueryTreeByLevelID editorClient staleSession "Project" "proj"
      = (([⟨Dyn.string "Java"⟩], none),
         [Event.request ⟨"GET", "/query-editor/sessions/sess/queries?projectId=proj", []⟩])
    ∧ GetAuditQueryTreeByLevelID editorClient staleSession "project" "proj"
      = (([], some (Error.invalidLevel "project" "Corp" "Project")), []) :=
  ⟨(((queryTree_accepts_tenant_and_project currentClient staleSession "Tenant" "Tenant"
      (Or.inr ⟨rfl, rfl⟩)).2.2.2
      "/query-editor/sessions/sess/queries" (Or.inl ⟨rfl, by decide⟩)).1
      [⟨Dyn.string "Java"⟩] none rfl),
   (queryTree_accepts_tenant_and_project currentClient staleSession "Corp" "Corp"
      (Or.inr ⟨rfl, rfl⟩)).1 (by decide) (by decide),
   (queryTree_accepts_tenant_and_project currentClient staleSession "Application" "app"
      (Or.inr ⟨rfl, rfl⟩)).2.1,
   (((queryTree_accepts_tenant_and_project editorClient staleSession "Corp" "Corp"
      (Or.inl ⟨rfl, rfl⟩)).2.2.2
      "/query-editor/sessions/sess/queries" (Or.inl ⟨rfl, by decide⟩)).1
      [⟨Dyn.string "Java"⟩] none rfl),
   (((queryTree_accepts_tenant_and_project editorClient staleSession "Project" "proj"
      (Or.inl ⟨rfl, rfl⟩)).2.2.2
      "/query-editor/sessions/sess/queries?projectId=proj" (Or.inr ⟨rfl, by decide⟩)).1
      [⟨Dyn.string "Java"⟩] none rfl),
   (queryTree_accepts_tenant_and_project editorClient staleSession "project" "proj"
      (Or.inl ⟨rfl, rfl⟩)).1 (by decide) (by decide)⟩

/-! ## Interpretation of `failed_queries` -/

/-- The outcome of `updateQuerySourceByKey` once the `PUT` was answered, the poll
succeeded and the `failed_queries` field was decoded. -/
theorem updateQuerySourceByKey_decoded (c : Cx1Client) (s : AuditSession)
    (key source : String) (fuel : Nat) (body : requestIDBody) (polled : Polled)
    (m : List (String × Dyn)) (val : Dyn) (fails : List QueryFailure)
    (hput : c.requestIDs (sourceUpdateRequest s key source) = Reply.received body none)
    (hpoll : AuditRequestStatusPollingByID c s body.Id fuel = some polled)
    (herr : polled.err = none) (hval : polled.value = Dyn.object m)
    (hfq : m.lookup "failed_queries" = some val)
    (hdec : c.unmarshalFailures val = (fails, none)) :
    updateQuerySourceByKey c s key source fuel
      = some ((fails, if fails.length = 1 then some Error.saveSourceRejected else none),
          Event.request (sourceUpdateRequest s key source) :: polled.log) := by
  unfold updateQuerySourceByKey
  simp only [hput, hpoll, herr, hval, hfq, hdec]
  split_ifs <;> rfl

/-- C28: once the `PUT` was answered and the poll succeeded with a `failed_queries`
field that decodes to `fails`, `updateQuerySourceByKey` returns the
`failed to save source` error exactly when `fails` has one element, and with
no or with several elements it returns `fails` with a nil error; and whenever
the function returns that error, the failure list it returns has exactly one
element. -/
theorem updateSource_error_iff_one_failure (c : Cx1Client) (s : AuditSession)
    (key source : String) (fuel : Nat) :
    (∀ body polled m val fails,
      c.requestIDs (sourceUpdateRequest s key source) = Reply.received body none →
      AuditRequestStatusPollingByID c s body.Id fuel = some polled →
      polled.err = none → polled.value = Dyn.object m →
      m.lookup "failed_queries" = some val → c.unmarshalFailures val = (fails, none) →
      (fails.length = 1 →
        updateQuerySourceByKey c s key source fuel
          = some ((fails, some Error.saveSourceRejected),
              Event.request (sourceUpdateRequest s key source) :: polled.log))
      ∧ (fails.length ≠ 1 →
        updateQuerySourceByKey c s key source fuel
          = some ((fails, none),
              Event.request (sourceUpdateRequest s key source) :: polled.log)))
    ∧ (∀ fails log,
        updateQuerySourceByKey c s key source fuel
          = some ((fails, some Error.saveSourceRejected), log) →
        fails.length = 1) := by
  constructor
  · intro body polled m val fails hput hpoll herr hval hfq hdec
    have h := updateQuerySourceByKey_decoded c s key source fuel body polled m val fails
      hput hpoll herr hval hfq hdec
    constructor
    · intro h1
      rw [h, if_pos h1]
    · intro h1
      rw [h, if_neg h1]
  · intro fails log h
    unfold updateQuerySourceByKey at h
    dsimp only at h
    repeat' split at h
    all_goals first
      | (simp only [Option.some.injEq, Prod.mk.injEq] at h
         obtain ⟨⟨hf, _⟩, _⟩ := h
         subst hf
         assumption)
      | (simp at h)

/-- Witness of C28: one decoded failure gives the error, none gives a nil error. -/
theorem updateSource_error_iff_one_failure_witness :
    updateQuerySourceByKey (failingClient [compileFailure]) staleSession "newkey" "x" 1
      = some (([compileFailure], some Error.saveSourceRejected),
          Event.request (sourceUpdateRequest staleSession "newkey" "x")
            :: [Event.request (statusRequest staleSession "create")])
    ∧ updateQuerySourceByKey (failingClient []) staleSession "newkey" "x" 1
      = some (([], none),
          Event.request (sourceUpdateRequest staleSession "newkey" "x")
            :: [Event.request (statusRequest staleSession "create")]) :=
  ⟨((updateSource_error_iff_one_failure (failingClient [compileFailure]) staleSession
      "newkey" "x" 1).1 { Id := "create" }
      ⟨Dyn.object [("id", Dyn.string "newkey"), ("failed_queries", Dyn.array [])], none,
        [Event.request (statusRequest staleSession "create")]⟩
      [("id", Dyn.string "newkey"), ("failed_queries", Dyn.array [])] (Dyn.array [])
      [compileFailure] rfl rfl rfl rfl rfl rfl).1 rfl,
   ((updateSource_error_iff_one_failure (failingClient []) staleSession
      "newkey" "x" 1).1 { Id := "create" }
      ⟨Dyn.object [("id", Dyn.string "newkey"), ("failed_queries", Dyn.array [])], none,
        [Event.request (statusRequest staleSession "create")]⟩
      [("id", Dyn.string "newkey"), ("failed_queries", Dyn.array [])] (Dyn.array [])
      [] rfl rfl rfl rfl rfl rfl).2 (by decide)⟩

/-- C21: after a successful submit and poll, `ValidateQuerySourceByKey` returns
a nil error when the async result has no `failed_queries` field (or is not an
object) or when the field decodes to an empty list, and a non-nil error
together with exactly the decoded failures when the field decodes to a
non-empty list; its only effects are the submit and the status requests of
the poll. -/
theorem validate_interprets_failed_queries (c : Cx1Client) (s : AuditSession)
    (key source : String) (fuel : Nat) (body : requestIDBody) (polled : Polled)
    (hpost : c.requestIDs (validateRequest s key source) = Reply.received body none)
    (hpoll : AuditRequestStatusPollingByID c s body.Id fuel = some polled)
    (herr : polled.err = none) :
    ((∀ m, polled.value = Dyn.object m → m.lookup "failed_queries" = none) →
      ValidateQuerySourceByKey c s key source fuel
        = some (([], none), Event.request (validateRequest s key source) :: polled.log))
    ∧ (∀ m val fails, polled.value = Dyn.object m →
        m.lookup "failed_queries" = some val → c.unmarshalFailures val = (fails, none) →
        (fails = [] →
          ValidateQuerySourceByKey c s key source fuel
            = some (([], none), Event.request (validateRequest s key source) :: polled.log))
        ∧ (fails ≠ [] →
          ValidateQuerySourceByKey c s key source fuel
            = some ((fails, some Error.validateRejected),
                Event.request (validateRequest s key source) :: polled.log))) := by
  constructor
  · intro habsent
    unfold ValidateQuerySourceByKey
    simp only [hpost, hpoll, herr]
    split
    · rename_i m hm
      rw [habsent m hm]
    · rfl
  · intro m val fails hval hfq hdec
    unfold ValidateQuerySourceByKey
    simp only [hpost, hpoll, herr, hval, hfq, hdec]
    constructor
    · intro h
      subst h
      rfl
    · intro h
      rw [if_neg (by simpa using h)]

/-- Witness of C21: a result without the field, and a result with one failure. -/
theorem validate_interprets_failed_queries_witness :
    ValidateQuerySourceByKey editorClient staleSession "newkey" "x" 1
      = some (([], none),
          Event.request (validateRequest staleSession "newkey" "x")
            :: [Event.request (statusRequest staleSession "create")])
    ∧ ValidateQuerySourceByKey (failingClient [compileFailure]) staleSession "newkey" "x" 1
      = some (([compileFailure], some Error.validateRejected),
          Event.request (validateRequest staleSession "newkey" "x")
            :: [Event.request (statusRequest staleSession "create")]) :=
  ⟨(validate_interprets_failed_queries editorClient staleSession "newkey" "x" 1
      { Id := "create" }
      ⟨Dyn.object [("id", Dyn.string "newkey")], none,
        [Event.request (statusRequest staleSession "create")]⟩ rfl rfl rfl).1
      (fun m hm => by
        obtain rfl : [("id", Dyn.string "newkey")] = m := Dyn.object.inj hm
        rfl),
   ((validate_interprets_failed_queries (failingClient [compileFailure]) staleSession
      "newkey" "x" 1 { Id := "create" }
      ⟨Dyn.object [("id", Dyn.string "newkey"), ("failed_queries", Dyn.array [])], none,
        [Event.request (statusRequest staleSession "create")]⟩ rfl rfl rfl).2
      [("id", Dyn.string "newkey"), ("failed_queries", Dyn.array [])] (Dyn.array [])
      [compileFailure] rfl rfl rfl).2 (by simp)⟩

/-- C22: evaluation of `RunQueryByKey` on an async result whose `failed_queries`
field decodes to the empty list: the call returns the zero failure record
with the error `failed to run queries, details: []`, not a nil error, while
`ValidateQuerySourceByKey` returns a nil error on the same async result. -/
theorem runQuery_empty_failures_is_error :
    RunQueryByKey (failingClient []) staleSession "newkey" "x" 1
      = some ((⟨Dyn.null⟩, some (Error.runRejectedMany [])),
          [Event.request (runRequest staleSession "newkey" "x"),
           Event.request (statusRequest staleSession "create")])
    ∧ ValidateQuerySourceByKey (failingClient []) staleSession "newkey" "x" 1
      = some (([], none),
          [Event.request (validateRequest staleSession "newkey" "x"),
           Event.request (statusRequest staleSession "create")]) :=
  ⟨rfl, rfl⟩

/-- C23, counterexample: the metadata creation succeeds and the source update
reports one compilation failure; `CreateNewSASTQuery` returns the empty query
with the `failed to save source` error and never fetches the created query. -/
theorem createNew_one_failure_returns_empty_query :
    CreateNewSASTQuery (failingClient [compileFailure]) staleSession keylessSASTQuery 1
      = some ⟨Outcome.returned ({}, [compileFailure], some Error.saveSourceRejected),
          [Event.request (newSASTQueryRequest staleSession keylessSASTQuery),
           Event.request (statusRequest staleSession "create"),
           Event.request (sourceUpdateRequest staleSession "newkey" "result = All;"),
           Event.request (statusRequest staleSession "create")]⟩ :=
  rfl

/-- C23, amended: when the metadata creation succeeds and the source update's
async result carries a `failed_queries` field decoding to `fails`, then with
exactly one failure `CreateNewSASTQuery` returns the empty query, the
one-element failure list and the `failed to save source` error, and with two
or more failures it returns the record fetched by the key of the async
result (with the error of that fetch) together with the failure list. -/
theorem createNew_reports_failures (c : Cx1Client) (s : AuditSession) (query : SASTQuery)
    (fuel : Nat) (body : requestIDBody) (data : Polled) (m : List (String × Dyn))
    (key : String) (body2 : requestIDBody) (polled : Polled) (m2 : List (String × Dyn))
    (val : Dyn) (fails : List QueryFailure)
    (hpost : c.requestIDs (newSASTQueryRequest s query) = Reply.received body none)
    (hcreated : AuditRequestStatusPollingByID c s body.Id fuel = some data)
    (hdata : data.err = none) (hobj : data.value = Dyn.object m)
    (hid : m.lookup "id" = some (Dyn.string key))
    (hput : c.requestIDs (sourceUpdateRequest s key query.Source) = Reply.received body2 none)
    (hpoll : AuditRequestStatusPollingByID c s body2.Id fuel = some polled)
    (herr : polled.err = none) (hval : polled.value = Dyn.object m2)
    (hfq : m2.lookup "failed_queries" = some val)
    (hdec : c.unmarshalFailures val = (fails, none)) :
    (fails.length = 1 →
      CreateNewSASTQuery c s query fuel
        = some ⟨Outcome.returned ({}, fails, some Error.saveSourceRejected),
            Event.request (newSASTQueryRequest s query) :: data.log
              ++ Event.request (sourceUpdateRequest s key query.Source) :: polled.log⟩)
    ∧ (2 ≤ fails.length →
      CreateNewSASTQuery c s query fuel
        = some ⟨Outcome.returned ((GetAuditSASTQueryByKey c s key).1.1, fails,
              (GetAuditSASTQueryByKey c s key).1.2),
            Event.request (newSASTQueryRequest s query) :: data.log
              ++ Event.request (sourceUpdateRequest s key query.Source) :: polled.log
              ++ (GetAuditSASTQueryByKey c s key).2⟩) := by
  have hupdate := updateQuerySourceByKey_decoded c s key query.Source fuel body2 polled m2
    val fails hput hpoll herr hval hfq hdec
  constructor
  · intro h1
    rw [if_pos h1] at hupdate
    unfold CreateNewSASTQuery updateSASTQuerySourceByKey
    simp only [hpost, hcreated, hdata, hobj, hid, hupdate]
  · intro h2
    rw [if_neg (by omega)] at hupdate
    unfold CreateNewSASTQuery updateSASTQuerySourceByKey
    simp only [hpost, hcreated, hdata, hobj, hid, hupdate]

/-- Witness of C23, amended: two compilation failures come back with the fetched
query. -/
theorem createNew_reports_failures_witness :
    CreateNewSASTQuery (failingClient [compileFailure, compileFailure]) staleSession
        keylessSASTQuery 1
      = some ⟨Outcome.returned
            ((GetAuditSASTQueryByKey (failingClient [compileFailure, compileFailure])
                staleSession "newkey").1.1,
              [compileFailure, compileFailure], none),
          [Event.request (newSASTQueryRequest staleSession keylessSASTQuery),
           Event.request (statusRequest staleSession "create"),
           Event.request (sourceUpdateRequest staleSession "newkey" "result = All;"),
           Event.request (statusRequest staleSession "create"),
           Event.request
            (sastQueryRequest (failingClient [compileFailure, compileFailure])
              staleSession "newkey")]⟩ :=
  (createNew_reports_failures (failingClient [compileFailure, compileFailure]) staleSession
    keylessSASTQuery 1 { Id := "create" }
    ⟨Dyn.object [("id", Dyn.string "newkey"), ("failed_queries", Dyn.array [])], none,
      [Event.request (statusRequest staleSession "create")]⟩
    [("id", Dyn.string "newkey"), ("failed_queries", Dyn.array [])] "newkey"
    { Id := "create" }
    ⟨Dyn.object [("id", Dyn.string "newkey"), ("failed_queries", Dyn.array [])], none,
      [Event.request (statusRequest staleSession "create")]⟩
    [("id", Dyn.string "newkey"), ("failed_queries", Dyn.array [])] (Dyn.array [])
    [compileFailure, compileFailure] rfl rfl rfl rfl rfl rfl rfl rfl rfl rfl rfl).2
    (by decide)

/-! ## The query an override returns -/

theorem GetAuditSASTQueryByKey_QueryID (c : Cx1Client) (s : AuditSession) (key : String) :
    (GetAuditSASTQueryByKey c s key).1.1.QueryID = 0 := by
  unfold GetAuditSASTQueryByKey
  dsimp only
  split <;> rfl

theorem switchLevelID_cases (c : Cx1Client) (s : AuditSession) (canon LevelID : String)
    (hlevels : levelsAssigned c)
    (h : canon = c.AUDIT_QUERY_APPLICATION ∨ canon = AUDIT_QUERY_PROJECT
      ∨ canon = c.AUDIT_QUERY_TENANT) :
    (canon = c.AUDIT_QUERY_APPLICATION ∧ switchLevelID c s canon LevelID = s.ApplicationID)
    ∨ (canon = AUDIT_QUERY_PROJECT ∧ switchLevelID c s canon LevelID = s.ProjectID)
    ∨ (canon = c.AUDIT_QUERY_TENANT
      ∧ switchLevelID c s canon LevelID = c.AUDIT_QUERY_TENANT) := by
  rcases h with h | h | h
  · subst h
    exact Or.inl ⟨rfl, switchLevelID_application c s LevelID⟩
  · subst h
    exact Or.inr (Or.inl ⟨rfl, switchLevelID_project c s LevelID hlevels⟩)
  · subst h
    exact Or.inr (Or.inr ⟨rfl, switchLevelID_tenant c s LevelID hlevels⟩)

/-- C24: the level variables holding their declared or their reassigned names,
when `CreateSASTQueryOverride` returns a query with a nil error, the level
was normalised to one of the three override levels, the async result
was an object whose `id` is a string, the query was fetched by that id
without error, and the returned query is the fetched record with `LevelID`
set from the level (the session's ApplicationID, the session's ProjectID, or
the Tenant level name) and with `QueryID` set to the base query's when the
fetched record's is zero, which it always is; every other field is that of
the fetched record. -/
theorem override_returns_refetched_query (c : Cx1Client) (s : AuditSession) (level : String)
    (baseQuery : Option SASTQuery) (fuel : Nat) (q : SASTQuery) (log : List Event)
    (hlevels : levelsAssigned c)
    (h : CreateSASTQueryOverride c s level baseQuery fuel
      = some ⟨Outcome.returned (q, none), log⟩) :
    ∃ base canon key fetched,
      baseQuery = some base ∧ overrideLevel c s level = Except.ok canon
      ∧ (∃ body data m,
          c.requestIDs (sastOverrideRequest c s canon base) = Reply.received body none
          ∧ AuditRequestStatusPollingByID c s body.Id fuel = some data
          ∧ data.err = none ∧ data.value = Dyn.object m
          ∧ m.lookup "id" = some (Dyn.string key))
      ∧ (GetAuditSASTQueryByKey c s key).1 = (fetched, none)
      ∧ fetched.QueryID = 0
      ∧ q = { fetched with
              LevelID := q.LevelID
              QueryID := if fetched.QueryID = 0 then base.QueryID else fetched.QueryID }
      ∧ ((canon = c.AUDIT_QUERY_APPLICATION ∧ q.LevelID = s.ApplicationID)
        ∨ (canon = AUDIT_QUERY_PROJECT ∧ q.LevelID = s.ProjectID)
        ∨ (canon = c.AUDIT_QUERY_TENANT ∧ q.LevelID = c.AUDIT_QUERY_TENANT)) := by
  unfold CreateSASTQueryOverride at h
  dsimp only at h
  split at h
  · simp at h
  · rename_i canon hlev
    split at h
    · simp at h
    · rename_i base
      split at h
      · simp at h
      · simp at h
      · rename_i body hreq
        split at h
        · simp at h
        · rename_i data hpoll
          split at h
          · simp at h
          · rename_i herr
            split at h
            · rename_i m hval
              split at h
              · rename_i key hid
                split at h
                · simp at h
                · rename_i fetched sent hget
                  have hzero : fetched.QueryID = 0 := by
                    have := GetAuditSASTQueryByKey_QueryID c s key
                    rw [hget] at this
                    exact this
                  simp only [Option.some.injEq, Run.mk.injEq, Outcome.returned.injEq,
                    Prod.mk.injEq, and_true] at h
                  obtain ⟨hq, _⟩ := h
                  rw [if_pos hzero] at hq
                  subst hq
                  refine ⟨base, canon, key, fetched, rfl, hlev,
                    ⟨body, data, m, hreq, hpoll, herr, hval, hid⟩, ?_, hzero, ?_, ?_⟩
                  · rw [hget]
                  · rw [if_pos hzero]
                  · exact switchLevelID_cases c s canon fetched.LevelID hlevels
                      (overrideLevel_canonical c s level canon hlev)
              · simp at h
            · simp at h

/-- Witness of C24: a Tenant-level override of `keyedSASTQuery` under
`sastSession`, asked for as `tenant` once `InitializeClient` has renamed the
Tenant level. -/
theorem override_returns_refetched_query_witness :
    CreateSASTQueryOverride currentClient sastSession "tenant" (some keyedSASTQuery) 1
      = some ⟨Outcome.returned ({ markerOverride with LevelID := "Tenant" }, none),
          [Event.request (sastOverrideRequest currentClient sastSession "Tenant" keyedSASTQuery),
           Event.request (statusRequest sastSession "create"),
           Event.request (sastQueryRequest currentClient sastSession "newkey")]⟩
    ∧ ∃ base canon key fetched,
      some keyedSASTQuery = some base
      ∧ overrideLevel currentClient sastSession "tenant" = Except.ok canon
      ∧ (∃ body data m,
          currentClient.requestIDs (sastOverrideRequest currentClient sastSession canon base)
            = Reply.received body none
          ∧ AuditRequestStatusPollingByID currentClient sastSession body.Id 1 = some data
          ∧ data.err = none ∧ data.value = Dyn.object m
          ∧ m.lookup "id" = some (Dyn.string key))
      ∧ (GetAuditSASTQueryByKey currentClient sastSession key).1 = (fetched, none)
      ∧ fetched.QueryID = 0
      ∧ ({ markerOverride with LevelID := "Tenant" } : SASTQuery)
        = { fetched with
            LevelID := "Tenant"
            QueryID := if fetched.QueryID = 0 then base.QueryID else fetched.QueryID }
      ∧ ((canon = currentClient.AUDIT_QUERY_APPLICATION
          ∧ "Tenant" = sastSession.ApplicationID)
        ∨ (canon = AUDIT_QUERY_PROJECT ∧ "Tenant" = sastSession.ProjectID)
        ∨ (canon = currentClient.AUDIT_QUERY_TENANT
          ∧ "Tenant" = currentClient.AUDIT_QUERY_TENANT)) :=
  ⟨rfl,
   override_returns_refetched_query currentClient sastSession "tenant" (some keyedSASTQuery) 1
    { markerOverride with LevelID := "Tenant" }
    [Event.request (sastOverrideRequest currentClient sastSession "Tenant" keyedSASTQuery),
     Event.request (statusRequest sastSession "create"),
     Event.request (sastQueryRequest currentClient sastSession "newkey")]
    (Or.inr ⟨rfl, rfl⟩) rfl⟩

/-- C25: evaluation of `GetAuditIACQueryByID` on a decoded query record whose id
is empty, and on one whose id is a single character: the index `QueryID[1]`
is out of range and the call panics after its `GET`. -/
theorem getIACQuery_short_id_panics :
    GetAuditIACQueryByID (iacIdClient "") staleSession "1234"
      = ⟨Outcome.panicked,
          [Event.request (iacQueryRequest (iacIdClient "") staleSession "1234")]⟩
    ∧ GetAuditIACQueryByID (iacIdClient "p") staleSession "1234"
      = ⟨Outcome.panicked,
          [Event.request (iacQueryRequest (iacIdClient "p") staleSession "1234")]⟩ :=
  ⟨rfl, rfl⟩

/-! ## Transport -/

theorem sendRequestRaw_responded (c : Cx1Client) (request : Request) (r : HttpResponse)
    (h : c.Do request = DoResult.responded r) :
    sendRequestRaw c request = checkStatus c r := by
  unfold sendRequestRaw
  rw [h]

theorem sendRequest_of_raw (c : Cx1Client) (request : Request) (r : HttpResponse)
    (err : Option Error)
    (h : sendRequestRaw c request = Outcome.returned (some r, err)) :
    sendRequest c request = Outcome.returned (r.Body, err) := by
  unfold sendRequest sendRequestInternal
  rw [h]

theorem sendRequest_nil_error (c : Cx1Client) (request : Request) (body : String)
    (h : sendRequest c request = Outcome.returned (body, none)) :
    ∃ resp, sendRequestRaw c request = Outcome.returned (resp, none) := by
  unfold sendRequest sendRequestInternal at h
  split at h
  · exact absurd h (by simp)
  · rename_i response err hraw
    simp only [Outcome.returned.injEq, Prod.mk.injEq] at h
    exact ⟨some response, by rw [hraw, h.2]⟩
  · rename_i err hraw
    simp only [Outcome.returned.injEq, Prod.mk.injEq] at h
    exact ⟨none, by rw [hraw, h.2]⟩

theorem checkStatus_below_400 (c : Cx1Client) (r : HttpResponse) (h : r.StatusCode < 400) :
    checkStatus c r = Outcome.returned (some r, none) := by
  unfold checkStatus
  rw [if_neg (by omega)]

theorem checkStatus_from_400 (c : Cx1Client) (r : HttpResponse) (h : 400 ≤ r.StatusCode)
    (resp : Option HttpResponse) : checkStatus c r ≠ Outcome.returned (resp, none) := by
  unfold checkStatus
  rw [if_pos (by omega)]
  intro hcontra
  split at hcontra
  · split at hcontra
    · exact absurd hcontra (by simp)
    · simp at hcontra
  · simp at hcontra

theorem errorText_chain (msg : List (String × Dyn)) (body text : String)
    (h : fieldOf msg "message" = some (Dyn.string text)
      ∨ (fieldOf msg "message" = none
          ∧ fieldOf msg "error_description" = some (Dyn.string text))
      ∨ (fieldOf msg "message" = none ∧ fieldOf msg "error_description" = none
          ∧ fieldOf msg "error" = some (Dyn.string text))
      ∨ (fieldOf msg "message" = none ∧ fieldOf msg "error_description" = none
          ∧ fieldOf msg "error" = none
          ∧ fieldOf msg "errorMessage" = some (Dyn.string text))) :
    errorText msg body = some text := by
  unfold errorText
  rcases h with h | ⟨h1, h⟩ | ⟨h1, h2, h⟩ | ⟨h1, h2, h3, h⟩
  · simp only [h]
  · simp only [h1, h]
  · simp only [h1, h2, h]
  · simp only [h1, h2, h3, h]

/-- C26, counterexample: a response with status 304, which is not 2xx, comes
back from `sendRequestRaw` and from `sendRequest` with a nil error. -/
theorem transport_304_nil_error :
    sendRequestRaw (httpClient 304 "304 Not Modified" "" none) sampleRequest
      = Outcome.returned (some ⟨304, "304 Not Modified", ""⟩, none)
    ∧ sendRequest (httpClient 304 "304 Not Modified" "" none) sampleRequest
      = Outcome.returned ("", none)
    ∧ ¬ ((200 : Int) ≤ 304 ∧ (304 : Int) < 300) :=
  ⟨rfl, rfl, by decide⟩

/-- C26, amended: for a response received from the HTTP client, `sendRequestRaw`
and `sendRequest` return a nil error when the status code is below 400, and
never return a nil error when it is 400 or above; and for a status code of
400 or above whose body decodes to a JSON object, the error carries the
status and the first of `message`, `error_description`, `error`,
`errorMessage` that is present and not null, when that value is a string. -/
theorem transport_error_from_status_400 (c : Cx1Client) (request : Request)
    (r : HttpResponse) (h : c.Do request = DoResult.responded r) :
    (r.StatusCode < 400 →
      sendRequestRaw c request = Outcome.returned (some r, none)
      ∧ sendRequest c request = Outcome.returned (r.Body, none))
    ∧ (400 ≤ r.StatusCode →
      (∀ resp, sendRequestRaw c request ≠ Outcome.returned (resp, none))
      ∧ (∀ body, sendRequest c request ≠ Outcome.returned (body, none)))
    ∧ (400 ≤ r.StatusCode → ∀ msg text, c.unmarshalObject r.Body = some msg →
      (fieldOf msg "message" = some (Dyn.string text)
        ∨ (fieldOf msg "message" = none
            ∧ fieldOf msg "error_description" = some (Dyn.string text))
        ∨ (fieldOf msg "message" = none ∧ fieldOf msg "error_description" = none
            ∧ fieldOf msg "error" = some (Dyn.string text))
        ∨ (fieldOf msg "message" = none ∧ fieldOf msg "error_description" = none
            ∧ fieldOf msg "error" = none
            ∧ fieldOf msg "errorMessage" = some (Dyn.string text))) →
      sendRequestRaw c request
        = Outcome.returned (some { r with Body := "" }, some (Error.http r.Status text))
      ∧ sendRequest c request = Outcome.returned ("", some (Error.http r.Status text))) := by
  have hraw := sendRequestRaw_responded c request r h
  refine ⟨?_, ?_, ?_⟩
  · intro hlt
    have h1 : sendRequestRaw c request = Outcome.returned (some r, none) := by
      rw [hraw, checkStatus_below_400 c r hlt]
    exact ⟨h1, sendRequest_of_raw c request r none h1⟩
  · intro hge
    have h1 : ∀ resp, sendRequestRaw c request ≠ Outcome.returned (resp, none) := by
      intro resp
      rw [hraw]
      exact checkStatus_from_400 c r hge resp
    refine ⟨h1, ?_⟩
    intro body hbody
    obtain ⟨resp, hresp⟩ := sendRequest_nil_error c request body hbody
    exact h1 resp hresp
  · intro hge msg text hmsg hchain
    have h1 : sendRequestRaw c request
        = Outcome.returned (some { r with Body := "" }, some (Error.http r.Status text)) := by
      rw [hraw]
      unfold checkStatus
      rw [if_pos (by omega)]
      simp only [hmsg, errorText_chain msg r.Body text hchain]
    exact ⟨h1, sendRequest_of_raw c request _ _ h1⟩

/-- Witness of C26, amended: a 404 whose body has an `error` and no `message`. -/
theorem transport_error_from_status_400_witness :
    sendRequestRaw
        (httpClient 404 "404 Not Found" "body"
          (some [("message", Dyn.null), ("error", Dyn.string "no such project")]))
        sampleRequest
      = Outcome.returned (some ⟨404, "404 Not Found", ""⟩,
          some (Error.http "404 Not Found" "no such project"))
    ∧ sendRequest
        (httpClient 404 "404 Not Found" "body"
          (some [("message", Dyn.null), ("error", Dyn.string "no such project")]))
        sampleRequest
      = Outcome.returned ("", some (Error.http "404 Not Found" "no such project")) :=
  (transport_error_from_status_400
    (httpClient 404 "404 Not Found" "body"
      (some [("message", Dyn.null), ("error", Dyn.string "no such project")]))
    sampleRequest ⟨404, "404 Not Found", "body"⟩ rfl).2.2 (by decide)
    [("message", Dyn.null), ("error", Dyn.string "no such project")] "no such project" rfl
    (Or.inr (Or.inr (Or.inl ⟨rfl, rfl, rfl⟩)))

/-! ## Version check -/

theorem digitValue_not_sign (ch : Char) (d : Nat) (h : digitValue ch = some d) :
    ch ≠ '.' ∧ ch ≠ '+' ∧ ch ≠ '-' := by
  refine ⟨?_, ?_, ?_⟩
  · rintro rfl
    have hnone : digitValue '.' = none := by decide
    rw [hnone] at h
    exact absurd h (by simp)
  · rintro rfl
    have hnone : digitValue '+' = none := by decide
    rw [hnone] at h
    exact absurd h (by simp)
  · rintro rfl
    have hnone : digitValue '-' = none := by decide
    rw [hnone] at h
    exact absurd h (by simp)

theorem parseDigits_no_dot (x : List Char) : ∀ (acc a : Nat),
    parseDigits acc x = some a → '.' ∉ x := by
  induction x with
  | nil => intro _ _ _; simp
  | cons ch rest ih =>
    intro acc a h
    unfold parseDigits at h
    split at h
    · rename_i d hd
      have hne := (digitValue_not_sign ch d hd).1
      have hrest := ih _ _ h
      simp only [List.mem_cons, not_or]
      exact ⟨fun hc => hne hc.symm, hrest⟩
    · exact absurd h (by simp)

theorem splitDots_no_dot (x : List Char) (h : '.' ∉ x) : splitDots x = [x] := by
  induction x with
  | nil => rfl
  | cons ch rest ih =>
    simp only [List.mem_cons, not_or] at h
    unfold splitDots
    rw [if_neg (fun hc => h.1 hc.symm), ih h.2]

theorem splitDots_append_dot (x rest : List Char) (h : '.' ∉ x) :
    splitDots (x ++ '.' :: rest) = x :: splitDots rest := by
  induction x with
  | nil =>
    simp only [List.nil_append]
    rw [splitDots, if_pos rfl]
  | cons ch x ih =>
    simp only [List.mem_cons, not_or] at h
    simp only [List.cons_append]
    rw [splitDots, if_neg (fun hc => h.1 hc.symm), ih h.2]

theorem ParseInt_of_digits (x : List Char) (a : Nat) (h : isDecimal x a) :
    ParseInt x = (a : Int) := by
  obtain ⟨hne, hparse, hrange⟩ := h
  cases x with
  | nil => exact absurd rfl hne
  | cons ch rest =>
    have hd : ∃ d, digitValue ch = some d := by
      unfold parseDigits at hparse
      split at hparse
      · rename_i d hd
        exact ⟨d, hd⟩
      · exact absurd hparse (by simp)
    obtain ⟨d, hd⟩ := hd
    obtain ⟨_, hplus, hminus⟩ := digitValue_not_sign ch d hd
    have hsigned : (match ch :: rest with
        | '+' :: digits => (false, digits)
        | '-' :: digits => (true, digits)
        | digits => (false, digits)) = (false, ch :: rest) := by
      split
      · rename_i heq
        exact absurd (List.cons.inj heq).1 hplus
      · rename_i heq
        exact absurd (List.cons.inj heq).1 hminus
      · rfl
    unfold ParseInt
    simp only [hsigned, hparse]
    rw [if_neg (Nat.not_le.mpr hrange)]
    simp

theorem versionStringToInts_dotted (x1 x2 x3 : List Char) (a1 a2 a3 : Nat)
    (h1 : isDecimal x1 a1) (h2 : isDecimal x2 a2) (h3 : isDecimal x3 a3) :
    versionStringToInts (dotted x1 x2 x3) = [(a1 : Int), (a2 : Int), (a3 : Int)] := by
  have hne : dotted x1 x2 x3 ≠ "" := by
    intro hcontra
    have := congrArg String.data hcontra
    simp [dotted] at this
  unfold versionStringToInts
  rw [if_neg hne]
  have hsplit : splitDots (dotted x1 x2 x3).data = [x1, x2, x3] := by
    unfold dotted
    simp only
    rw [splitDots_append_dot x1 _ (parseDigits_no_dot x1 0 a1 h1.2.1),
      splitDots_append_dot x2 _ (parseDigits_no_dot x2 0 a2 h2.2.1),
      splitDots_no_dot x3 (parseDigits_no_dot x3 0 a3 h3.2.1)]
  rw [hsplit]
  simp only [List.map_cons, List.map_nil, ParseInt_of_digits x1 a1 h1,
    ParseInt_of_digits x2 a2 h2, ParseInt_of_digits x3 a3 h3]

theorem CheckCxOne_three (v : VersionInfo) (version : String) (a1 a2 a3 b1 b2 b3 : Int)
    (moreCheck moreCx1 : List Int)
    (hcheck : versionStringToInts version = b1 :: b2 :: b3 :: moreCheck)
    (hcx1 : versionStringToInts v.CxOne = a1 :: a2 :: a3 :: moreCx1) :
    v.CheckCxOne version
      = some (if b1 < a1 then 1 else if b1 > a1 then -1
          else if b2 < a2 then 1 else if b2 > a2 then -1
          else if b3 < a3 then 1 else if b3 > a3 then -1 else 0) := by
  unfold VersionInfo.CheckCxOne
  simp only [hcheck, hcx1, List.getElem?_cons_zero, List.getElem?_cons_succ]
  split_ifs <;> rfl

/-- C27, counterexample: the current version `1.0.9223372036854775808` is greater
than `1.0.9223372036854775807`, but its last component is out of the range
of `int64` and is read as the upper bound, so `CheckCxOne` returns 0. -/
theorem checkCxOne_saturated_patch :
    VersionInfo.CheckCxOne { CxOne := "1.0.9223372036854775808" } "1.0.9223372036854775807"
      = some 0
    ∧ versionLess (1, 0, 9223372036854775807) (1, 0, 9223372036854775808) :=
  ⟨by decide, Or.inr ⟨rfl, Or.inr ⟨rfl, by decide⟩⟩⟩

/-- C27, amended: for version strings of three dot-separated non-empty strings
of decimal digits whose values are below 2^63, `CheckCxOne` returns 1 when
the current version is greater than the argument, -1 when it is lower and 0
when they are equal, in the lexicographic order on (major, minor, patch);
and swapping the current version and the argument negates the result. -/
theorem checkCxOne_compares_versions (x1 x2 x3 y1 y2 y3 : List Char)
    (a1 a2 a3 b1 b2 b3 : Nat)
    (hx1 : isDecimal x1 a1) (hx2 : isDecimal x2 a2) (hx3 : isDecimal x3 a3)
    (hy1 : isDecimal y1 b1) (hy2 : isDecimal y2 b2) (hy3 : isDecimal y3 b3) :
    (versionLess (b1, b2, b3) (a1, a2, a3) →
      VersionInfo.CheckCxOne { CxOne := dotted x1 x2 x3 } (dotted y1 y2 y3) = some 1)
    ∧ (versionLess (a1, a2, a3) (b1, b2, b3) →
      VersionInfo.CheckCxOne { CxOne := dotted x1 x2 x3 } (dotted y1 y2 y3) = some (-1))
    ∧ ((a1, a2, a3) = (b1, b2, b3) →
      VersionInfo.CheckCxOne { CxOne := dotted x1 x2 x3 } (dotted y1 y2 y3) = some 0)
    ∧ VersionInfo.CheckCxOne { CxOne := dotted y1 y2 y3 } (dotted x1 x2 x3)
      = (VersionInfo.CheckCxOne { CxOne := dotted x1 x2 x3 } (dotted y1 y2 y3)).map
          (fun r => -r) := by
  have hx := versionStringToInts_dotted x1 x2 x3 a1 a2 a3 hx1 hx2 hx3
  have hy := versionStringToInts_dotted y1 y2 y3 b1 b2 b3 hy1 hy2 hy3
  have hxy := CheckCxOne_three { CxOne := dotted x1 x2 x3 } (dotted y1 y2 y3)
    a1 a2 a3 b1 b2 b3 [] [] hy hx
  have hyx := CheckCxOne_three { CxOne := dotted y1 y2 y3 } (dotted x1 x2 x3)
    b1 b2 b3 a1 a2 a3 [] [] hx hy
  refine ⟨?_, ?_, ?_, ?_⟩
  · intro hless
    unfold versionLess at hless
    simp only at hless
    rw [hxy]
    split_ifs <;> first | rfl | omega
  · intro hless
    unfold versionLess at hless
    simp only at hless
    rw [hxy]
    split_ifs <;> first | rfl | omega
  · intro heq
    simp only [Prod.mk.injEq] at heq
    rw [hxy]
    split_ifs <;> first | rfl | omega
  · rw [hxy, hyx]
    simp only [Option.map]
    split_ifs <;> first | rfl | omega

/-- Witness of C27, amended: current version `3.25.1` against `3.24.9`. -/
theorem checkCxOne_compares_versions_witness :
    VersionInfo.CheckCxOne { CxOne := dotted ['3'] ['2', '5'] ['1'] }
        (dotted ['3'] ['2', '4'] ['9']) = some 1 :=
  (checkCxOne_compares_versions ['3'] ['2', '5'] ['1'] ['3'] ['2', '4'] ['9'] 3 25 1 3 24 9
    ⟨by decide, by decide, by decide⟩ ⟨by decide, by decide, by decide⟩
    ⟨by decide, by decide, by decide⟩ ⟨by decide, by decide, by decide⟩
    ⟨by decide, by decide, by decide⟩ ⟨by decide, by decide, by decide⟩).1
    (Or.inr ⟨rfl, Or.inl (by decide)⟩)

theorem splitDots_ne_nil (x : List Char) : splitDots x ≠ [] := by
  cases x with
  | nil => simp [splitDots]
  | cons ch rest =>
    unfold splitDots
    split_ifs
    · simp
    · split <;> simp

theorem versionStringToInts_ne_nil (version : String) : versionStringToInts version ≠ [] := by
  unfold versionStringToInts
  split_ifs
  · simp
  · simpa using splitDots_ne_nil version.data

theorem versionStringToInts_length (version : String)
    (h : version = "" ∨ 3 ≤ (splitDots version.data).length) :
    3 ≤ (versionStringToInts version).length := by
  unfold versionStringToInts
  split_ifs with hempty
  · simp
  · rcases h with h | h
    · exact absurd h hempty
    · simpa using h

theorem getElem?_of_take_three (l1 l2 : List Int) (h : l1.take 3 = l2.take 3) :
    l1[0]? = l2[0]? ∧ l1[1]? = l2[1]? ∧ l1[2]? = l2[2]? := by
  rcases l1 with _ | ⟨a, _ | ⟨b, _ | ⟨c, rest⟩⟩⟩ <;>
    rcases l2 with _ | ⟨d, _ | ⟨e, _ | ⟨f, more⟩⟩⟩ <;>
    simp_all

/-- C29, counterexample: both version strings are non-empty and have one
component, and `CheckCxOne` returns 1 without any index out of range. -/
theorem checkCxOne_total_on_one_component :
    VersionInfo.CheckCxOne { CxOne := "2" } "1" = some 1
    ∧ (splitDots ("1" : String).data).length = 1
    ∧ (splitDots ("2" : String).data).length = 1 :=
  ⟨by decide, by decide, by decide⟩

/-- C29, amended: `versionStringToInts` maps the empty string to `[0,0,0]` and any
other string to the parsed values of its dot-separated components, one entry
per component; `CheckCxOne` is total whenever each of the two version strings
is empty or has at least three components; in general it panics exactly when
the first components agree and a list has fewer than two entries, or the
first two agree and a list has fewer than three; and its result depends only
on the first three entries of each list. -/
theorem checkCxOne_totality (v : VersionInfo) (version : String) :
    versionStringToInts "" = [0, 0, 0]
    ∧ (version ≠ "" →
        versionStringToInts version = (splitDots version.data).map ParseInt
        ∧ (versionStringToInts version).length = (splitDots version.data).length)
    ∧ ((version = "" ∨ 3 ≤ (splitDots version.data).length) →
        (v.CxOne = "" ∨ 3 ≤ (splitDots v.CxOne.data).length) →
        (v.CheckCxOne version).isSome = true)
    ∧ (v.CheckCxOne version = none ↔
        (versionStringToInts version)[0]? = (versionStringToInts v.CxOne)[0]?
        ∧ ((versionStringToInts version).length < 2
          ∨ (versionStringToInts v.CxOne).length < 2
          ∨ ((versionStringToInts version)[1]? = (versionStringToInts v.CxOne)[1]?
            ∧ ((versionStringToInts version).length < 3
              ∨ (versionStringToInts v.CxOne).length < 3))))
    ∧ (∀ (w : VersionInfo) (other : String),
        (versionStringToInts other).take 3 = (versionStringToInts version).take 3 →
        (versionStringToInts w.CxOne).take 3 = (versionStringToInts v.CxOne).take 3 →
        w.CheckCxOne other = v.CheckCxOne version) := by
  refine ⟨rfl, ?_, ?_, ?_, ?_⟩
  · intro hne
    unfold versionStringToInts
    rw [if_neg hne]
    exact ⟨rfl, by simp⟩
  · intro hversion hcx1
    have h1 := versionStringToInts_length version hversion
    have h2 := versionStringToInts_length v.CxOne hcx1
    unfold VersionInfo.CheckCxOne
    dsimp only
    revert h1 h2
    generalize versionStringToInts version = check
    generalize versionStringToInts v.CxOne = cx1
    intro h1 h2
    rcases check with _ | ⟨a, _ | ⟨b, _ | ⟨c, rest⟩⟩⟩ <;>
      rcases cx1 with _ | ⟨d, _ | ⟨e, _ | ⟨f, more⟩⟩⟩ <;>
      simp at h1 h2
    simp only [List.getElem?_cons_zero, List.getElem?_cons_succ]
    split_ifs <;> rfl
  · have h1 := versionStringToInts_ne_nil version
    have h2 := versionStringToInts_ne_nil v.CxOne
    unfold VersionInfo.CheckCxOne
    dsimp only
    revert h1 h2
    generalize versionStringToInts version = check
    generalize versionStringToInts v.CxOne = cx1
    intro h1 h2
    rcases check with _ | ⟨a, _ | ⟨b, _ | ⟨c, rest⟩⟩⟩ <;>
      rcases cx1 with _ | ⟨d, _ | ⟨e, _ | ⟨f, more⟩⟩⟩ <;>
      simp at h1 h2 ⊢ <;>
      (try split_ifs) <;> (try simp) <;> (try omega)
  · intro w other hother hcx1
    obtain ⟨c0, c1, c2⟩ := getElem?_of_take_three _ _ hother
    obtain ⟨x0, x1, x2⟩ := getElem?_of_take_three _ _ hcx1
    unfold VersionInfo.CheckCxOne
    simp only [c0, c1, c2, x0, x1, x2]

/-- Witness of C29, amended: an empty argument against a current version of four
components. -/
theorem checkCxOne_totality_witness :
    (VersionInfo.CheckCxOne { CxOne := "3.25.1.7" } "").isSome = true :=
  (checkCxOne_totality { CxOne := "3.25.1.7" } "").2.2.1 (Or.inl rfl) (Or.inr (by decide))

/-! ## User roles -/

theorem sortRoles_filter (c : Cx1Client) (roles rs : List Role) :
    sortRoles c roles rs
      = (rs.filter (fun r =>
            decide (r.ClientID = c.GetASTAppID)
              && roles.any (fun ar => decide (ar.RoleID = r.RoleID))),
         rs.filter (fun r =>
            !decide (r.ClientID = c.GetASTAppID) && decide (r.ClientID = c.GetTenantID)
              && roles.any (fun ir => decide (ir.RoleID = r.RoleID))),
         rs.filter (fun r =>
            (decide (r.ClientID = c.GetASTAppID) || decide (r.ClientID = c.GetTenantID))
              && !roles.any (fun ar => decide (ar.RoleID = r.RoleID)))) := by
  induction rs with
  | nil => rfl
  | cons r rest ih =>
    unfold sortRoles
    rw [ih]
    dsimp only
    by_cases h1 : r.ClientID = c.GetASTAppID
    · cases hm : roles.any (fun ar => decide (ar.RoleID = r.RoleID)) <;>
        simp [List.filter_cons, h1, hm]
    · by_cases h2 : r.ClientID = c.GetTenantID
      · have h3 : ¬ c.GetTenantID = c.GetASTAppID := fun h => h1 (h2.trans h)
        cases hm : roles.any (fun ar => decide (ar.RoleID = r.RoleID)) <;>
          simp [List.filter_cons, h2, h3, hm]
      · cases hm : roles.any (fun ar => decide (ar.RoleID = r.RoleID)) <;>
          simp [List.filter_cons, h1, h2, hm]

/-- C30: when `RemoveUserRoles` returns a nil error, the user's roles are the
previous roles, in their order, whose ClientID is the AST application id
or the tenant id and whose RoleID is the RoleID of no role in `roles`, so
that roles of any other ClientID are dropped; the only requests sent are the
removal of the matched application roles and the removal of the matched
tenant roles, each sent only for a non-empty list; and when a removal fails
the user is returned as it was. -/
theorem removeUserRoles_remaining (c : Cx1Client) (user : User) (roles : List Role) :
    ((RemoveUserRoles c user roles).1.2 = none →
      (RemoveUserRoles c user roles).1.1.Roles
        = user.Roles.filter (fun r =>
            (decide (r.ClientID = c.GetASTAppID) || decide (r.ClientID = c.GetTenantID))
              && !roles.any (fun ar => decide (ar.RoleID = r.RoleID)))
      ∧ (RemoveUserRoles c user roles).1.1.UserID = user.UserID
      ∧ (RemoveUserRoles c user roles).2
        = (if (user.Roles.filter (fun r =>
                decide (r.ClientID = c.GetASTAppID)
                  && roles.any (fun ar => decide (ar.RoleID = r.RoleID)))).length > 0
            then [Event.request (removeAppRolesRequest c user
              (user.Roles.filter (fun r =>
                decide (r.ClientID = c.GetASTAppID)
                  && roles.any (fun ar => decide (ar.RoleID = r.RoleID)))))]
            else [])
          ++ (if (user.Roles.filter (fun r =>
                !decide (r.ClientID = c.GetASTAppID) && decide (r.ClientID = c.GetTenantID)
                  && roles.any (fun ir => decide (ir.RoleID = r.RoleID)))).length > 0
            then [Event.request (removeIAMRolesRequest user
              (user.Roles.filter (fun r =>
                !decide (r.ClientID = c.GetASTAppID) && decide (r.ClientID = c.GetTenantID)
                  && roles.any (fun ir => decide (ir.RoleID = r.RoleID)))))]
            else []))
    ∧ ((RemoveUserRoles c user roles).1.2 ≠ none →
      (RemoveUserRoles c user roles).1.1 = user) := by
  unfold RemoveUserRoles
  rw [sortRoles_filter]
  dsimp only
  generalize c.send (removeAppRolesRequest c user _) = appErr
  generalize c.send (removeIAMRolesRequest user _) = iamErr
  constructor <;> cases appErr <;> cases iamErr <;> split_ifs <;> simp


/-- Witness of C30: removing `r1` and `r3` keeps the tenant role `r2` and the
application role `r4` and drops the role of the other client; with a remote
that refuses the removal the user is unchanged. -/
theorem removeUserRoles_remaining_witness :
    (RemoveUserRoles rolesClient sampleUser [⟨"", "r1", ""⟩, ⟨"", "r3", ""⟩]).1.1.Roles
      = [⟨"tenant", "r2", "iam-admin"⟩, ⟨"ast-app", "r4", "ast-scanner"⟩]
    ∧ (RemoveUserRoles editorClient sampleUser [⟨"", "r1", ""⟩, ⟨"", "r3", ""⟩]).1.1
      = sampleUser :=
  ⟨((removeUserRoles_remaining rolesClient sampleUser
      [⟨"", "r1", ""⟩, ⟨"", "r3", ""⟩]).1 rfl).1,
   (removeUserRoles_remaining editorClient sampleUser [⟨"", "r1", ""⟩, ⟨"", "r3", ""⟩]).2
    (show (some (Error.removeApplicationRolesFailed (Error.external "gone")) : Option Error)
      ≠ none from fun h => Option.noConfusion h)⟩

end Cx1ClientGo
